import Mathlib

/-!
# Strelka germline indel driver: `starling_pos_processor.cpp`

A shallow embedding of the indel path of `starling_pos_processor`
(`translateOldToNewGenotypeIndex`, `hackDiplotypeCallToCopyNumberCalls`,
`process_pos_indel_digt`) followed by theorems about it.

Conventions of the embedding:

* a failed `assert` and an access outside a container are results of type `Fatal`;
  every routine that can hit one returns `Except Fatal _`;
* `pos_t` is `Int`, `unsigned` is `Nat`;
* the members of the processor that the indel path mutates (the forced-output set and the
  records handed to the gVCF aggregator) are threaded explicitly as `ProcState`, together with
  a log of the calls made to the external likelihood routines;
* routines of other translation units (ploidy lookup, allele ranking, likelihood computation,
  ...) are fields of `Env`.
-/

namespace Strelka

/-- Fatal outcomes: a failed `assert`, or an index outside a container. -/
inductive Fatal where
  | assertion
  | outOfRange
deriving DecidableEq, Repr

/-! ## Allele keys and allele data -/

/-- Modelled from the spec: `IndelKey` is declared outside the examined sources. An allele key is
a start position plus an edit description (breakpoint flag, length of deleted reference, and a
code for the rest of the description). -/
structure IndelKey where
  pos : Int
  isBreakpoint : Bool
  deleteLength : Nat
  desc : Nat
deriving DecidableEq, Repr

namespace IndelKey

/-- Modelled from the spec: the constructor call `IndelKey(pos)`, the least key at `pos`. -/
def ofPos (pos : Int) : IndelKey := ⟨pos, false, 0, 0⟩

/-- Modelled from the spec: `IndelKey::is_breakpoint()`. -/
def is_breakpoint (k : IndelKey) : Bool := k.isBreakpoint

/-- Modelled from the spec: `IndelKey::right_pos()`, the end of the reference span. -/
def right_pos (k : IndelKey) : Int := k.pos + k.deleteLength

/-- Modelled from the spec: `IndelKey::operator<`, the order of the forced-output set and of the
indel buffer: by position first, then by the edit description. -/
def lt (a b : IndelKey) : Bool :=
  if a.pos < b.pos then true
  else if b.pos < a.pos then false
  else if a.isBreakpoint != b.isBreakpoint then b.isBreakpoint
  else if a.deleteLength < b.deleteLength then true
  else if b.deleteLength < a.deleteLength then false
  else decide (a.desc < b.desc)

end IndelKey

/-- Modelled from the spec: `IndelSampleData`, of which only the read support is consulted. -/
structure IndelSampleData where
  read_path_lnp : List Nat
deriving DecidableEq, Repr

/-- Modelled from the spec: `IndelData`, the per-allele support record: the forced-output flag
and the per-sample data. -/
structure IndelData where
  isForcedOutput : Bool
  sampleData : List IndelSampleData
deriving DecidableEq, Repr

/-- Modelled from the spec: `IndelData::getSampleData(sampleIndex)`; a sample without an entry has
no read support. -/
def IndelData.getSampleData (d : IndelData) (sampleIndex : Nat) : IndelSampleData :=
  d.sampleData.getD sampleIndex ⟨[]⟩

/-- An entry of the indel buffer (what a buffer iterator points to). -/
abbrev Allele := IndelKey × IndelData

/-- Modelled from the spec: `OrthogonalVariantAlleleCandidateGroup`, an ordered list of buffer
entries. -/
structure OrthogonalVariantAlleleCandidateGroup where
  alleles : List Allele
deriving DecidableEq, Repr

namespace OrthogonalVariantAlleleCandidateGroup

/-- Modelled from the spec: `OrthogonalVariantAlleleCandidateGroup::size()`. -/
def size (g : OrthogonalVariantAlleleCandidateGroup) : Nat := g.alleles.length

/-- Modelled from the spec: `OrthogonalVariantAlleleCandidateGroup::empty()`. -/
def empty (g : OrthogonalVariantAlleleCandidateGroup) : Bool := g.alleles.isEmpty

/-- Modelled from the spec: `OrthogonalVariantAlleleCandidateGroup::addVariantAllele(it)`, which
appends the buffer entry. -/
def addVariantAllele (g : OrthogonalVariantAlleleCandidateGroup) (a : Allele) :
    OrthogonalVariantAlleleCandidateGroup := ⟨g.alleles ++ [a]⟩

end OrthogonalVariantAlleleCandidateGroup

/-! ## Genotypes -/

/-- Modelled from the spec: `AG_GENOTYPE::index_t`. The six genotypes over the reference and up
to two alternate alleles, and `other` for every further value of the `unsigned` that carries
a genotype index. -/
inductive AG_GENOTYPE where
  | HOMREF
  | HOM0
  | HOM1
  | HET0
  | HET1
  | HET01
  | other (n : Nat)
deriving DecidableEq, Repr

/-- A genotype of the output record: one allele index (haploid) or an unordered pair. -/
inductive VcfGenotype where
  | haploid (allele0Index : Nat)
  | diploid (allele0Index allele1Index : Nat)
deriving DecidableEq, Repr

namespace VcfGenotypeUtil

/-- Modelled from the spec: `VcfGenotypeUtil::getGenotypeIndex(allele0Index)`. -/
def getGenotypeIndex1 (allele0Index : Nat) : Nat := allele0Index

/-- Modelled from the spec: `VcfGenotypeUtil::getGenotypeIndex(allele0Index, allele1Index)`,
the VCF order of diploid genotypes `0/0, 0/1, 1/1, 0/2, 1/2, 2/2, ...`. -/
def getGenotypeIndex2 (allele0Index allele1Index : Nat) : Nat :=
  allele0Index + allele1Index * (allele1Index + 1) / 2

/-- Modelled from the spec: `VcfGenotypeUtil::getAlleleIndices(genotypeIndex, allele0Index)`. -/
def getAlleleIndices1 (genotypeIndex : Nat) : Nat := genotypeIndex

/-- Modelled from the spec: the larger allele of diploid genotype `genotypeIndex`: the last
`allele1Index` among `0 .. bound` whose block of genotypes starts at or before the index. -/
def getAllele1Index (genotypeIndex : Nat) : Nat → Nat
  | 0 => 0
  | bound + 1 =>
    if (bound + 1) * (bound + 2) / 2 ≤ genotypeIndex then bound + 1
    else getAllele1Index genotypeIndex bound

/-- Modelled from the spec:
`VcfGenotypeUtil::getAlleleIndices(genotypeIndex, allele0Index, allele1Index)`, the inverse of
`getGenotypeIndex2`. -/
def getAlleleIndices2 (genotypeIndex : Nat) : Nat × Nat :=
  let allele1Index := getAllele1Index genotypeIndex genotypeIndex
  (genotypeIndex - allele1Index * (allele1Index + 1) / 2, allele1Index)

end VcfGenotypeUtil

/-- Modelled from the spec: the read-support statistics of a locus
(`LocusSupportingReadStats`), kept abstract as a number. -/
abbrev LocusSupportingReadStats := Nat

/-- Modelled from the spec: `AlleleGroupGenotype`, the result of the likelihood computation. -/
structure AlleleGroupGenotype where
  maxGenotypeIndex : AG_GENOTYPE
  maxGenotypeIndexPolymorphic : AG_GENOTYPE
  anyVariantAlleleQuality : Int
  genotypeQuality : Int
  genotypeQualityPolymorphic : Int
  phredLoghood : List Nat
deriving DecidableEq, Repr

/-- Modelled from the spec: `known_pos_range`, a half-open reference range with public
bounds. -/
structure known_pos_range where
  begin_pos : Int
  end_pos : Int
deriving DecidableEq, Repr

/-- Modelled from the spec: `known_pos_range2`, a half-open reference range. -/
structure known_pos_range2 where
  begin_pos : Int
  end_pos : Int
deriving DecidableEq, Repr

/-- Modelled from the spec: `known_pos_range2::size()`. -/
def known_pos_range2.size (r : known_pos_range2) : Nat := (r.end_pos - r.begin_pos).toNat

/-! ## Output records -/

/-- Modelled from the spec: `LocusSampleInfo` is declared outside the examined sources; these are
the fields that `hackDiplotypeCallToCopyNumberCalls` sets, each setter storing its argument.
`genotypePhredLoghood` lists the entries assigned through `getGenotypeLikelihood`, in the
order of assignment. -/
structure LocusSampleInfo where
  ploidy : Nat
  isPloidyConflict : Bool
  supportCounts : LocusSupportingReadStats
  maxGenotypeIndexPolymorphic : Nat
  genotypeQualityPolymorphic : Int
  gqx : Int
  genotypePhredLoghood : List (VcfGenotype × Nat)
deriving DecidableEq, Repr

/-- Modelled from the spec: `GermlineIndelSampleInfo` is declared outside the examined sources;
these are the fields set by `hackDiplotypeCallToCopyNumberCalls`. -/
structure GermlineIndelSampleInfo where
  sitePloidy : List Int
  reportInfo : Nat
deriving DecidableEq, Repr

/-- Modelled from the spec: the indel locus record handed to the aggregator
(`GermlineDiploidIndelLocusInfo`, declared outside the examined sources) for `sampleCount == 1`:
the alternate alleles in the order added, and the information of sample 0. -/
structure GermlineIndelLocusInfo where
  anyVariantAlleleQuality : Int
  altAlleles : List Allele
  sample0 : LocusSampleInfo
  indelSampleInfo0 : GermlineIndelSampleInfo
deriving DecidableEq, Repr

/-! ## The environment: routines of other translation units -/

/-- Routines and members that `starling_pos_processor.cpp` uses and that are defined elsewhere. -/
structure Env where
  /-- The result of `getSampleCount()`. -/
  sampleCount : Nat
  /-- The lookup `get_ploidy(pos, sampleIndex)`. -/
  get_ploidy : Int → Nat → Nat
  /-- The entries of the indel buffer, in key order. -/
  indelBuffer : List Allele
  /-- The buffer-level candidacy test `getIndelBuffer().isCandidateIndel(key, data)`. -/
  isCandidateIndel : IndelKey → IndelData → Bool
  /-- The reference range of a group, `getReferenceRange()`. -/
  getReferenceRange : OrthogonalVariantAlleleCandidateGroup → known_pos_range
  /-- The ranking step: sample count, calling ploidies, input group; returns the top group. -/
  selectTopOrthogonalAllelesInAllSamples :
    Nat → List Nat → OrthogonalVariantAlleleCandidateGroup → OrthogonalVariantAlleleCandidateGroup
  /-- The extension step: sample count, calling ploidies, position, top group; returns the
  re-selected top group. -/
  addAllelesAtOtherPositions :
    Nat → List Nat → Int → OrthogonalVariantAlleleCandidateGroup →
      OrthogonalVariantAlleleCandidateGroup
  /-- The genotyping of a group: calling ploidy, sample index, group, read statistics so far. -/
  getVariantAlleleGroupGenotypeLhoods :
    Nat → Nat → OrthogonalVariantAlleleCandidateGroup → LocusSupportingReadStats →
      AlleleGroupGenotype × LocusSupportingReadStats
  /-- The scoring of one forced allele: calling ploidy, sample index, top group, forced group,
  index into the forced group, read statistics so far. -/
  getGenotypeLhoodsForForcedOutputAllele :
    Nat → Nat → OrthogonalVariantAlleleCandidateGroup → OrthogonalVariantAlleleCandidateGroup →
      Nat → LocusSupportingReadStats → AlleleGroupGenotype × LocusSupportingReadStats
  /-- The haploid `AG_GENOTYPE::getGenotypeId(allele0Index)`. -/
  getGenotypeId1 : Nat → Nat
  /-- The diploid `AG_GENOTYPE::getGenotypeId(allele0Index, allele1Index)`. -/
  getGenotypeId2 : Nat → Nat → Nat
  /-- The test `AG_GENOTYPE::isAllelePresent(genotypeIndex, alleleIndex)`. -/
  isAllelePresent : AG_GENOTYPE → Nat → Bool
  /-- The range of a locus record holding the given alternate alleles, `ii->range()`. -/
  locusRange : List Allele → known_pos_range2
  /-- The legacy per-sample report, `getAlleleSampleReportInfo`. -/
  getAlleleSampleReportInfo : IndelKey → IndelSampleData → Nat

/-! ## `translateOldToNewGenotypeIndex` -/

/-- The function `translateOldToNewGenotypeIndex(ploidy, oldGenotype)`. -/
def translateOldToNewGenotypeIndex (ploidy : Int) (oldGenotype : AG_GENOTYPE) :
    Except Fatal Nat :=
  if ploidy = 1 then
    match oldGenotype with
    | .HOMREF => .ok (VcfGenotypeUtil.getGenotypeIndex1 0)
    | .HOM0 => .ok (VcfGenotypeUtil.getGenotypeIndex1 1)
    | .HOM1 => .ok (VcfGenotypeUtil.getGenotypeIndex1 2)
    | _ => .error .assertion
  else if ploidy = 2 then
    match oldGenotype with
    | .HOMREF => .ok (VcfGenotypeUtil.getGenotypeIndex2 0 0)
    | .HOM0 => .ok (VcfGenotypeUtil.getGenotypeIndex2 1 1)
    | .HOM1 => .ok (VcfGenotypeUtil.getGenotypeIndex2 2 2)
    | .HET0 => .ok (VcfGenotypeUtil.getGenotypeIndex2 0 1)
    | .HET1 => .ok (VcfGenotypeUtil.getGenotypeIndex2 0 2)
    | .HET01 => .ok (VcfGenotypeUtil.getGenotypeIndex2 1 2)
    | _ => .error .assertion
  else
    .error .assertion

/-! ## `hackDiplotypeCallToCopyNumberCalls` -/

/-- The loop over the variant alleles (lines 576-585): each allele is checked against the
locus-level forced-output flag and added to the locus record. -/
def addAltIndelAlleles (isForcedOutput : Bool) :
    List Allele → List Allele → Except Fatal (List Allele)
  | [], added => .ok added
  | a :: rest, added =>
    if !isForcedOutput || a.2.isForcedOutput then
      addAltIndelAlleles isForcedOutput rest (added ++ [a])
    else
      .error .assertion

/-- The quality derivation (lines 605-613). -/
def computeGqx (locusGenotype : AlleleGroupGenotype) : Int :=
  if locusGenotype.maxGenotypeIndex != locusGenotype.maxGenotypeIndexPolymorphic then 0
  else min locusGenotype.genotypeQuality locusGenotype.genotypeQualityPolymorphic

/-- The haploid likelihood loop (lines 620-624). -/
def haploidPhredLoghood (env : Env) (locusGenotype : AlleleGroupGenotype)
    (fullAlleleCount : Nat) : List (VcfGenotype × Nat) :=
  (List.range fullAlleleCount).map fun fullAlleleIndex =>
    (VcfGenotype.haploid fullAlleleIndex,
      locusGenotype.phredLoghood.getD (env.getGenotypeId1 fullAlleleIndex) 0)

/-- The diploid likelihood loops (lines 628-636): the inner index starts at the outer one. -/
def diploidPhredLoghood (env : Env) (locusGenotype : AlleleGroupGenotype)
    (fullAlleleCount : Nat) : List (VcfGenotype × Nat) :=
  (List.range fullAlleleCount).flatMap fun fullAlleleIndex =>
    (List.range' fullAlleleIndex (fullAlleleCount - fullAlleleIndex)).map fun fullAlleleIndex2 =>
      (VcfGenotype.diploid fullAlleleIndex fullAlleleIndex2,
        locusGenotype.phredLoghood.getD (env.getGenotypeId2 fullAlleleIndex fullAlleleIndex2) 0)

/-- The likelihood entries by ploidy state (lines 618-641); any ploidy other than 1 or 2 fails
the `InvalidPloidy` assertion. -/
def setGenotypePhredLoghood (env : Env) (locusGenotype : AlleleGroupGenotype)
    (ploidy fullAlleleCount : Nat) : Except Fatal (List (VcfGenotype × Nat)) :=
  if ploidy = 1 then .ok (haploidPhredLoghood env locusGenotype fullAlleleCount)
  else if ploidy = 2 then .ok (diploidPhredLoghood env locusGenotype fullAlleleCount)
  else .error .assertion

/-- The inner loop of `updateSitePloidyForAlleleIndex` (lines 658-661): `count` consecutive
entries starting at `locusOffset` are decremented. -/
def decrementSitePloidy : Nat → Int → List Int → Except Fatal (List Int)
  | 0, _, sitePloidy => .ok sitePloidy
  | count + 1, locusOffset, sitePloidy =>
    if 0 ≤ locusOffset ∧ locusOffset.toNat < sitePloidy.length then
      decrementSitePloidy count (locusOffset + 1)
        (sitePloidy.modify (fun p => p - 1) locusOffset.toNat)
    else
      .error .outOfRange

/-- The lambda `updateSitePloidyForAlleleIndex` (lines 651-662). -/
def updateSitePloidyForAlleleIndex (altAlleles : List Allele) (range : known_pos_range2)
    (alleleIndex : Nat) (sitePloidy : List Int) : Except Fatal (List Int) :=
  if alleleIndex = 0 then .ok sitePloidy
  else
    match altAlleles[alleleIndex - 1]? with
    | none => .error .outOfRange
    | some a =>
      let leadingOffset := a.1.pos - range.begin_pos
      let trailingOffset := a.1.right_pos - range.begin_pos
      decrementSitePloidy (trailingOffset - leadingOffset).toNat leadingOffset sitePloidy

/-- The site ploidy of the record (lines 645-681). -/
def setSitePloidy (altAlleles : List Allele) (range : known_pos_range2) (callerPloidy : Nat)
    (maxGenotypeIndexPolymorphic : Nat) : Except Fatal (List Int) :=
  let sitePloidy : List Int := List.replicate range.size (callerPloidy : Int)
  if callerPloidy = 2 then
    let indices := VcfGenotypeUtil.getAlleleIndices2 maxGenotypeIndexPolymorphic
    (updateSitePloidyForAlleleIndex altAlleles range indices.1 sitePloidy).bind fun sitePloidy1 =>
      updateSitePloidyForAlleleIndex altAlleles range indices.2 sitePloidy1
  else if callerPloidy = 1 then
    updateSitePloidyForAlleleIndex altAlleles range
      (VcfGenotypeUtil.getAlleleIndices1 maxGenotypeIndexPolymorphic) sitePloidy
  else
    .error .assertion

/-- The record that `hackDiplotypeCallToCopyNumberCalls` assembles (lines 567-696) from the
results of its steps. -/
def hackRecord (env : Env) (locusGenotype : AlleleGroupGenotype) (callerPloidy groupLocusPloidy : Nat)
    (altAlleles : List Allele) (supportCounts : LocusSupportingReadStats)
    (maxGenotypeIndexPolymorphic : Nat) (samplePLs : List (VcfGenotype × Nat))
    (sitePloidy : List Int) (allele0 : Allele) : GermlineIndelLocusInfo :=
  ⟨locusGenotype.anyVariantAlleleQuality, altAlleles,
    ⟨callerPloidy, callerPloidy != groupLocusPloidy, supportCounts,
      maxGenotypeIndexPolymorphic, locusGenotype.genotypeQualityPolymorphic,
      computeGqx locusGenotype, samplePLs⟩,
    ⟨sitePloidy, env.getAlleleSampleReportInfo allele0.1 (allele0.2.getSampleData 0)⟩⟩

/-- The function `hackDiplotypeCallToCopyNumberCalls`: returns the `bool` result and the
aggregator's records after the call. -/
def hackDiplotypeCallToCopyNumberCalls (env : Env)
    (alleleGroup : OrthogonalVariantAlleleCandidateGroup) (locusGenotype : AlleleGroupGenotype)
    (locusReadStats : List LocusSupportingReadStats) (callerPloidy groupLocusPloidy : Nat)
    (isForcedOutput : Bool) (gvcfer : List GermlineIndelLocusInfo) :
    Except Fatal (Bool × List GermlineIndelLocusInfo) :=
  if !(isForcedOutput || locusGenotype.maxGenotypeIndex != AG_GENOTYPE.HOMREF) then
    .ok (false, gvcfer)
  else do
    let alleleGroupSize := alleleGroup.size
    let altAlleles ← addAltIndelAlleles isForcedOutput alleleGroup.alleles []
    let supportCounts ← match locusReadStats[0]? with
      | some s => Except.ok s
      | none => Except.error Fatal.outOfRange
    let maxGenotypeIndexPolymorphic ←
      translateOldToNewGenotypeIndex (callerPloidy : Int) locusGenotype.maxGenotypeIndexPolymorphic
    let fullAlleleCount := alleleGroupSize + 1
    let samplePLs ← setGenotypePhredLoghood env locusGenotype callerPloidy fullAlleleCount
    let sitePloidy ←
      setSitePloidy altAlleles (env.locusRange altAlleles) callerPloidy maxGenotypeIndexPolymorphic
    let allele0 ← match alleleGroup.alleles[0]? with
      | some a => Except.ok a
      | none => Except.error Fatal.outOfRange
    pure (true, gvcfer ++ [hackRecord env locusGenotype callerPloidy groupLocusPloidy altAlleles
      supportCounts maxGenotypeIndexPolymorphic samplePLs sitePloidy allele0])

/-! ## `process_pos_indel_digt` -/

/-- A call to one of the two external likelihood routines, with the arguments that matter. -/
inductive ScoringCall where
  /-- The call `getVariantAlleleGroupGenotypeLhoods(.., callerPloidy, sampleIndex, group, ..)`. -/
  | topGroup (callerPloidy sampleIndex : Nat) (group : OrthogonalVariantAlleleCandidateGroup)
  /-- The call `getGenotypeLhoodsForForcedOutputAllele(.., callerPloidy, sampleIndex, topGroup,
  forcedGroup, forcedIndex, ..)`. -/
  | forcedAllele (callerPloidy sampleIndex : Nat)
      (topGroup forcedGroup : OrthogonalVariantAlleleCandidateGroup) (forcedIndex : Nat)
deriving DecidableEq, Repr

/-- The state that `process_pos_indel_digt` reads and writes: the member
`_forcedAllelesAlreadyOutput` (a `std::set<IndelKey>`, kept as its elements in iteration
order), the records handed to `_gvcfer`, and the log of scoring calls. -/
structure ProcState where
  forcedAllelesAlreadyOutput : List IndelKey
  gvcfer : List GermlineIndelLocusInfo
  scored : List ScoringCall
deriving DecidableEq, Repr

/-- The iteration from `positionIterator(pos)` to `positionIterator(pos + 1)`: the buffer
entries from the first key not below `IndelKey(pos)` up to the first key not below
`IndelKey(pos + 1)`. -/
def positionRange (indelBuffer : List Allele) (pos : Int) : List Allele :=
  (indelBuffer.dropWhile fun a => a.1.lt (IndelKey.ofPos pos)).takeWhile
    fun a => a.1.lt (IndelKey.ofPos (pos + 1))

/-- The zero-coverage loop (lines 742-751): no sample has read support for the allele. -/
def isZeroCoverage (sampleCount : Nat) (indelData : IndelData) : Bool :=
  (List.range sampleCount).all fun sampleIndex =>
    (indelData.getSampleData sampleIndex).read_path_lnp.isEmpty

/-- The candidate collection loop (lines 732-759). -/
def collectOrthogonalVariantAlleles (env : Env) :
    List Allele → OrthogonalVariantAlleleCandidateGroup → OrthogonalVariantAlleleCandidateGroup
  | [], group => group
  | a :: rest, group =>
    if a.1.is_breakpoint then collectOrthogonalVariantAlleles env rest group
    else if !a.2.isForcedOutput && isZeroCoverage env.sampleCount a.2 then
      collectOrthogonalVariantAlleles env rest group
    else if !a.2.isForcedOutput && !env.isCandidateIndel a.1 a.2 then
      collectOrthogonalVariantAlleles env rest group
    else collectOrthogonalVariantAlleles env rest (group.addVariantAllele a)

/-- The locus ploidy per sample (lines 765-776). -/
def computeGroupLocusPloidy (env : Env)
    (orthogonalVariantAlleles : OrthogonalVariantAlleleCandidateGroup) : List Nat :=
  (List.range env.sampleCount).map fun sampleIndex =>
    let alleleGroupRange := env.getReferenceRange orthogonalVariantAlleles
    let groupLeftPloidy := env.get_ploidy alleleGroupRange.begin_pos sampleIndex
    let groupRightPloidy := env.get_ploidy alleleGroupRange.end_pos sampleIndex
    max groupLeftPloidy groupRightPloidy

/-- The calling ploidy per sample (lines 783-787). -/
def computeCallerPloidy (groupLocusPloidy : List Nat) : List Nat :=
  groupLocusPloidy.map fun p => if p = 0 then 2 else p

/-- The forced-output group (lines 792-803). -/
def collectForcedOutputAlleles :
    List Allele → OrthogonalVariantAlleleCandidateGroup → OrthogonalVariantAlleleCandidateGroup
  | [], group => group
  | a :: rest, group =>
    if a.2.isForcedOutput then collectForcedOutputAlleles rest (group.addVariantAllele a)
    else collectForcedOutputAlleles rest group

/-- The reportable-locus loop (lines 830-842), with its `break`. -/
def isReportableLocus (pos : Int) : List Allele → Bool
  | [] => true
  | a :: rest => if a.1.pos < pos then false else isReportableLocus pos rest

/-- The range erase `erase(begin(), lower_bound(key))` of `std::set`: the leading elements
below `key` are removed. -/
def eraseBelow (key : IndelKey) (set : List IndelKey) : List IndelKey :=
  set.dropWhile fun k => k.lt key

/-- The member `std::set::insert`: the key is placed before the first larger element, unless
an equivalent element is present. -/
def setInsert (key : IndelKey) : List IndelKey → List IndelKey
  | [] => [key]
  | k :: rest =>
    if key.lt k then key :: k :: rest
    else if k.lt key then k :: setInsert key rest
    else k :: rest

/-- The member `std::set::count`: the number of elements equivalent to `key`. -/
def setCount (key : IndelKey) (set : List IndelKey) : Nat :=
  (set.filter fun k => !k.lt key && !key.lt k).length

/-- The loop that notes the forced alleles of the top group (lines 871-881). -/
def noteForcedAlleles : List Allele → List IndelKey → List IndelKey
  | [], set => set
  | a :: rest, set =>
    if a.2.isForcedOutput then noteForcedAlleles rest (setInsert a.1 set)
    else noteForcedAlleles rest set

/-- The update of `_forcedAllelesAlreadyOutput` (lines 863-883). -/
def updateForcedAllelesAlreadyOutput (pos : Int) (isReportable : Bool)
    (topVariantAlleleGroup : OrthogonalVariantAlleleCandidateGroup) (set : List IndelKey) :
    List IndelKey :=
  let pruned := eraseBelow (IndelKey.ofPos pos) set
  if isReportable then noteForcedAlleles topVariantAlleleGroup.alleles pruned else pruned

/-- The trimming loop (lines 892-899) with `remaining` iterations left, that is at
`forcedIndex = forcedCount - remaining`. -/
def trimForcedOutputAlleles (set : List IndelKey) (forcedCount : Nat) :
    Nat → OrthogonalVariantAlleleCandidateGroup → Except Fatal OrthogonalVariantAlleleCandidateGroup
  | 0, group => .ok group
  | remaining + 1, group =>
    let forcedIndex := forcedCount - (remaining + 1)
    let reverseForcedIndex := forcedCount - (forcedIndex + 1)
    match group.alleles[reverseForcedIndex]? with
    | none => .error .outOfRange
    | some a =>
      if setCount a.1 set > 0 then
        trimForcedOutputAlleles set forcedCount remaining ⟨group.alleles.eraseIdx reverseForcedIndex⟩
      else
        trimForcedOutputAlleles set forcedCount remaining group

/-- The body of the forced-allele loop (lines 907-928) at `forcedOutputAlleleIndex`: returns
the read statistics, the aggregator's records and the call log after the iteration. -/
def scoreForcedOutputAllele (env : Env) (callerPloidy groupLocusPloidy : Nat)
    (topVariantAlleleGroup forcedOutputAlleleGroup : OrthogonalVariantAlleleCandidateGroup)
    (forcedOutputAlleleIndex : Nat)
    (acc : LocusSupportingReadStats × List GermlineIndelLocusInfo × List ScoringCall) :
    Except Fatal (LocusSupportingReadStats × List GermlineIndelLocusInfo × List ScoringCall) :=
  let result := env.getGenotypeLhoodsForForcedOutputAllele callerPloidy 0 topVariantAlleleGroup
    forcedOutputAlleleGroup forcedOutputAlleleIndex acc.1
  let scored := acc.2.2 ++ [ScoringCall.forcedAllele callerPloidy 0 topVariantAlleleGroup
    forcedOutputAlleleGroup forcedOutputAlleleIndex]
  if env.isAllelePresent result.1.maxGenotypeIndex 1 then .error .assertion
  else
    match forcedOutputAlleleGroup.alleles[forcedOutputAlleleIndex]? with
    | none => .error .outOfRange
    | some a =>
      (hackDiplotypeCallToCopyNumberCalls env ⟨[a]⟩ result.1 [result.2] callerPloidy
        groupLocusPloidy true acc.2.1).bind fun out => .ok (result.2, out.2, scored)

/-- The forced-allele loop (lines 903-929) from index `forcedOutputAlleleIndex`, with
`remaining` iterations left. -/
def scoreForcedOutputAlleles (env : Env) (callerPloidy groupLocusPloidy : Nat)
    (topVariantAlleleGroup forcedOutputAlleleGroup : OrthogonalVariantAlleleCandidateGroup) :
    Nat → Nat → LocusSupportingReadStats × List GermlineIndelLocusInfo × List ScoringCall →
      Except Fatal (LocusSupportingReadStats × List GermlineIndelLocusInfo × List ScoringCall)
  | 0, _, acc => .ok acc
  | remaining + 1, forcedOutputAlleleIndex, acc =>
    (scoreForcedOutputAllele env callerPloidy groupLocusPloidy topVariantAlleleGroup
      forcedOutputAlleleGroup forcedOutputAlleleIndex acc).bind fun acc1 =>
        scoreForcedOutputAlleles env callerPloidy groupLocusPloidy topVariantAlleleGroup
          forcedOutputAlleleGroup remaining (forcedOutputAlleleIndex + 1) acc1

/-- The top group of the position (lines 807-818): ranking, then the extension to alleles at
other positions when the ranked group is not empty. -/
def selectTopVariantAlleleGroup (env : Env) (callerPloidy : List Nat) (pos : Int)
    (orthogonalVariantAlleles : OrthogonalVariantAlleleCandidateGroup) :
    OrthogonalVariantAlleleCandidateGroup :=
  let topVariantAlleleGroup :=
    env.selectTopOrthogonalAllelesInAllSamples env.sampleCount callerPloidy orthogonalVariantAlleles
  if !topVariantAlleleGroup.empty then
    env.addAllelesAtOtherPositions env.sampleCount callerPloidy pos topVariantAlleleGroup
  else topVariantAlleleGroup

/-- The genotyping and report of the top group (lines 844-860): returns the read statistics,
the aggregator's records and the call log after the step. -/
def reportTopVariantAlleleGroup (env : Env) (isReportable : Bool)
    (callerPloidy groupLocusPloidy : Nat)
    (topVariantAlleleGroup : OrthogonalVariantAlleleCandidateGroup) (st : ProcState) :
    Except Fatal (LocusSupportingReadStats × List GermlineIndelLocusInfo × List ScoringCall) :=
  if isReportable then
    let result := env.getVariantAlleleGroupGenotypeLhoods callerPloidy 0 topVariantAlleleGroup 0
    (hackDiplotypeCallToCopyNumberCalls env topVariantAlleleGroup result.1 [result.2]
      callerPloidy groupLocusPloidy false st.gvcfer).bind fun out =>
        .ok (result.2, out.2, st.scored ++ [ScoringCall.topGroup callerPloidy 0 topVariantAlleleGroup])
  else .ok (0, st.gvcfer, st.scored)

/-- The single-sample part of `process_pos_indel_digt` (lines 822-930), for sample 0 with
its calling ploidy and locus ploidy: report of the top group, update of the forced-output set,
trimming and scoring of the forced alleles. -/
def genotypeAndReport (env : Env) (pos : Int) (callerPloidy0 groupLocusPloidy0 : Nat)
    (topVariantAlleleGroup forcedOutputAlleleGroup : OrthogonalVariantAlleleCandidateGroup)
    (st : ProcState) : Except Fatal ProcState :=
  let isReportable := isReportableLocus pos topVariantAlleleGroup.alleles
  (reportTopVariantAlleleGroup env isReportable callerPloidy0 groupLocusPloidy0
    topVariantAlleleGroup st).bind fun acc =>
  let set := updateForcedAllelesAlreadyOutput pos isReportable topVariantAlleleGroup
    st.forcedAllelesAlreadyOutput
  (if forcedOutputAlleleGroup.empty then Except.ok forcedOutputAlleleGroup
    else trimForcedOutputAlleles set forcedOutputAlleleGroup.size
      forcedOutputAlleleGroup.size forcedOutputAlleleGroup).bind fun trimmed =>
  (scoreForcedOutputAlleles env callerPloidy0 groupLocusPloidy0 topVariantAlleleGroup
    trimmed trimmed.size 0 acc).bind fun out =>
  .ok ⟨set, out.2.1, out.2.2⟩

/-- The method `starling_pos_processor::process_pos_indel_digt(pos)`. -/
def process_pos_indel_digt (env : Env) (pos : Int) (st : ProcState) : Except Fatal ProcState :=
  let orthogonalVariantAlleles :=
    collectOrthogonalVariantAlleles env (positionRange env.indelBuffer pos) ⟨[]⟩
  if orthogonalVariantAlleles.empty then .ok st
  else
    let groupLocusPloidy := computeGroupLocusPloidy env orthogonalVariantAlleles
    let callerPloidy := computeCallerPloidy groupLocusPloidy
    let forcedOutputAlleleGroup := collectForcedOutputAlleles orthogonalVariantAlleles.alleles ⟨[]⟩
    let topVariantAlleleGroup :=
      selectTopVariantAlleleGroup env callerPloidy pos orthogonalVariantAlleles
    if env.sampleCount ≠ 1 then .error .assertion
    else
      match callerPloidy[0]?, groupLocusPloidy[0]? with
      | some callerPloidy0, some groupLocusPloidy0 =>
        genotypeAndReport env pos callerPloidy0 groupLocusPloidy0 topVariantAlleleGroup
          forcedOutputAlleleGroup st
      | _, _ => .error .outOfRange

/-- The calling ploidy handed to a likelihood routine. -/
def ScoringCall.callerPloidy : ScoringCall → Nat
  | .topGroup callerPloidy _ _ => callerPloidy
  | .forcedAllele callerPloidy _ _ _ _ => callerPloidy

/-! ## The local variables of `process_pos_indel_digt(pos)`

Names for the values that the locals of the method take in the call for `pos`; the theorems
below are stated with them. -/

/-- The local `orthogonalVariantAlleles` after the collection loop. -/
def orthogonalVariantAllelesAt (env : Env) (pos : Int) : OrthogonalVariantAlleleCandidateGroup :=
  collectOrthogonalVariantAlleles env (positionRange env.indelBuffer pos) ⟨[]⟩

/-- The local `groupLocusPloidy[0]`. -/
def groupLocusPloidyAt (env : Env) (pos : Int) : Nat :=
  max (env.get_ploidy (env.getReferenceRange (orthogonalVariantAllelesAt env pos)).begin_pos 0)
    (env.get_ploidy (env.getReferenceRange (orthogonalVariantAllelesAt env pos)).end_pos 0)

/-- The local `callerPloidy[0]`. -/
def callerPloidyAt (env : Env) (pos : Int) : Nat :=
  if groupLocusPloidyAt env pos = 0 then 2 else groupLocusPloidyAt env pos

/-- The local `forcedOutputAlleleGroup` before the trimming loop. -/
def forcedOutputAlleleGroupAt (env : Env) (pos : Int) : OrthogonalVariantAlleleCandidateGroup :=
  collectForcedOutputAlleles (orthogonalVariantAllelesAt env pos).alleles ⟨[]⟩

/-- The local `topVariantAlleleGroup` after ranking and extension. -/
def topVariantAlleleGroupAt (env : Env) (pos : Int) : OrthogonalVariantAlleleCandidateGroup :=
  selectTopVariantAlleleGroup env
    (computeCallerPloidy (computeGroupLocusPloidy env (orthogonalVariantAllelesAt env pos))) pos
    (orthogonalVariantAllelesAt env pos)

/-- The local `isReportableLocus`. -/
def isReportableLocusAt (env : Env) (pos : Int) : Bool :=
  isReportableLocus pos (topVariantAlleleGroupAt env pos).alleles

/-- The member `_forcedAllelesAlreadyOutput` after the update step (lines 863-883). -/
def forcedAllelesAfterUpdate (env : Env) (pos : Int) (st : ProcState) : List IndelKey :=
  updateForcedAllelesAlreadyOutput pos (isReportableLocusAt env pos)
    (topVariantAlleleGroupAt env pos) st.forcedAllelesAlreadyOutput

/-- The record `r` carries the alternate alleles `alleles`, the calling ploidy as its ploidy and
the ploidy-conflict flag of the pair of ploidies. -/
def RecordOf (callerPloidy groupLocusPloidy : Nat) (alleles : List Allele)
    (r : GermlineIndelLocusInfo) : Prop :=
  r.altAlleles = alleles ∧ r.sample0.ploidy = callerPloidy ∧
    r.sample0.isPloidyConflict = (callerPloidy != groupLocusPloidy)

/-- The genotype index `g` translates at the calling ploidy, and the allele indices of the
translated genotype are at most `groupSize`: the genotype names only the reference and alleles
of a group of that size. -/
def genotypeFits (callerPloidy groupSize : Nat) (g : AG_GENOTYPE) : Bool :=
  match translateOldToNewGenotypeIndex (callerPloidy : Int) g with
  | .error _ => false
  | .ok genotypeIndex =>
    if callerPloidy = 2 then
      decide ((VcfGenotypeUtil.getAlleleIndices2 genotypeIndex).1 ≤ groupSize ∧
        (VcfGenotypeUtil.getAlleleIndices2 genotypeIndex).2 ≤ groupSize)
    else decide (VcfGenotypeUtil.getAlleleIndices1 genotypeIndex ≤ groupSize)

/-- The range that `env` assigns to a locus record contains the reference span of each of its
alternate alleles. -/
def RangeCoversAlleles (env : Env) : Prop :=
  ∀ (alleles : List Allele) (a : Allele), a ∈ alleles →
    (env.locusRange alleles).begin_pos ≤ a.1.pos ∧
      a.1.right_pos ≤ (env.locusRange alleles).end_pos

/-! ## A concrete environment

One sample; ploidy 2 below position 100, ploidy 1 from 100 to 199 and ploidy 0 (unknown) from
200 on. The ranking keeps the first two alleles that have read support in sample 0 and the
extension step adds nothing. A group is called heterozygous for its first allele, an empty group
and every forced allele homozygous reference. -/

/-- The smallest range that holds the reference span of every allele of the list. -/
def spanRange : List Allele → known_pos_range2
  | [] => ⟨0, 0⟩
  | a :: rest =>
    match rest with
    | [] => ⟨a.1.pos, a.1.right_pos⟩
    | _ :: _ => ⟨min a.1.pos (spanRange rest).begin_pos, max a.1.right_pos (spanRange rest).end_pos⟩

/-- A forced-output insertion at position 50 without read support. -/
def forcedIns50 : Allele := (⟨50, false, 0, 7⟩, ⟨true, [⟨[]⟩]⟩)

/-- A two-base deletion at position 50 supported by reads. -/
def del50 : Allele := (⟨50, false, 2, 0⟩, ⟨false, [⟨[1, 2, 3]⟩]⟩)

/-- A forced-output insertion at position 60 supported by reads. -/
def forcedIns60 : Allele := (⟨60, false, 0, 3⟩, ⟨true, [⟨[6, 7]⟩]⟩)

/-- A five-base deletion at position 48 supported by reads; it spans position 50. -/
def del48 : Allele := (⟨48, false, 5, 0⟩, ⟨false, [⟨[1, 2, 3, 4]⟩]⟩)

/-- A one-base deletion at position 250, in the region of unknown ploidy. -/
def del250 : Allele := (⟨250, false, 1, 0⟩, ⟨false, [⟨[4, 5]⟩]⟩)

/-- A heterozygous call of the first alternate allele in both genotype spaces. -/
def hetCall : AlleleGroupGenotype := ⟨.HET0, .HET0, 40, 30, 20, [50, 60, 70, 0, 80, 90]⟩

/-- A homozygous-reference call. -/
def homrefCall : AlleleGroupGenotype := ⟨.HOMREF, .HOMREF, 0, 25, 25, [0, 60, 70, 30, 80, 90]⟩

/-- A call with equal genotype indices and genotype quality 0. -/
def zeroQualityCall : AlleleGroupGenotype := ⟨.HET0, .HET0, 40, 0, 20, [50, 60, 70, 0, 80, 90]⟩

/-- The concrete environment described above. -/
def exampleEnv : Env where
  sampleCount := 1
  get_ploidy := fun pos _ => if pos < 100 then 2 else if pos < 200 then 1 else 0
  indelBuffer := [forcedIns50, del50, forcedIns60, del250]
  isCandidateIndel := fun _ _ => true
  getReferenceRange := fun g => ⟨(spanRange g.alleles).begin_pos, (spanRange g.alleles).end_pos⟩
  selectTopOrthogonalAllelesInAllSamples := fun _ _ g =>
    ⟨(g.alleles.filter fun a => !(a.2.getSampleData 0).read_path_lnp.isEmpty).take 2⟩
  addAllelesAtOtherPositions := fun _ _ _ g => g
  getVariantAlleleGroupGenotypeLhoods := fun _ _ g _ =>
    if g.alleles.isEmpty then (homrefCall, 0) else (hetCall, 8)
  getGenotypeLhoodsForForcedOutputAllele := fun _ _ _ _ _ _ => (homrefCall, 0)
  getGenotypeId1 := fun i => i
  getGenotypeId2 := fun i j => i + j * (j + 1) / 2
  isAllelePresent := fun g i =>
    match g, i with
    | .HOM0, 0 | .HET0, 0 | .HET01, 0 | .HOM1, 1 | .HET1, 1 | .HET01, 1 => true
    | _, _ => false
  locusRange := spanRange
  getAlleleSampleReportInfo := fun _ d => d.read_path_lnp.length


/-- The concrete environment with the deletion at 48 in the buffer; the extension step ranks that
deletion first whatever the position. -/
def overlapEnv : Env :=
  { exampleEnv with
    indelBuffer := [del48, forcedIns50, del50]
    addAllelesAtOtherPositions := fun _ _ _ g =>
      ⟨(del48 :: g.alleles.filter fun a => a != del48).take 2⟩ }

/-! ## The trimming loop and the filter it is compared with -/

/-- The order-preserving filter of the refinement claim: the alleles of the group whose key is
not in the set, in the order of the group. -/
def trimForcedOutputAllelesFilter (set : List IndelKey)
    (group : OrthogonalVariantAlleleCandidateGroup) : OrthogonalVariantAlleleCandidateGroup :=
  ⟨group.alleles.filter fun a => decide (a.1 ∉ set)⟩

/-- The trimming loop (lines 892-899) with a record of its `erase` calls: the state carries,
for every erase made so far, the index erased and the size of the group at that time. -/
def trimForcedOutputAllelesLogged (set : List IndelKey) (forcedCount : Nat) :
    Nat → OrthogonalVariantAlleleCandidateGroup × List (Nat × Nat) →
      Except Fatal (OrthogonalVariantAlleleCandidateGroup × List (Nat × Nat))
  | 0, state => .ok state
  | remaining + 1, (group, erases) =>
    let forcedIndex := forcedCount - (remaining + 1)
    let reverseForcedIndex := forcedCount - (forcedIndex + 1)
    match group.alleles[reverseForcedIndex]? with
    | none => .error .outOfRange
    | some a =>
      if setCount a.1 set > 0 then
        trimForcedOutputAllelesLogged set forcedCount remaining
          (⟨group.alleles.eraseIdx reverseForcedIndex⟩,
            erases ++ [(reverseForcedIndex, group.alleles.length)])
      else
        trimForcedOutputAllelesLogged set forcedCount remaining (group, erases)

/-! ## Site ploidy: the indices written and the expected values -/

/-- The indices visited by the inner loop of `updateSitePloidyForAlleleIndex` (lines 658-661):
`count` consecutive offsets starting at `locusOffset`. -/
def decrementOffsets : Nat → Int → List Int
  | 0, _ => []
  | count + 1, locusOffset => locusOffset :: decrementOffsets count (locusOffset + 1)

/-- The `sitePloidy` indices that `updateSitePloidyForAlleleIndex(alleleIndex)` writes: none for
the reference (index 0), the offsets from `leadingOffset` up to `trailingOffset` for an
alternate allele. -/
def sitePloidyOffsets (altAlleles : List Allele) (range : known_pos_range2)
    (alleleIndex : Nat) : List Int :=
  if alleleIndex = 0 then []
  else
    match altAlleles[alleleIndex - 1]? with
    | none => []
    | some a =>
      let leadingOffset := a.1.pos - range.begin_pos
      let trailingOffset := a.1.right_pos - range.begin_pos
      decrementOffsets (trailingOffset - leadingOffset).toNat leadingOffset

/-- The allele slots of the chosen genotype: the two allele indices of diploid genotype
`genotypeIndex` at calling ploidy 2 (lines 667-670), the one allele index otherwise (lines
674-676). -/
def genotypeAlleleSlots (callerPloidy genotypeIndex : Nat) : List Nat :=
  if callerPloidy = 2 then
    [(VcfGenotypeUtil.getAlleleIndices2 genotypeIndex).1,
      (VcfGenotypeUtil.getAlleleIndices2 genotypeIndex).2]
  else [VcfGenotypeUtil.getAlleleIndices1 genotypeIndex]

/-- The allele slot `alleleIndex` holds a non-reference allele of the record whose reference
span `[pos, right_pos)` contains position `p`. -/
def slotCoversSite (altAlleles : List Allele) (alleleIndex : Nat) (p : Int) : Bool :=
  if alleleIndex = 0 then false
  else
    match altAlleles[alleleIndex - 1]? with
    | none => false
    | some a => decide (a.1.pos ≤ p ∧ p < a.1.right_pos)

/-- A homozygous call of the first alternate allele in both genotype spaces. -/
def homAltCall : AlleleGroupGenotype := ⟨.HOM0, .HOM0, 60, 35, 35, [90, 60, 0, 70, 80, 90]⟩

/-! ## `process_pos_indel_continuous` -/

/-- Modelled from the spec: the legacy per-sample report of an allele (`reportInfo`), of which
the count of confident indel reads is consulted; the rest is kept abstract as a number. -/
structure AlleleSampleReportInfo where
  n_confident_indel_reads : Nat
  rest : Nat
deriving DecidableEq, Repr

/-- Routines that `process_pos_indel_continuous` uses and that are defined elsewhere. -/
structure ContinuousIndelEnv where
  /-- The call `starling_continuous_variant_caller::add_indel_call(opt, key, data, locusInfo)`:
  the allele information it stores in the locus record. -/
  add_indel_call : IndelKey → IndelData → Nat
  /-- The report `getAlleleSampleReportInfo` with `is_use_alt_indel == true`, for an allele, the
  data of a sample and the index of the sample whose basecall buffer is read. -/
  getAlleleSampleReportInfo : IndelKey → IndelSampleData → Nat → AlleleSampleReportInfo

/-- Modelled from the spec: the locus record of the continuous indel caller
(`GermlineContinuousIndelLocusInfo`, declared outside the examined sources): the allele added by
`add_indel_call`, and per sample the ploidy set and the report. -/
structure GermlineContinuousIndelLocusInfo where
  indelKey : IndelKey
  callInfo : Nat
  samples : List (Int × AlleleSampleReportInfo)
deriving DecidableEq, Repr

/-- The state that `process_pos_indel_continuous` writes: the records handed to `_gvcfer`, and
the log of the candidates that passed the inclusion test and were handed to
`add_indel_call`. -/
structure ContinuousIndelState where
  gvcfer : List GermlineContinuousIndelLocusInfo
  called : List Allele
deriving DecidableEq, Repr

/-- The sample loop of `process_pos_indel_continuous` (lines 979-995) from `sampleIndex`, with
`remaining` iterations left: returns the per-sample entries of the record and the flag
`isReportableAllele`. -/
def continuousSampleLoop (cenv : ContinuousIndelEnv) (a : Allele) :
    Nat → Nat → List (Int × AlleleSampleReportInfo) × Bool →
      List (Int × AlleleSampleReportInfo) × Bool
  | 0, _, acc => acc
  | remaining + 1, sampleIndex, (samples, isReportableAllele) =>
    let reportInfo :=
      cenv.getAlleleSampleReportInfo a.1 (a.2.getSampleData sampleIndex) sampleIndex
    let isReportableAllele1 :=
      if !isReportableAllele then
        (if reportInfo.n_confident_indel_reads > 0 then true else isReportableAllele)
      else isReportableAllele
    continuousSampleLoop cenv a remaining (sampleIndex + 1)
      (samples ++ [(-1, reportInfo)], isReportableAllele1)

/-- The candidate loop of `process_pos_indel_continuous` (lines 943-1000). -/
def continuousCandidateLoop (env : Env) (cenv : ContinuousIndelEnv) :
    List Allele → ContinuousIndelState → ContinuousIndelState
  | [], st => st
  | a :: rest, st =>
    if a.1.is_breakpoint then continuousCandidateLoop env cenv rest st
    else if !a.2.isForcedOutput && isZeroCoverage env.sampleCount a.2 then
      continuousCandidateLoop env cenv rest st
    else if !a.2.isForcedOutput && !env.isCandidateIndel a.1 a.2 then
      continuousCandidateLoop env cenv rest st
    else
      let callInfo := cenv.add_indel_call a.1 a.2
      let result := continuousSampleLoop cenv a env.sampleCount 0 ([], a.2.isForcedOutput)
      if !result.2 then
        continuousCandidateLoop env cenv rest ⟨st.gvcfer, st.called ++ [a]⟩
      else
        continuousCandidateLoop env cenv rest
          ⟨st.gvcfer ++ [⟨a.1, callInfo, result.1⟩], st.called ++ [a]⟩

/-- The method `starling_pos_processor::process_pos_indel_continuous(pos)`. -/
def process_pos_indel_continuous (env : Env) (cenv : ContinuousIndelEnv) (pos : Int)
    (st : ContinuousIndelState) : ContinuousIndelState :=
  continuousCandidateLoop env cenv (positionRange env.indelBuffer pos) st

/-! ## The SNP path: pileups and output streams -/

/-- Modelled from the spec: `N_BASE`, the number of concrete bases (A, C, G, T). -/
def N_BASE : Nat := 4

/-- Modelled from the spec: `BASE_ID::ANY`, the id of a base call that is none of the four
concrete bases; it is the first id after them. -/
def BASE_ID.ANY : Nat := 4

/-- Modelled from the spec: `base_call`, of which the base id is consulted; the rest (quality,
strand, ...) is kept abstract as a number. -/
structure base_call where
  base_id : Nat
  rest : Nat
deriving DecidableEq, Repr

/-- Modelled from the spec: `snp_pos_info`, the pileup of one position: the reference base and
the base calls. -/
structure snp_pos_info where
  ref_base : Char
  calls : List base_call
deriving DecidableEq, Repr

/-- Modelled from the spec: `snp_pos_info::get_ref_base()`. -/
def snp_pos_info.get_ref_base (pi : snp_pos_info) : Char := pi.ref_base

/-- An operand written to a `std::ostream` with `<<`. -/
inductive StreamItem where
  | text (s : String)
  | int (i : Int)
  | nat (n : Nat)
  | char (c : Char)
  | tab
  | newline
  /-- The printed form of a pileup (`os << snp_pos_info`). -/
  | pileup (pi : snp_pos_info)
  /-- The printed form of a flag (`os << bool`). -/
  | bool (b : Bool)
deriving DecidableEq, Repr

/-- The counting loop of `report_counts` (lines 52-56) over the array `base_count`. -/
def countBases : List base_call → List Nat → Except Fatal (List Nat)
  | [], base_count => .ok base_count
  | bc :: rest, base_count =>
    if bc.base_id = BASE_ID.ANY then .error .assertion
    else if bc.base_id < base_count.length then
      countBases rest (base_count.modify (fun c => c + 1) bc.base_id)
    else .error .outOfRange

/-- The function `report_counts(pi, n_unused_calls, output_pos, os)`: returns the stream after
the call. -/
def report_counts (pi : snp_pos_info) (n_unused_calls : Nat) (output_pos : Int)
    (os : List StreamItem) : Except Fatal (List StreamItem) :=
  (countBases pi.calls (List.replicate N_BASE 0)).bind fun base_count =>
    .ok (os ++ [StreamItem.int output_pos, StreamItem.tab] ++
      ((List.range N_BASE).flatMap fun i => [StreamItem.nat (base_count.getD i 0), StreamItem.tab])
      ++ [StreamItem.nat n_unused_calls, StreamItem.newline])

/-- The function `write_snp_prefix_info_file` (lines 68-82). -/
def write_snp_prefix_info_file (seq_name : String) (output_pos : Int) (ref : Char)
    (n_used_calls n_unused_calls : Nat) (os : List StreamItem) : List StreamItem :=
  os ++ [StreamItem.text seq_name, StreamItem.tab, StreamItem.int output_pos, StreamItem.tab,
    StreamItem.nat n_used_calls, StreamItem.tab, StreamItem.nat n_unused_calls, StreamItem.tab,
    StreamItem.char ref]

/-- A pileup with three calls of base 0, one of base 2 and two of base 3. -/
def examplePileup : snp_pos_info :=
  ⟨Char.ofNat 65, [⟨0, 30⟩, ⟨3, 20⟩, ⟨0, 31⟩, ⟨2, 40⟩, ⟨3, 10⟩, ⟨0, 25⟩]⟩

/-! ## The SNP path: `process_pos_snp_single_sample` and its two modes -/

/-- Modelled from the spec: `CleanedPileup`, the pileup object of a sample: the raw pileup, and
what `CleanPileupErrorProb` derives from it (cleaned pileup, call counts, extended
information, kept abstract). -/
structure CleanedPileup where
  rawPileup : snp_pos_info
  cleanedPileup : snp_pos_info
  n_used_calls : Nat
  n_unused_calls : Nat
  extendedPosInfo : Nat
deriving DecidableEq, Repr

/-- Modelled from the spec: `nonref_test_call`, of which the flag `is_snp` is consulted. -/
structure nonref_test_call where
  is_snp : Bool
  rest : Nat
deriving DecidableEq, Repr

/-- Modelled from the spec: `diploid_genotype` (`si->dgt`): the ploidy, the flag `is_snp`, and
the rest of the call kept abstract. -/
structure diploid_genotype where
  ploidy : Nat
  is_snp : Bool
  rest : Nat
deriving DecidableEq, Repr

/-- Modelled from the spec: the site record of the diploid mode
(`GermlineDiploidSiteLocusInfo`): constructor arguments and the fields that
`process_pos_snp_single_sample_impl` assigns; `none` is a field left unassigned. -/
structure GermlineDiploidSiteLocusInfo where
  pos : Int
  ref : Char
  good_pi : snp_pos_info
  isForcedOutput : Bool
  n_used_calls : Nat
  n_unused_calls : Nat
  dgt : diploid_genotype
  hapscore : Option Nat
  scoringMetrics : Option Nat
  hpol : Option Nat
deriving DecidableEq, Repr

/-- Modelled from the spec: the site record of the continuous mode
(`GermlineContinuousSiteLocusInfo`): constructor arguments, the fields that
`process_pos_snp_single_sample_continuous` assigns, and the alleles added by the caller. -/
structure GermlineContinuousSiteLocusInfo where
  pos : Int
  ref : Char
  good_pi : snp_pos_info
  isForcedOutput : Bool
  n_used_calls : Nat
  n_unused_calls : Nat
  hpol : Nat
  altAlleles : List Nat
deriving DecidableEq, Repr

/-- A site record handed to `_gvcfer->add_site`. -/
inductive SiteRecord where
  | diploid (si : GermlineDiploidSiteLocusInfo)
  | continuous (si : GermlineContinuousSiteLocusInfo)
deriving DecidableEq, Repr

/-- The flags of `_opt` that the SNP path reads. -/
structure SnpOptions where
  is_gvcf_output : Bool
  is_bsnp_diploid : Bool
  is_counts : Bool
  is_nonref_test : Bool
  is_nonref_sites : Bool
  is_all_sites : Bool
  is_compute_hapscore : Bool
  is_compute_germline_scoring_metrics : Bool
  is_print_all_site_evidence : Bool
  is_print_evidence : Bool
deriving DecidableEq, Repr

/-- Routines and members that the SNP path uses and that are defined elsewhere. -/
structure SnpEnv where
  opt : SnpOptions
  chrom_name : String
  /-- The test `is_forced_output_pos(pos)`. -/
  is_forced_output_pos : Int → Bool
  /-- The result of `is_save_pileup_buffer()`: a downstream stage holds the pileup buffer. -/
  is_save_pileup_buffer : Bool
  /-- The call `_pileupCleaner.CleanPileupErrorProb(cpi)`: the pileup object after it. -/
  CleanPileupErrorProb : CleanedPileup → CleanedPileup
  /-- The lookup `get_ploidy(pos, sampleIndex)`. -/
  get_ploidy : Int → Nat → Nat
  /-- The test `position_nonref_2allele_test(good_pi, opt, is_nonref_sites, nrc)`. -/
  position_nonref_2allele_test : snp_pos_info → Bool → nonref_test_call
  /-- The caller `position_snp_call_pprob_digt(opt, good_epi, dgt, is_all_sites)`: the genotype
  after the call. -/
  position_snp_call_pprob_digt : Nat → diploid_genotype → Bool → diploid_genotype
  /-- The score `get_hapscore(pi.hap_set)`. -/
  get_hapscore : snp_pos_info → Nat
  /-- The empirical scoring metrics read from the raw pileup (lines 393-400), as one value. -/
  scoringMetrics : snp_pos_info → Nat
  /-- The size `get_snp_hpol_size(pos, ref)`. -/
  get_snp_hpol_size : Int → Nat
  /-- The text written by `write_nonref_2allele_test(opt, good_pi, nrc, os)`. -/
  write_nonref_2allele_test : snp_pos_info → nonref_test_call → List StreamItem
  /-- The caller `position_snp_call_continuous(opt, good_pi, baseId, isForcedOutput, si)`: the
  record after the call. -/
  position_snp_call_continuous :
    snp_pos_info → Nat → Bool → GermlineContinuousSiteLocusInfo → GermlineContinuousSiteLocusInfo
  /-- The conversion `base_to_id(ref)`. -/
  base_to_id : Char → Nat
  /-- The pileup `sample(sample_no).bc_buff.get_pos(pos)`. -/
  bc_buff_get_pos : Nat → Int → snp_pos_info

/-- The state that the SNP path reads and writes: the pileup object of sample 0, the records
handed to `_gvcfer->add_site`, the log of the calls made to `position_snp_call_continuous`
(base id and forced flag), and the output streams. -/
structure SnpState where
  cpi : CleanedPileup
  sites : List SiteRecord
  continuousCalls : List (Nat × Bool)
  counts_os : List StreamItem
  nonref_sites_os : List StreamItem
  nonref_test_os : List StreamItem
  report_os : List StreamItem
deriving DecidableEq, Repr

/-- How a mode-specific SNP routine left: at the sample test, at the skip test, or at its
end. -/
inductive SnpOutcome where
  | otherSample
  | skipped
  | processed
deriving DecidableEq, Repr

/-- The method `starling_pos_processor::process_pos_snp_single_sample_impl(pos, sampleIndex)`. -/
def process_pos_snp_single_sample_impl (env : SnpEnv) (pos : Int) (sampleIndex : Nat)
    (st : SnpState) : Except Fatal (SnpOutcome × SnpState) :=
  if sampleIndex ≠ 0 then .ok (.otherSample, st)
  else
    let is_forced := env.is_forced_output_pos pos
    let is_skippable := !(is_forced || env.is_save_pileup_buffer)
    if st.cpi.rawPileup.calls.isEmpty && is_skippable then .ok (.skipped, st)
    else
      let cpi := env.CleanPileupErrorProb st.cpi
      let pi := cpi.rawPileup
      let good_pi := cpi.cleanedPileup
      let good_epi := cpi.extendedPosInfo
      let dgt0 : diploid_genotype := ⟨env.get_ploidy pos sampleIndex, false, 0⟩
      let output_pos := pos + 1
      (if env.opt.is_counts then report_counts good_pi cpi.n_unused_calls output_pos st.counts_os
        else .ok st.counts_os).bind fun counts_os =>
      let nrc : nonref_test_call :=
        if env.opt.is_nonref_test || env.opt.is_nonref_sites then
          env.position_nonref_2allele_test good_pi env.opt.is_nonref_sites
        else ⟨false, 0⟩
      let dgt :=
        if env.opt.is_bsnp_diploid then
          env.position_snp_call_pprob_digt good_epi dgt0 env.opt.is_all_sites
        else dgt0
      let is_snp := nrc.is_snp || dgt.is_snp
      let hapscore :=
        if (is_snp || is_forced) && env.opt.is_compute_hapscore then some (env.get_hapscore pi)
        else none
      let scoringMetrics :=
        if (is_snp || is_forced) && env.opt.is_compute_germline_scoring_metrics then
          some (env.scoringMetrics pi)
        else none
      let hpol := if is_snp || is_forced then some (env.get_snp_hpol_size pos) else none
      let si : GermlineDiploidSiteLocusInfo :=
        ⟨pos, pi.get_ref_base, good_pi, is_forced, cpi.n_used_calls, cpi.n_unused_calls, dgt,
          hapscore, scoringMetrics, hpol⟩
      let nonref_sites_os :=
        if env.opt.is_nonref_sites then
          write_snp_prefix_info_file env.chrom_name output_pos pi.get_ref_base si.n_used_calls
            si.n_unused_calls st.nonref_sites_os ++ [StreamItem.tab] ++
            env.write_nonref_2allele_test good_pi nrc ++ [StreamItem.newline]
        else st.nonref_sites_os
      let nonref_test_os :=
        if is_snp && nrc.is_snp then
          write_snp_prefix_info_file env.chrom_name output_pos pi.get_ref_base si.n_used_calls
            si.n_unused_calls st.nonref_test_os ++ [StreamItem.tab] ++
            env.write_nonref_2allele_test good_pi nrc ++ [StreamItem.newline]
        else st.nonref_test_os
      let is_reported_event := is_snp
      let report_os :=
        if env.opt.is_print_all_site_evidence ||
            (env.opt.is_print_evidence && is_reported_event) then
          st.report_os ++ [StreamItem.text "EVIDENCE pos: ", StreamItem.int output_pos,
            StreamItem.newline, StreamItem.text "is_snp: ", StreamItem.bool is_snp,
            StreamItem.newline, StreamItem.pileup pi, StreamItem.newline]
        else st.report_os
      .ok (.processed, ⟨cpi, st.sites ++ [SiteRecord.diploid si], st.continuousCalls, counts_os,
        nonref_sites_os, nonref_test_os, report_os⟩)

/-- The lambda `addBase` of the continuous mode (lines 244-254): the caller is run on a copy of
the locus record, and the copy is handed to the aggregator when it has an allele. The state is
the flag `isSiteAddedForPosition`, the aggregator's records and the log of caller calls. -/
def addBase (env : SnpEnv) (locusInfo : GermlineContinuousSiteLocusInfo) (good_pi : snp_pos_info)
    (baseId : Nat) (isForcedOutput : Bool)
    (acc : Bool × List SiteRecord × List (Nat × Bool)) : Bool × List SiteRecord × List (Nat × Bool) :=
  let si := env.position_snp_call_continuous good_pi baseId isForcedOutput locusInfo
  if !si.altAlleles.isEmpty then
    (true, acc.2.1 ++ [SiteRecord.continuous si], acc.2.2 ++ [(baseId, isForcedOutput)])
  else (acc.1, acc.2.1, acc.2.2 ++ [(baseId, isForcedOutput)])

/-- The loop over the bases (lines 256-259) from `baseId`, with `remaining` bases left. -/
def addBases (env : SnpEnv) (locusInfo : GermlineContinuousSiteLocusInfo) (good_pi : snp_pos_info)
    (is_forced : Bool) :
    Nat → Nat → Bool × List SiteRecord × List (Nat × Bool) →
      Bool × List SiteRecord × List (Nat × Bool)
  | 0, _, acc => acc
  | remaining + 1, baseId, acc =>
    addBases env locusInfo good_pi is_forced remaining (baseId + 1)
      (addBase env locusInfo good_pi baseId is_forced acc)

/-- The method
`starling_pos_processor::process_pos_snp_single_sample_continuous(pos, sample_no)`. -/
def process_pos_snp_single_sample_continuous (env : SnpEnv) (pos : Int) (sample_no : Nat)
    (st : SnpState) : Except Fatal (SnpOutcome × SnpState) :=
  if sample_no ≠ 0 then .ok (.otherSample, st)
  else
    let cpi := env.CleanPileupErrorProb st.cpi
    let pi := cpi.rawPileup
    let good_pi := cpi.cleanedPileup
    let is_forced := env.is_forced_output_pos pos
    if pi.calls.isEmpty && !is_forced then
      .ok (.skipped, ⟨cpi, st.sites, st.continuousCalls, st.counts_os, st.nonref_sites_os,
        st.nonref_test_os, st.report_os⟩)
    else
      let locusInfo : GermlineContinuousSiteLocusInfo :=
        ⟨pos, pi.get_ref_base, good_pi, is_forced, cpi.n_used_calls, cpi.n_unused_calls,
          env.get_snp_hpol_size pos, []⟩
      (if env.opt.is_counts then
          report_counts good_pi locusInfo.n_unused_calls (locusInfo.pos + 1) st.counts_os
        else .ok st.counts_os).bind fun counts_os =>
      let looped := addBases env locusInfo good_pi is_forced N_BASE 0
        (false, st.sites, st.continuousCalls)
      let final :=
        if !looped.1 then
          let refBaseId := env.base_to_id locusInfo.ref
          addBase env locusInfo good_pi refBaseId true looped
        else looped
      .ok (.processed, ⟨cpi, final.2.1, final.2.2, counts_os, st.nonref_sites_os,
        st.nonref_test_os, st.report_os⟩)

/-- A failure of the SNP path: an abort (failed `assert`), or a thrown exception together with
the content of the log stream when it leaves the routine. -/
inductive Failure where
  | abort (f : Fatal)
  | exception (e : Nat) (log_os : List StreamItem)
deriving DecidableEq, Repr

/-- The method `starling_pos_processor::process_pos_snp_single_sample(pos, sample_no)`
(lines 175-203). The two routines it dispatches to are arguments, so that every behaviour of
theirs (return, abort, exception) is covered; `catch (...)` catches exceptions only. -/
def process_pos_snp_single_sample (env : SnpEnv)
    (impl continuous : Int → Nat → SnpState → Except Failure SnpState)
    (pos : Int) (sample_no : Nat) (st : SnpState) : Except Failure SnpState :=
  if !env.opt.is_gvcf_output then .error (.abort .assertion)
  else
    match (if env.opt.is_bsnp_diploid then impl pos sample_no st
      else continuous pos sample_no st) with
    | .ok st1 => .ok st1
    | .error (.abort f) => .error (.abort f)
    | .error (.exception e log_os) =>
      .error (.exception e (log_os ++
        [StreamItem.text ("Exception caught in starling_pos_processor_base." ++
            "process_pos_snp_single_sample_impl() while processing chromosome position: "),
          StreamItem.int (pos + 1), StreamItem.newline,
          StreamItem.text "snp_pos_info:", StreamItem.newline,
          StreamItem.pileup (env.bc_buff_get_pos sample_no pos), StreamItem.newline]))

/-- A mode-specific routine of the model as an argument of `process_pos_snp_single_sample`: a
failed assertion is an abort. -/
def asDispatched (routine : Int → Nat → SnpState → Except Fatal (SnpOutcome × SnpState))
    (pos : Int) (sample_no : Nat) (st : SnpState) : Except Failure SnpState :=
  match routine pos sample_no st with
  | .ok out => .ok out.2
  | .error f => .error (.abort f)

/-- The method `process_pos_snp_single_sample` with the two routines of the model. -/
def process_pos_snp_single_sample_model (env : SnpEnv) (pos : Int) (sample_no : Nat)
    (st : SnpState) : Except Failure SnpState :=
  process_pos_snp_single_sample env (asDispatched (process_pos_snp_single_sample_impl env))
    (asDispatched (process_pos_snp_single_sample_continuous env)) pos sample_no st

/-- The locus record that `process_pos_snp_single_sample_continuous` builds at lines 228-234
from the pileup object after cleaning. -/
def continuousLocusInfo (env : SnpEnv) (pos : Int) (cpi : CleanedPileup) :
    GermlineContinuousSiteLocusInfo :=
  ⟨pos, cpi.rawPileup.get_ref_base, cpi.cleanedPileup, env.is_forced_output_pos pos,
    cpi.n_used_calls, cpi.n_unused_calls, env.get_snp_hpol_size pos, []⟩

/-- The record that one call of `addBase` hands to the aggregator, if any. -/
def siteOfBase (env : SnpEnv) (locusInfo : GermlineContinuousSiteLocusInfo)
    (good_pi : snp_pos_info) (isForcedOutput : Bool) (baseId : Nat) : Option SiteRecord :=
  let si := env.position_snp_call_continuous good_pi baseId isForcedOutput locusInfo
  if !si.altAlleles.isEmpty then some (SiteRecord.continuous si) else none

/-- The records of the per-base calls over the `N_BASE` bases, in base order. -/
def perBaseSites (env : SnpEnv) (locusInfo : GermlineContinuousSiteLocusInfo)
    (good_pi : snp_pos_info) (is_forced : Bool) : List SiteRecord :=
  (List.range' 0 N_BASE).filterMap (siteOfBase env locusInfo good_pi is_forced)

/-- Modelled from the spec: `base_to_id`, which is defined in another source file: the letters
A, C, G and T have the ids 0 to 3, every other letter has `BASE_ID::ANY`. -/
def base_to_id (c : Char) : Nat :=
  if c.toNat = 65 then 0
  else if c.toNat = 67 then 1
  else if c.toNat = 71 then 2
  else if c.toNat = 84 then 3
  else BASE_ID.ANY

/-- Modelled from the spec: `starling_continuous_variant_caller::position_snp_call_continuous`,
which is defined in another source file. The spec has one locus emitted per alternate base with
nonzero cleaned-pileup support, and a reference-only record as the fallback: an allele is added
to the record for an alternate base with support in the cleaned pileup, and for the reference
base when output is forced. -/
def position_snp_call_continuous (good_pi : snp_pos_info) (baseId : Nat) (isForcedOutput : Bool)
    (si : GermlineContinuousSiteLocusInfo) : GermlineContinuousSiteLocusInfo :=
  let support := good_pi.calls.countP fun bc => decide (bc.base_id = baseId)
  if (baseId ≠ base_to_id si.ref ∧ 0 < support) ∨
      (isForcedOutput = true ∧ baseId = base_to_id si.ref) then
    { si with altAlleles := si.altAlleles ++ [baseId] }
  else si

/-- An example cleaner: the cleaned pileup keeps the calls whose second field is at least 20;
the counts are the numbers of kept and of dropped calls. -/
def exampleCleaner (cpi : CleanedPileup) : CleanedPileup :=
  let kept := cpi.rawPileup.calls.filter fun bc => decide (20 ≤ bc.rest)
  ⟨cpi.rawPileup, ⟨cpi.rawPileup.ref_base, kept⟩, kept.length,
    cpi.rawPileup.calls.length - kept.length, 0⟩

/-- An example environment of the SNP path: position 200 is a forced-output position, the
ploidy is 2 everywhere, and the diploid callers find no SNP. -/
def exampleSnpEnv (opt : SnpOptions) (hold : Bool) : SnpEnv where
  opt := opt
  chrom_name := "chr1"
  is_forced_output_pos := fun pos => decide (pos = 200)
  is_save_pileup_buffer := hold
  CleanPileupErrorProb := exampleCleaner
  get_ploidy := fun _ _ => 2
  position_nonref_2allele_test := fun _ _ => ⟨false, 0⟩
  position_snp_call_pprob_digt := fun _ dgt _ => dgt
  get_hapscore := fun _ => 0
  scoringMetrics := fun _ => 0
  get_snp_hpol_size := fun _ => 1
  write_nonref_2allele_test := fun _ _ => []
  position_snp_call_continuous := position_snp_call_continuous
  base_to_id := base_to_id
  bc_buff_get_pos := fun _ _ => examplePileup

/-- The options of the diploid mode, with the counts stream switched on. -/
def diploidOptions : SnpOptions :=
  ⟨true, true, true, false, false, false, false, false, false, false⟩

/-- The options of the continuous mode, with the counts stream switched on. -/
def continuousOptions : SnpOptions :=
  ⟨true, false, true, false, false, false, false, false, false, false⟩

/-- A state whose pileup of sample 0 is `pi`, not yet cleaned, with nothing written. -/
def snpStateOf (pi : snp_pos_info) : SnpState :=
  ⟨⟨pi, ⟨pi.ref_base, []⟩, 0, 0, 0⟩, [], [], [], [], [], []⟩

/-- An empty pileup over the reference base A. -/
def emptyPileup : snp_pos_info := ⟨Char.ofNat 65, []⟩

/-- An empty pileup over the reference letter N. -/
def emptyPileupN : snp_pos_info := ⟨Char.ofNat 78, []⟩

/-- The environment `env` with the two routines of the continuous mode that are modelled from
the spec, `position_snp_call_continuous` and `base_to_id`; everything else is that of `env`. -/
def withModelledCaller (env : SnpEnv) : SnpEnv :=
  { env with
    position_snp_call_continuous := position_snp_call_continuous
    base_to_id := base_to_id }

/-- A pileup over the reference base A whose three calls are all of base 0, the reference. -/
def referencePileup : snp_pos_info :=
  ⟨Char.ofNat 65, [⟨0, 30⟩, ⟨0, 25⟩, ⟨0, 40⟩]⟩

/-! # Theorems -/

/-! ## Inversion of `hackDiplotypeCallToCopyNumberCalls` -/

theorem hack_ok_inv {env : Env} {alleleGroup : OrthogonalVariantAlleleCandidateGroup}
    {locusGenotype : AlleleGroupGenotype} {locusReadStats : List LocusSupportingReadStats}
    {callerPloidy groupLocusPloidy : Nat} {isForcedOutput : Bool}
    {gvcfer : List GermlineIndelLocusInfo} {res : Bool × List GermlineIndelLocusInfo}
    (h : hackDiplotypeCallToCopyNumberCalls env alleleGroup locusGenotype locusReadStats
      callerPloidy groupLocusPloidy isForcedOutput gvcfer = .ok res) :
    (res = (false, gvcfer) ∧
      (isForcedOutput || locusGenotype.maxGenotypeIndex != AG_GENOTYPE.HOMREF) = false) ∨
    ((isForcedOutput || locusGenotype.maxGenotypeIndex != AG_GENOTYPE.HOMREF) = true ∧
      ∃ altAlleles supportCounts maxGIP samplePLs sitePloidy allele0,
        addAltIndelAlleles isForcedOutput alleleGroup.alleles [] = .ok altAlleles ∧
        locusReadStats[0]? = some supportCounts ∧
        translateOldToNewGenotypeIndex (callerPloidy : Int)
          locusGenotype.maxGenotypeIndexPolymorphic = .ok maxGIP ∧
        setGenotypePhredLoghood env locusGenotype callerPloidy (alleleGroup.size + 1)
          = .ok samplePLs ∧
        setSitePloidy altAlleles (env.locusRange altAlleles) callerPloidy maxGIP
          = .ok sitePloidy ∧
        alleleGroup.alleles[0]? = some allele0 ∧
        res = (true, gvcfer ++ [hackRecord env locusGenotype callerPloidy
          groupLocusPloidy altAlleles supportCounts maxGIP samplePLs sitePloidy allele0])) := by
  unfold hackDiplotypeCallToCopyNumberCalls at h
  split at h
  · left
    rename_i hc
    simp only [Except.ok.injEq] at h
    exact ⟨h.symm, by simpa using hc⟩
  · right
    rename_i hc
    refine ⟨by revert hc; cases isForcedOutput <;> simp, ?_⟩
    cases h1 : addAltIndelAlleles isForcedOutput alleleGroup.alleles [] with
    | error e => simp [h1, bind, Except.bind] at h
    | ok altAlleles =>
    cases h2 : locusReadStats[0]? with
    | none => simp [h1, h2, bind, Except.bind] at h
    | some supportCounts =>
    cases h3 : translateOldToNewGenotypeIndex (callerPloidy : Int)
        locusGenotype.maxGenotypeIndexPolymorphic with
    | error e => simp [h1, h2, h3, bind, Except.bind] at h
    | ok maxGIP =>
    cases h4 : setGenotypePhredLoghood env locusGenotype callerPloidy (alleleGroup.size + 1) with
    | error e => simp [h1, h2, h3, h4, bind, Except.bind] at h
    | ok samplePLs =>
    cases h5 : setSitePloidy altAlleles (env.locusRange altAlleles) callerPloidy maxGIP with
    | error e => simp [h1, h2, h3, h4, h5, bind, Except.bind] at h
    | ok sitePloidy =>
    cases h6 : alleleGroup.alleles[0]? with
    | none => simp [h1, h2, h3, h4, h5, h6, bind, Except.bind] at h
    | some allele0 =>
    simp [h1, h2, h3, h4, h5, h6, bind, Except.bind, pure, Except.pure] at h
    exact ⟨altAlleles, supportCounts, maxGIP, samplePLs, sitePloidy, allele0,
      rfl, rfl, rfl, rfl, h5, rfl, by rw [← h]⟩


theorem hack_ok_of {env : Env} {alleleGroup : OrthogonalVariantAlleleCandidateGroup}
    {locusGenotype : AlleleGroupGenotype} {locusReadStats : List LocusSupportingReadStats}
    {callerPloidy groupLocusPloidy : Nat} {isForcedOutput : Bool}
    {gvcfer : List GermlineIndelLocusInfo}
    {altAlleles : List Allele} {supportCounts : LocusSupportingReadStats} {maxGIP : Nat}
    {samplePLs : List (VcfGenotype × Nat)} {sitePloidy : List Int} {allele0 : Allele}
    (hc : (isForcedOutput || locusGenotype.maxGenotypeIndex != AG_GENOTYPE.HOMREF) = true)
    (h1 : addAltIndelAlleles isForcedOutput alleleGroup.alleles [] = .ok altAlleles)
    (h2 : locusReadStats[0]? = some supportCounts)
    (h3 : translateOldToNewGenotypeIndex (callerPloidy : Int)
      locusGenotype.maxGenotypeIndexPolymorphic = .ok maxGIP)
    (h4 : setGenotypePhredLoghood env locusGenotype callerPloidy (alleleGroup.size + 1)
      = .ok samplePLs)
    (h5 : setSitePloidy altAlleles (env.locusRange altAlleles) callerPloidy maxGIP
      = .ok sitePloidy)
    (h6 : alleleGroup.alleles[0]? = some allele0) :
    hackDiplotypeCallToCopyNumberCalls env alleleGroup locusGenotype locusReadStats
      callerPloidy groupLocusPloidy isForcedOutput gvcfer
      = .ok (true, gvcfer ++ [hackRecord env locusGenotype callerPloidy
          groupLocusPloidy altAlleles supportCounts maxGIP samplePLs sitePloidy allele0]) := by
  unfold hackDiplotypeCallToCopyNumberCalls
  rw [if_neg (by simp [hc])]
  simp [h1, h2, h3, h4, h5, h6, bind, Except.bind, pure, Except.pure]

/-- Every result of a successful call is either `false` with the aggregator untouched, or
`true` with exactly one record appended. -/
theorem hack_ok_true {env : Env} {alleleGroup : OrthogonalVariantAlleleCandidateGroup}
    {locusGenotype : AlleleGroupGenotype} {locusReadStats : List LocusSupportingReadStats}
    {callerPloidy groupLocusPloidy : Nat} {isForcedOutput : Bool}
    {gvcfer gvcfer1 : List GermlineIndelLocusInfo}
    (h : hackDiplotypeCallToCopyNumberCalls env alleleGroup locusGenotype locusReadStats
      callerPloidy groupLocusPloidy isForcedOutput gvcfer = .ok (true, gvcfer1)) :
    ∃ altAlleles supportCounts maxGIP samplePLs sitePloidy allele0,
        addAltIndelAlleles isForcedOutput alleleGroup.alleles [] = .ok altAlleles ∧
        locusReadStats[0]? = some supportCounts ∧
        translateOldToNewGenotypeIndex (callerPloidy : Int)
          locusGenotype.maxGenotypeIndexPolymorphic = .ok maxGIP ∧
        setGenotypePhredLoghood env locusGenotype callerPloidy (alleleGroup.size + 1)
          = .ok samplePLs ∧
        setSitePloidy altAlleles (env.locusRange altAlleles) callerPloidy maxGIP
          = .ok sitePloidy ∧
        alleleGroup.alleles[0]? = some allele0 ∧
        gvcfer1 = gvcfer ++ [hackRecord env locusGenotype callerPloidy
          groupLocusPloidy altAlleles supportCounts maxGIP samplePLs sitePloidy allele0] := by
  rcases hack_ok_inv h with ⟨h1, _⟩ | ⟨_, a, b, c, d, e, f, h1, h2, h3, h4, h5, h6, h7⟩
  · simp at h1
  · exact ⟨a, b, c, d, e, f, h1, h2, h3, h4, h5, h6, by simpa using h7⟩


/-! ## Quality derivation -/

/-- C1: whenever `hackDiplotypeCallToCopyNumberCalls` emits a record (returns `true`), exactly
one record is appended to the aggregator, and its `gqx` is 0 when `maxGenotypeIndex` differs from
`maxGenotypeIndexPolymorphic` and `min(genotypeQuality, genotypeQualityPolymorphic)`
otherwise. -/
theorem gqx_of_emitted_record (env : Env) (alleleGroup : OrthogonalVariantAlleleCandidateGroup)
    (locusGenotype : AlleleGroupGenotype) (locusReadStats : List LocusSupportingReadStats)
    (callerPloidy groupLocusPloidy : Nat) (isForcedOutput : Bool)
    (gvcfer gvcfer1 : List GermlineIndelLocusInfo)
    (h : hackDiplotypeCallToCopyNumberCalls env alleleGroup locusGenotype locusReadStats
      callerPloidy groupLocusPloidy isForcedOutput gvcfer = .ok (true, gvcfer1)) :
    ∃ ii, gvcfer1 = gvcfer ++ [ii] ∧
      (locusGenotype.maxGenotypeIndex ≠ locusGenotype.maxGenotypeIndexPolymorphic →
        ii.sample0.gqx = 0) ∧
      (locusGenotype.maxGenotypeIndex = locusGenotype.maxGenotypeIndexPolymorphic →
        ii.sample0.gqx =
          min locusGenotype.genotypeQuality locusGenotype.genotypeQualityPolymorphic) := by
  obtain ⟨a, b, c, d, e, f, -, -, -, -, -, -, h7⟩ := hack_ok_true h
  refine ⟨_, h7, ?_, ?_⟩
  · intro hne
    simp [hackRecord, computeGqx, hne]
  · intro heq
    simp [hackRecord, computeGqx, heq]

/-- The statement of C1 at a heterozygous call of a deletion: the call emits one record, the
indices agree and `gqx` is `min 30 20 = 20`. -/
theorem gqx_of_emitted_record_witness :
    hackDiplotypeCallToCopyNumberCalls exampleEnv ⟨[del50]⟩ hetCall [8] 2 2 false []
        = .ok (true, [hackRecord exampleEnv hetCall 2 2 [del50] 8 1
          [(.diploid 0 0, 50), (.diploid 0 1, 60), (.diploid 1 1, 70)] [1, 1] del50]) ∧
    ∃ ii, [hackRecord exampleEnv hetCall 2 2 [del50] 8 1
          [(.diploid 0 0, 50), (.diploid 0 1, 60), (.diploid 1 1, 70)] [1, 1] del50]
        = [] ++ [ii] ∧
      (hetCall.maxGenotypeIndex ≠ hetCall.maxGenotypeIndexPolymorphic → ii.sample0.gqx = 0) ∧
      (hetCall.maxGenotypeIndex = hetCall.maxGenotypeIndexPolymorphic →
        ii.sample0.gqx = min hetCall.genotypeQuality hetCall.genotypeQualityPolymorphic) :=
  ⟨rfl, gqx_of_emitted_record exampleEnv ⟨[del50]⟩ hetCall [8] 2 2 false [] _ rfl⟩

/-- C2, as stated, fails: a record is emitted with `gqx == 0` although the two maximum-likelihood
indices are equal (the genotype quality is 0). -/
theorem gqx_zero_iff_counterexample :
    ∃ ii, hackDiplotypeCallToCopyNumberCalls exampleEnv ⟨[del50]⟩ zeroQualityCall [8] 2 2 false []
        = .ok (true, [ii]) ∧
      ¬ (ii.sample0.gqx = 0 ↔
        zeroQualityCall.maxGenotypeIndex ≠ zeroQualityCall.maxGenotypeIndexPolymorphic) :=
  ⟨hackRecord exampleEnv zeroQualityCall 2 2 [del50] 8 1
      [(.diploid 0 0, 50), (.diploid 0 1, 60), (.diploid 1 1, 70)] [1, 1] del50, rfl, by decide⟩

/-- C2, amended: for every emitted record, `gqx == 0` if and only if the two maximum-likelihood
indices differ or `min(genotypeQuality, genotypeQualityPolymorphic)` is 0. -/
theorem gqx_zero_iff (env : Env) (alleleGroup : OrthogonalVariantAlleleCandidateGroup)
    (locusGenotype : AlleleGroupGenotype) (locusReadStats : List LocusSupportingReadStats)
    (callerPloidy groupLocusPloidy : Nat) (isForcedOutput : Bool)
    (gvcfer : List GermlineIndelLocusInfo) (ii : GermlineIndelLocusInfo)
    (h : hackDiplotypeCallToCopyNumberCalls env alleleGroup locusGenotype locusReadStats
      callerPloidy groupLocusPloidy isForcedOutput gvcfer = .ok (true, gvcfer ++ [ii])) :
    ii.sample0.gqx = 0 ↔
      (locusGenotype.maxGenotypeIndex ≠ locusGenotype.maxGenotypeIndexPolymorphic ∨
        min locusGenotype.genotypeQuality locusGenotype.genotypeQualityPolymorphic = 0) := by
  obtain ⟨a, b, c, d, e, f, -, -, -, -, -, -, h7⟩ := hack_ok_true h
  have hii : ii = hackRecord env locusGenotype callerPloidy groupLocusPloidy a b c d e f := by
    simpa using h7
  subst hii
  by_cases hne : locusGenotype.maxGenotypeIndex = locusGenotype.maxGenotypeIndexPolymorphic
  · simp [hackRecord, computeGqx, hne]
  · simp [hackRecord, computeGqx, hne]

/-- The amended C2 at the call with genotype quality 0: the emitted `gqx` is 0 and the right-hand
side holds through its second disjunct. -/
theorem gqx_zero_iff_witness :
    (hackRecord exampleEnv zeroQualityCall 2 2 [del50] 8 1
      [(.diploid 0 0, 50), (.diploid 0 1, 60), (.diploid 1 1, 70)] [1, 1] del50).sample0.gqx = 0 ↔
      (zeroQualityCall.maxGenotypeIndex ≠ zeroQualityCall.maxGenotypeIndexPolymorphic ∨
        min zeroQualityCall.genotypeQuality zeroQualityCall.genotypeQualityPolymorphic = 0) :=
  gqx_zero_iff exampleEnv ⟨[del50]⟩ zeroQualityCall [8] 2 2 false [] _ rfl

/-! ## Ploidy of the locus and of the call -/

/-- C7: for every sample the locus ploidy is the maximum of the ploidy at the begin and at the
end of the candidate group's reference range, the calling ploidy is 2 when that maximum is 0
and the maximum otherwise, and it is 1 or 2 whenever `get_ploidy` only returns 0, 1 or 2. -/
theorem caller_ploidy_of_locus_ploidy (env : Env)
    (orthogonalVariantAlleles : OrthogonalVariantAlleleCandidateGroup) (sampleIndex : Nat)
    (h : sampleIndex < env.sampleCount) :
    (computeGroupLocusPloidy env orthogonalVariantAlleles)[sampleIndex]? =
        some (max
          (env.get_ploidy (env.getReferenceRange orthogonalVariantAlleles).begin_pos sampleIndex)
          (env.get_ploidy (env.getReferenceRange orthogonalVariantAlleles).end_pos sampleIndex)) ∧
    (∀ locusPloidy, (computeGroupLocusPloidy env orthogonalVariantAlleles)[sampleIndex]?
        = some locusPloidy →
      (computeCallerPloidy (computeGroupLocusPloidy env orthogonalVariantAlleles))[sampleIndex]?
        = some (if locusPloidy = 0 then 2 else locusPloidy)) ∧
    ((∀ p s, env.get_ploidy p s ≤ 2) →
      ∃ callerPloidy,
        (computeCallerPloidy (computeGroupLocusPloidy env orthogonalVariantAlleles))[sampleIndex]?
          = some callerPloidy ∧ (callerPloidy = 1 ∨ callerPloidy = 2)) := by
  have h1 : (computeGroupLocusPloidy env orthogonalVariantAlleles)[sampleIndex]? =
      some (max
        (env.get_ploidy (env.getReferenceRange orthogonalVariantAlleles).begin_pos sampleIndex)
        (env.get_ploidy (env.getReferenceRange orthogonalVariantAlleles).end_pos sampleIndex)) := by
    simp [computeGroupLocusPloidy, List.getElem?_map, List.getElem?_range h]
  have h2 : ∀ locusPloidy, (computeGroupLocusPloidy env orthogonalVariantAlleles)[sampleIndex]?
        = some locusPloidy →
      (computeCallerPloidy (computeGroupLocusPloidy env orthogonalVariantAlleles))[sampleIndex]?
        = some (if locusPloidy = 0 then 2 else locusPloidy) := by
    intro locusPloidy hl
    simp [computeCallerPloidy, List.getElem?_map, hl]
  refine ⟨h1, h2, ?_⟩
  · intro hp
    refine ⟨_, h2 _ h1, ?_⟩
    have ha := hp (env.getReferenceRange orthogonalVariantAlleles).begin_pos sampleIndex
    have hb := hp (env.getReferenceRange orthogonalVariantAlleles).end_pos sampleIndex
    have hm : max
        (env.get_ploidy (env.getReferenceRange orthogonalVariantAlleles).begin_pos sampleIndex)
        (env.get_ploidy (env.getReferenceRange orthogonalVariantAlleles).end_pos sampleIndex)
        ≤ 2 := max_le ha hb
    split <;> omega

/-- The statement of C7 for sample 0 and the deletion at 250, where the ploidy is unknown: the
locus ploidy is 0 and the calling ploidy 2. -/
theorem caller_ploidy_of_locus_ploidy_witness :
    (0 < exampleEnv.sampleCount) ∧
    (computeGroupLocusPloidy exampleEnv ⟨[del250]⟩)[0]? = some 0 ∧
    (computeCallerPloidy (computeGroupLocusPloidy exampleEnv ⟨[del250]⟩))[0]? = some 2 :=
  ⟨by decide,
    (caller_ploidy_of_locus_ploidy exampleEnv ⟨[del250]⟩ 0 (by decide)).1,
    (caller_ploidy_of_locus_ploidy exampleEnv ⟨[del250]⟩ 0 (by decide)).2.1 0 (by decide)⟩

/-! ## The likelihood vector -/

theorem sum_countdown (c : Nat) : ((List.range c).map fun i => c - i).sum = c * (c + 1) / 2 := by
  induction c with
  | zero => simp
  | succ c ih =>
    rw [List.range_succ_eq_map]
    simp only [List.map_cons, List.map_map, List.sum_cons, Nat.sub_zero]
    have hf : ((fun i => c + 1 - i) ∘ Nat.succ) = fun i => c - i := by
      funext i
      simp
    rw [hf, ih]
    have h2 : (c + 1) * (c + 1 + 1) = c * (c + 1) + 2 * (c + 1) := by ring
    rw [h2, Nat.add_mul_div_left _ _ (by decide : 0 < 2)]
    omega

theorem haploid_keys (env : Env) (g : AlleleGroupGenotype) (c : Nat) :
    (haploidPhredLoghood env g c).map Prod.fst = (List.range c).map VcfGenotype.haploid := by
  simp [haploidPhredLoghood, List.map_map, Function.comp_def]

theorem diploid_keys (env : Env) (g : AlleleGroupGenotype) (c : Nat) :
    (diploidPhredLoghood env g c).map Prod.fst =
      (List.range c).flatMap fun i => (List.range' i (c - i)).map (VcfGenotype.diploid i) := by
  simp [diploidPhredLoghood, List.map_flatMap, List.map_map, Function.comp_def]

theorem diploid_keys_length (c : Nat) :
    ((List.range c).flatMap fun i => (List.range' i (c - i)).map (VcfGenotype.diploid i)).length
      = c * (c + 1) / 2 := by
  rw [List.length_flatMap, ← sum_countdown]
  congr 1
  apply List.map_congr_left
  intro i _
  simp

theorem diploid_keys_mem (c : Nat) (g : VcfGenotype) :
    g ∈ ((List.range c).flatMap fun i => (List.range' i (c - i)).map (VcfGenotype.diploid i)) ↔
      ∃ i j, i ≤ j ∧ j < c ∧ g = VcfGenotype.diploid i j := by
  simp only [List.mem_flatMap, List.mem_range, List.mem_map, List.mem_range'_1]
  constructor
  · rintro ⟨i, hi, j, ⟨hij, hj⟩, rfl⟩
    exact ⟨i, j, hij, by omega, rfl⟩
  · rintro ⟨i, j, hij, hj, rfl⟩
    exact ⟨i, by omega, j, ⟨hij, by omega⟩, rfl⟩

theorem diploid_keys_nodup (c : Nat) :
    ((List.range c).flatMap fun i =>
      (List.range' i (c - i)).map (VcfGenotype.diploid i)).Nodup := by
  rw [List.nodup_flatMap]
  constructor
  · intro i _
    apply List.Nodup.map
    · intro a b hab
      injection hab
    · exact List.nodup_range' _ _
  · apply List.Pairwise.imp_of_mem _ (List.nodup_range c)
    intro a b _ _ hab
    simp only [Function.onFun, List.disjoint_left, List.mem_map, List.mem_range'_1]
    rintro g ⟨j, _, rfl⟩ ⟨k, _, hk⟩
    injection hk with h1 h2
    exact hab h1.symm


theorem addAltIndelAlleles_ok {isForcedOutput : Bool} :
    ∀ (alleles added altAlleles : List Allele),
      addAltIndelAlleles isForcedOutput alleles added = .ok altAlleles →
        altAlleles = added ++ alleles := by
  intro alleles
  induction alleles with
  | nil =>
    intro added altAlleles h
    simp [addAltIndelAlleles] at h
    simp [h]
  | cons a rest ih =>
    intro added altAlleles h
    unfold addAltIndelAlleles at h
    split at h
    · have := ih _ _ h
      simpa using this
    · simp at h

theorem setGenotypePhredLoghood_ok {env : Env} {g : AlleleGroupGenotype} {ploidy c : Nat}
    {pls : List (VcfGenotype × Nat)} (h : setGenotypePhredLoghood env g ploidy c = .ok pls) :
    (ploidy = 1 ∧ pls = haploidPhredLoghood env g c) ∨
      (ploidy = 2 ∧ pls = diploidPhredLoghood env g c) := by
  unfold setGenotypePhredLoghood at h
  split at h
  · left
    exact ⟨by assumption, by simpa using h.symm⟩
  · split at h
    · right
      exact ⟨by assumption, by simpa using h.symm⟩
    · simp at h

/-- C10: an emitted record keeps the `n` alternate alleles of the group, its sample is haploid or
diploid, and the likelihood entries written are: for a haploid sample the `n + 1` genotypes
`(i)`, `i ≤ n`, for a diploid sample the `(n + 1)(n + 2)/2` genotypes `(i, j)`, `i ≤ j ≤ n`,
each written exactly once; with two alternates and ploidy 2 that is 6 entries. -/
theorem likelihood_vector_entries (env : Env)
    (alleleGroup : OrthogonalVariantAlleleCandidateGroup)
    (locusGenotype : AlleleGroupGenotype) (locusReadStats : List LocusSupportingReadStats)
    (callerPloidy groupLocusPloidy : Nat) (isForcedOutput : Bool)
    (gvcfer : List GermlineIndelLocusInfo) (ii : GermlineIndelLocusInfo)
    (h : hackDiplotypeCallToCopyNumberCalls env alleleGroup locusGenotype locusReadStats
      callerPloidy groupLocusPloidy isForcedOutput gvcfer = .ok (true, gvcfer ++ [ii])) :
    ii.altAlleles = alleleGroup.alleles ∧
    (ii.sample0.ploidy = 1 ∨ ii.sample0.ploidy = 2) ∧
    (ii.sample0.ploidy = 1 →
      (ii.sample0.genotypePhredLoghood.map Prod.fst).length = ii.altAlleles.length + 1 ∧
      (ii.sample0.genotypePhredLoghood.map Prod.fst).Nodup ∧
      ∀ g, g ∈ ii.sample0.genotypePhredLoghood.map Prod.fst ↔
        ∃ i, i ≤ ii.altAlleles.length ∧ g = VcfGenotype.haploid i) ∧
    (ii.sample0.ploidy = 2 →
      (ii.sample0.genotypePhredLoghood.map Prod.fst).length
        = (ii.altAlleles.length + 1) * (ii.altAlleles.length + 2) / 2 ∧
      (ii.sample0.genotypePhredLoghood.map Prod.fst).Nodup ∧
      (∀ g, g ∈ ii.sample0.genotypePhredLoghood.map Prod.fst ↔
        ∃ i j, i ≤ j ∧ j ≤ ii.altAlleles.length ∧ g = VcfGenotype.diploid i j) ∧
      (ii.altAlleles.length = 2 →
        (ii.sample0.genotypePhredLoghood.map Prod.fst).length = 6)) := by
  obtain ⟨a, b, c, d, e, f, h1, -, -, h4, -, -, h7⟩ := hack_ok_true h
  have hii : ii = hackRecord env locusGenotype callerPloidy groupLocusPloidy a b c d e f := by
    simpa using h7
  have ha : a = alleleGroup.alleles := by simpa using addAltIndelAlleles_ok _ _ _ h1
  subst hii
  subst ha
  simp only [hackRecord]
  have hsz : alleleGroup.size = alleleGroup.alleles.length := rfl
  rw [hsz] at h4
  rcases setGenotypePhredLoghood_ok h4 with ⟨hp, hd⟩ | ⟨hp, hd⟩
  · subst hp
    subst hd
    refine ⟨trivial, Or.inl rfl, ?_, ?_⟩
    · intro _
      rw [haploid_keys]
      refine ⟨by simp, ?_, ?_⟩
      · apply List.Nodup.map
        · intro x y hxy
          injection hxy
        · exact List.nodup_range _
      · intro g
        simp only [List.mem_map, List.mem_range]
        constructor
        · rintro ⟨i, hi, rfl⟩
          exact ⟨i, by omega, rfl⟩
        · rintro ⟨i, hi, rfl⟩
          exact ⟨i, by omega, rfl⟩
    · intro h2
      omega
  · subst hp
    subst hd
    refine ⟨trivial, Or.inr rfl, ?_, ?_⟩
    · intro h1
      omega
    · intro _
      rw [diploid_keys]
      have hlen := diploid_keys_length (alleleGroup.alleles.length + 1)
      refine ⟨hlen, diploid_keys_nodup _, ?_, ?_⟩
      · intro g
        rw [diploid_keys_mem]
        constructor
        · rintro ⟨i, j, hij, hj, rfl⟩
          exact ⟨i, j, hij, by omega, rfl⟩
        · rintro ⟨i, j, hij, hj, rfl⟩
          exact ⟨i, j, hij, by omega, rfl⟩
      · intro hn
        rw [hlen, hn]

/-- The statement of C10 for the group of the deletion and the insertion at 50 at ploidy 2: the
call emits a record, and the record has two alternates and six likelihood entries. -/
theorem likelihood_vector_entries_witness :
    hackDiplotypeCallToCopyNumberCalls exampleEnv ⟨[del50, forcedIns50]⟩ hetCall [8] 2 2 false []
      = .ok (true, [] ++ [hackRecord exampleEnv hetCall 2 2 [del50, forcedIns50] 8 1
          [(.diploid 0 0, 50), (.diploid 0 1, 60), (.diploid 0 2, 0), (.diploid 1 1, 70),
            (.diploid 1 2, 80), (.diploid 2 2, 90)] [1, 1] del50]) ∧
    ((hackRecord exampleEnv hetCall 2 2 [del50, forcedIns50] 8 1
          [(.diploid 0 0, 50), (.diploid 0 1, 60), (.diploid 0 2, 0), (.diploid 1 1, 70),
            (.diploid 1 2, 80), (.diploid 2 2, 90)] [1, 1] del50).sample0.genotypePhredLoghood.map
        Prod.fst).length = 6 :=
  ⟨rfl, ((likelihood_vector_entries exampleEnv ⟨[del50, forcedIns50]⟩ hetCall [8] 2 2 false []
    _ rfl).2.2.2 rfl).2.2.2 rfl⟩


/-! ## The order of allele keys and the forced-output set -/

theorem IndelKey.lt_irrefl (a : IndelKey) : a.lt a = false := by
  simp [IndelKey.lt]

theorem IndelKey.eq_of_not_lt {a b : IndelKey} (h1 : a.lt b = false) (h2 : b.lt a = false) :
    a = b := by
  obtain ⟨p, bp, dl, d⟩ := a
  obtain ⟨q, bq, el, e⟩ := b
  simp only [IndelKey.lt] at h1 h2
  have hp : p = q := by
    by_contra hne
    rcases lt_or_gt_of_ne hne with hlt | hgt
    · simp [hlt] at h1
    · simp [hgt] at h2
  subst hp
  simp only [lt_self_iff_false, if_false] at h1 h2
  have hb : bp = bq := by
    cases bp <;> cases bq <;> simp_all
  subst hb
  simp only [bne_self_eq_false, Bool.false_eq_true, if_false] at h1 h2
  have hd : dl = el := by
    by_contra hne
    rcases Nat.lt_or_gt_of_ne hne with hlt | hgt
    · simp [hlt] at h1
    · simp [hgt] at h2
  subst hd
  simp only [lt_self_iff_false, if_false, decide_eq_false_iff_not] at h1 h2
  have : d = e := by omega
  subst this
  rfl

theorem IndelKey.lt_ofPos {a : IndelKey} {pos : Int} :
    a.lt (IndelKey.ofPos pos) = true ↔ a.pos < pos := by
  obtain ⟨p, bp, dl, d⟩ := a
  simp only [IndelKey.lt, IndelKey.ofPos]
  constructor
  · intro h
    by_contra hn
    simp only [hn, if_false] at h
    split at h
    · simp at h
    · have hpq : p = pos := by omega
      subst hpq
      cases bp <;> simp at h
  · intro h
    simp [h]

theorem setCount_pos_iff {key : IndelKey} {set : List IndelKey} :
    setCount key set > 0 ↔ key ∈ set := by
  unfold setCount
  rw [gt_iff_lt, List.length_pos_iff_exists_mem]
  constructor
  · rintro ⟨k, hk⟩
    rw [List.mem_filter] at hk
    obtain ⟨hmem, hcond⟩ := hk
    simp only [Bool.and_eq_true, Bool.not_eq_true'] at hcond
    have := IndelKey.eq_of_not_lt hcond.1 hcond.2
    subst this
    exact hmem
  · intro h
    exact ⟨key, List.mem_filter.mpr ⟨h, by simp [IndelKey.lt_irrefl]⟩⟩

theorem setCount_eq_zero_iff {key : IndelKey} {set : List IndelKey} :
    setCount key set = 0 ↔ key ∉ set := by
  rw [← setCount_pos_iff]
  omega

theorem mem_setInsert {key k : IndelKey} {set : List IndelKey} :
    k ∈ setInsert key set ↔ k = key ∨ k ∈ set := by
  induction set with
  | nil => simp [setInsert]
  | cons h t ih =>
    unfold setInsert
    split
    · simp
    · split
      · simp only [List.mem_cons, ih]
        tauto
      · rename_i h1 h2
        have heq : key = h :=
          IndelKey.eq_of_not_lt (by simpa using h1) (by simpa using h2)
        subst heq
        simp

theorem mem_noteForcedAlleles {k : IndelKey} :
    ∀ (alleles : List Allele) (set : List IndelKey),
      k ∈ noteForcedAlleles alleles set ↔
        k ∈ set ∨ ∃ a ∈ alleles, a.2.isForcedOutput = true ∧ a.1 = k := by
  intro alleles
  induction alleles with
  | nil => simp [noteForcedAlleles]
  | cons a rest ih =>
    intro set
    unfold noteForcedAlleles
    split
    · rename_i hf
      rw [ih, mem_setInsert]
      constructor
      · rintro ((rfl | h) | ⟨b, hb, hbf, rfl⟩)
        · exact Or.inr ⟨a, by simp, hf, rfl⟩
        · exact Or.inl h
        · exact Or.inr ⟨b, by simp [hb], hbf, rfl⟩
      · rintro (h | ⟨b, hb, hbf, rfl⟩)
        · exact Or.inl (Or.inr h)
        · rcases List.mem_cons.mp hb with rfl | hb
          · exact Or.inl (Or.inl rfl)
          · exact Or.inr ⟨b, hb, hbf, rfl⟩
    · rename_i hf
      rw [ih]
      constructor
      · rintro (h | ⟨b, hb, hbf, rfl⟩)
        · exact Or.inl h
        · exact Or.inr ⟨b, by simp [hb], hbf, rfl⟩
      · rintro (h | ⟨b, hb, hbf, rfl⟩)
        · exact Or.inl h
        · rcases List.mem_cons.mp hb with rfl | hb
          · exact absurd hbf hf
          · exact Or.inr ⟨b, hb, hbf, rfl⟩

/-! ## The loops of `process_pos_indel_digt` as list operations -/

/-- The inclusion test of the candidate collection loop. -/
theorem collectOrthogonalVariantAlleles_eq (env : Env) :
    ∀ (candidates : List Allele) (group : OrthogonalVariantAlleleCandidateGroup),
      collectOrthogonalVariantAlleles env candidates group =
        ⟨group.alleles ++ candidates.filter fun a =>
          !a.1.is_breakpoint && (a.2.isForcedOutput ||
            (!isZeroCoverage env.sampleCount a.2 && env.isCandidateIndel a.1 a.2))⟩ := by
  intro candidates
  induction candidates with
  | nil => intro group; simp [collectOrthogonalVariantAlleles]
  | cons a rest ih =>
    intro group
    unfold collectOrthogonalVariantAlleles
    split
    · rename_i h
      rw [ih]
      simp [List.filter_cons, h]
    · rename_i h
      split
      · rename_i h2
        rw [ih]
        simp only [Bool.and_eq_true, Bool.not_eq_true'] at h2
        simp [List.filter_cons, h, h2.1, h2.2]
      · rename_i h2
        split
        · rename_i h3
          rw [ih]
          simp only [Bool.and_eq_true, Bool.not_eq_true'] at h3
          simp [List.filter_cons, h, h3.1, h3.2]
        · rename_i h3
          rw [ih]
          have hc : (!a.1.is_breakpoint && (a.2.isForcedOutput ||
              (!isZeroCoverage env.sampleCount a.2 && env.isCandidateIndel a.1 a.2))) = true := by
            cases hf : a.2.isForcedOutput <;> cases hz : isZeroCoverage env.sampleCount a.2 <;>
              cases hi : env.isCandidateIndel a.1 a.2 <;> simp_all
          simp [List.filter_cons, hc, OrthogonalVariantAlleleCandidateGroup.addVariantAllele]

theorem collectForcedOutputAlleles_eq :
    ∀ (alleles : List Allele) (group : OrthogonalVariantAlleleCandidateGroup),
      collectForcedOutputAlleles alleles group =
        ⟨group.alleles ++ alleles.filter fun a => a.2.isForcedOutput⟩ := by
  intro alleles
  induction alleles with
  | nil => intro group; simp [collectForcedOutputAlleles]
  | cons a rest ih =>
    intro group
    unfold collectForcedOutputAlleles
    split
    · rename_i h
      rw [ih]
      simp [List.filter_cons, h, OrthogonalVariantAlleleCandidateGroup.addVariantAllele]
    · rename_i h
      rw [ih]
      simp [List.filter_cons, h]

theorem isReportableLocus_iff (pos : Int) (alleles : List Allele) :
    isReportableLocus pos alleles = true ↔ ∀ a ∈ alleles, pos ≤ a.1.pos := by
  induction alleles with
  | nil => simp [isReportableLocus]
  | cons a rest ih =>
    unfold isReportableLocus
    split
    · rename_i h
      simp only [Bool.false_eq_true, List.mem_cons, forall_eq_or_imp, false_iff, not_and]
      intro h1
      omega
    · rename_i h
      rw [ih]
      simp only [List.mem_cons, forall_eq_or_imp]
      constructor
      · intro h1
        exact ⟨by omega, h1⟩
      · intro h1
        exact h1.2

/-- The trimming loop run over the first `remaining` alleles removes those whose key is in the
set and keeps the others in order. -/
theorem trimForcedOutputAlleles_eq (set : List IndelKey) (forcedCount : Nat) :
    ∀ (remaining : Nat) (front back : List Allele),
      front.length = remaining → remaining ≤ forcedCount →
      trimForcedOutputAlleles set forcedCount remaining ⟨front ++ back⟩ =
        .ok ⟨(front.filter fun a => decide (setCount a.1 set = 0)) ++ back⟩ := by
  intro remaining
  induction remaining with
  | zero =>
    intro front back hl _
    have : front = [] := List.length_eq_zero.mp hl
    subst this
    simp [trimForcedOutputAlleles]
  | succ n ih =>
    intro front back hl hle
    obtain ⟨init, a, rfl⟩ : ∃ init a, front = init ++ [a] := by
      rcases List.eq_nil_or_concat front with h | ⟨init, a, h⟩
      · subst h
        simp at hl
      · exact ⟨init, a, by simpa using h⟩
    have hinit : init.length = n := by simpa using hl
    unfold trimForcedOutputAlleles
    have hidx : forcedCount - (forcedCount - (n + 1) + 1) = n := by omega
    simp only [hidx]
    have hget : (init ++ [a] ++ back)[n]? = some a := by
      rw [List.append_assoc, List.getElem?_append_right (by omega)]
      simp [hinit]
    simp only [hget]
    split
    · rename_i hc
      have herase : (init ++ [a] ++ back).eraseIdx n = init ++ back := by
        rw [List.append_assoc, List.eraseIdx_append_of_length_le (by omega)]
        simp [hinit]
      rw [herase, ih init back hinit (by omega)]
      have : ¬ setCount a.1 set = 0 := by omega
      simp [List.filter_append, this]
    · rename_i hc
      have hz : setCount a.1 set = 0 := by omega
      rw [List.append_assoc, ih init ([a] ++ back) hinit (by omega)]
      simp [List.filter_append, hz]


/-! ## Inversion of `process_pos_indel_digt` -/

theorem hack_forced_ok {env : Env} {a : Allele} {g : AlleleGroupGenotype}
    {stats : List LocusSupportingReadStats} {cp gp : Nat}
    {gvcfer : List GermlineIndelLocusInfo} {res : Bool × List GermlineIndelLocusInfo}
    (h : hackDiplotypeCallToCopyNumberCalls env ⟨[a]⟩ g stats cp gp true gvcfer = .ok res) :
    ∃ r, RecordOf cp gp [a] r ∧ res = (true, gvcfer ++ [r]) := by
  rcases hack_ok_inv h with ⟨_, hc⟩ | ⟨_, alts, b, c, d, e, f, h1, -, -, -, -, -, h7⟩
  · simp at hc
  · have ha := addAltIndelAlleles_ok _ _ _ h1
    simp only [List.nil_append] at ha
    subst ha
    exact ⟨_, ⟨rfl, rfl, rfl⟩, h7⟩

theorem hack_top_ok {env : Env} {group : OrthogonalVariantAlleleCandidateGroup}
    {g : AlleleGroupGenotype} {stats : List LocusSupportingReadStats} {cp gp : Nat}
    {isForcedOutput : Bool}
    {gvcfer : List GermlineIndelLocusInfo} {res : Bool × List GermlineIndelLocusInfo}
    (h : hackDiplotypeCallToCopyNumberCalls env group g stats cp gp isForcedOutput gvcfer
      = .ok res) :
    ∃ recs, res.2 = gvcfer ++ recs ∧ recs.length ≤ 1 ∧
      ∀ r ∈ recs, RecordOf cp gp group.alleles r := by
  rcases hack_ok_inv h with ⟨hr, _⟩ | ⟨_, alts, b, c, d, e, f, h1, -, -, -, -, -, h7⟩
  · exact ⟨[], by simp [hr], by simp, by simp⟩
  · have ha := addAltIndelAlleles_ok _ _ _ h1
    simp only [List.nil_append] at ha
    subst ha
    refine ⟨[_], by rw [h7], by simp, ?_⟩
    intro r hr
    simp only [List.mem_singleton] at hr
    subst hr
    exact ⟨rfl, rfl, rfl⟩

theorem scoreForcedOutputAllele_ok {env : Env} {cp gp : Nat}
    {top fg : OrthogonalVariantAlleleCandidateGroup} {i : Nat}
    {acc out : LocusSupportingReadStats × List GermlineIndelLocusInfo × List ScoringCall}
    (h : scoreForcedOutputAllele env cp gp top fg i acc = .ok out) :
    ∃ a r, fg.alleles[i]? = some a ∧ RecordOf cp gp [a] r ∧ out.2.1 = acc.2.1 ++ [r] ∧
      out.2.2 = acc.2.2 ++ [ScoringCall.forcedAllele cp 0 top fg i] := by
  unfold scoreForcedOutputAllele at h
  simp only at h
  split at h
  · simp at h
  · split at h
    · simp at h
    · rename_i a ha
      cases hh : hackDiplotypeCallToCopyNumberCalls env ⟨[a]⟩
          (env.getGenotypeLhoodsForForcedOutputAllele cp 0 top fg i acc.1).1
          [(env.getGenotypeLhoodsForForcedOutputAllele cp 0 top fg i acc.1).2] cp gp true
          acc.2.1 with
      | error e => simp [hh, Except.bind] at h
      | ok res =>
        simp only [hh, Except.bind, Except.ok.injEq] at h
        obtain ⟨r, hr, hres⟩ := hack_forced_ok hh
        subst h
        exact ⟨a, r, ha, hr, by simp [hres], rfl⟩

theorem scoreForcedOutputAlleles_ok {env : Env} {cp gp : Nat}
    {top fg : OrthogonalVariantAlleleCandidateGroup} :
    ∀ (k i : Nat)
      (acc out : LocusSupportingReadStats × List GermlineIndelLocusInfo × List ScoringCall),
      scoreForcedOutputAlleles env cp gp top fg k i acc = .ok out →
      ∃ recs, out.2.1 = acc.2.1 ++ recs ∧
        List.Forall₂ (fun a r => RecordOf cp gp [a] r) ((fg.alleles.drop i).take k) recs ∧
        out.2.2 = acc.2.2 ++ (List.range' i k).map (ScoringCall.forcedAllele cp 0 top fg) := by
  intro k
  induction k with
  | zero =>
    intro i acc out h
    simp only [scoreForcedOutputAlleles, Except.ok.injEq] at h
    subst h
    exact ⟨[], by simp, by simp, by simp⟩
  | succ k ih =>
    intro i acc out h
    unfold scoreForcedOutputAlleles at h
    cases h1 : scoreForcedOutputAllele env cp gp top fg i acc with
    | error e => simp [h1, Except.bind] at h
    | ok acc1 =>
      simp only [h1, Except.bind] at h
      obtain ⟨a, r, ha, hr, hg, hs⟩ := scoreForcedOutputAllele_ok h1
      obtain ⟨recs, hg2, hf2, hs2⟩ := ih (i + 1) acc1 out h
      have hlt : i < fg.alleles.length := by
        by_contra hn
        rw [List.getElem?_eq_none (by omega)] at ha
        simp at ha
      have hai : fg.alleles[i] = a := by
        rw [List.getElem?_eq_getElem hlt] at ha
        simpa using ha
      refine ⟨r :: recs, by rw [hg2, hg]; simp, ?_, ?_⟩
      · rw [List.drop_eq_getElem_cons hlt, List.take_succ_cons, hai]
        exact List.Forall₂.cons hr hf2
      · rw [hs2, hs, List.range'_succ]
        simp

theorem reportTopVariantAlleleGroup_ok {env : Env} {rep : Bool} {cp gp : Nat}
    {top : OrthogonalVariantAlleleCandidateGroup} {st : ProcState}
    {acc : LocusSupportingReadStats × List GermlineIndelLocusInfo × List ScoringCall}
    (h : reportTopVariantAlleleGroup env rep cp gp top st = .ok acc) :
    ∃ recs, acc.2.1 = st.gvcfer ++ recs ∧ recs.length ≤ 1 ∧
      (∀ r ∈ recs, RecordOf cp gp top.alleles r) ∧ (rep = false → recs = []) ∧
      acc.2.2 = st.scored ++ (if rep then [ScoringCall.topGroup cp 0 top] else []) := by
  unfold reportTopVariantAlleleGroup at h
  split at h
  · rename_i hrep
    simp only at h
    cases hh : hackDiplotypeCallToCopyNumberCalls env top
        (env.getVariantAlleleGroupGenotypeLhoods cp 0 top 0).1
        [(env.getVariantAlleleGroupGenotypeLhoods cp 0 top 0).2] cp gp false st.gvcfer with
    | error e => simp [hh, Except.bind] at h
    | ok res =>
      simp only [hh, Except.bind, Except.ok.injEq] at h
      obtain ⟨recs, h1, h2, h3⟩ := hack_top_ok hh
      subst h
      exact ⟨recs, h1, h2, h3, by simp [hrep], by simp [hrep]⟩
  · rename_i hrep
    simp only [Except.ok.injEq] at h
    subst h
    exact ⟨[], by simp, by simp, by simp, by simp, by simp [hrep]⟩

theorem computeGroupLocusPloidy_one {env : Env} (h1 : env.sampleCount = 1)
    (orth : OrthogonalVariantAlleleCandidateGroup) :
    computeGroupLocusPloidy env orth =
      [max (env.get_ploidy (env.getReferenceRange orth).begin_pos 0)
        (env.get_ploidy (env.getReferenceRange orth).end_pos 0)] := by
  unfold computeGroupLocusPloidy
  rw [h1]
  rfl

theorem genotypeAndReport_ok {env : Env} {pos : Int} {cp gp : Nat}
    {top forced : OrthogonalVariantAlleleCandidateGroup} {st out : ProcState}
    (h : genotypeAndReport env pos cp gp top forced st = .ok out) :
    ∃ topRecs forcedRecs,
      out.forcedAllelesAlreadyOutput = updateForcedAllelesAlreadyOutput pos
        (isReportableLocus pos top.alleles) top st.forcedAllelesAlreadyOutput ∧
      out.gvcfer = st.gvcfer ++ topRecs ++ forcedRecs ∧
      topRecs.length ≤ 1 ∧
      (∀ r ∈ topRecs, RecordOf cp gp top.alleles r) ∧
      (isReportableLocus pos top.alleles = false → topRecs = []) ∧
      List.Forall₂ (fun a r => RecordOf cp gp [a] r)
        (forced.alleles.filter fun a => decide (setCount a.1
          (updateForcedAllelesAlreadyOutput pos (isReportableLocus pos top.alleles) top
            st.forcedAllelesAlreadyOutput) = 0)) forcedRecs ∧
      out.scored = st.scored ++
        (if isReportableLocus pos top.alleles then [ScoringCall.topGroup cp 0 top] else []) ++
        (List.range (forced.alleles.filter fun a => decide (setCount a.1
          (updateForcedAllelesAlreadyOutput pos (isReportableLocus pos top.alleles) top
            st.forcedAllelesAlreadyOutput) = 0)).length).map
          (ScoringCall.forcedAllele cp 0 top
            ⟨forced.alleles.filter fun a => decide (setCount a.1
              (updateForcedAllelesAlreadyOutput pos (isReportableLocus pos top.alleles) top
                st.forcedAllelesAlreadyOutput) = 0)⟩) := by
  unfold genotypeAndReport at h
  simp only at h
  cases h1 : reportTopVariantAlleleGroup env (isReportableLocus pos top.alleles) cp gp top st with
  | error e => simp [h1, Except.bind] at h
  | ok acc =>
    simp only [h1, Except.bind] at h
    obtain ⟨topRecs, ht1, ht2, ht3, ht4, ht5⟩ := reportTopVariantAlleleGroup_ok h1
    have htrim : (if forced.empty = true then Except.ok forced
        else trimForcedOutputAlleles (updateForcedAllelesAlreadyOutput pos
          (isReportableLocus pos top.alleles) top st.forcedAllelesAlreadyOutput) forced.size
          forced.size forced) =
        (Except.ok ⟨forced.alleles.filter fun a => decide (setCount a.1
          (updateForcedAllelesAlreadyOutput pos (isReportableLocus pos top.alleles) top
            st.forcedAllelesAlreadyOutput) = 0)⟩ :
          Except Fatal OrthogonalVariantAlleleCandidateGroup) := by
      split
      · rename_i hemp
        have : forced.alleles = [] := by
          simpa [OrthogonalVariantAlleleCandidateGroup.empty] using hemp
        cases forced
        simp_all
      · have := trimForcedOutputAlleles_eq (updateForcedAllelesAlreadyOutput pos
          (isReportableLocus pos top.alleles) top st.forcedAllelesAlreadyOutput) forced.size
          forced.size forced.alleles [] rfl (le_refl _)
        simpa using this
    rw [htrim] at h
    simp only at h
    cases h2 : scoreForcedOutputAlleles env cp gp top
        ⟨forced.alleles.filter fun a => decide (setCount a.1
          (updateForcedAllelesAlreadyOutput pos (isReportableLocus pos top.alleles) top
            st.forcedAllelesAlreadyOutput) = 0)⟩
        (OrthogonalVariantAlleleCandidateGroup.size
          ⟨forced.alleles.filter fun a => decide (setCount a.1
            (updateForcedAllelesAlreadyOutput pos (isReportableLocus pos top.alleles) top
              st.forcedAllelesAlreadyOutput) = 0)⟩) 0 acc with
    | error e => simp [h2] at h
    | ok res =>
      simp only [h2, Except.ok.injEq] at h
      obtain ⟨forcedRecs, hf1, hf2, hf3⟩ := scoreForcedOutputAlleles_ok _ _ _ _ h2
      subst h
      refine ⟨topRecs, forcedRecs, rfl, by simp [hf1, ht1], ht2, ht3, ht4, ?_, ?_⟩
      · simpa [OrthogonalVariantAlleleCandidateGroup.size] using hf2
      · simp only [hf3, ht5, OrthogonalVariantAlleleCandidateGroup.size, List.range_eq_range']

/-- What a call of `process_pos_indel_digt` that returns has done: nothing when no candidate was
collected; otherwise the set is the updated set, the aggregator received the records of the top
group (at most one, none when the locus is not reportable) followed by one record per forced
allele whose key is not in the updated set, and the scoring calls are the one for the top group
(when reportable) followed by one per such forced allele. -/
theorem process_pos_indel_digt_ok {env : Env} {pos : Int} {st out : ProcState}
    (h : process_pos_indel_digt env pos st = .ok out) :
    ((orthogonalVariantAllelesAt env pos).alleles = [] ∧ out = st) ∨
    ((orthogonalVariantAllelesAt env pos).alleles ≠ [] ∧ env.sampleCount = 1 ∧
      ∃ topRecs forcedRecs,
        out.forcedAllelesAlreadyOutput = forcedAllelesAfterUpdate env pos st ∧
        out.gvcfer = st.gvcfer ++ topRecs ++ forcedRecs ∧
        topRecs.length ≤ 1 ∧
        (∀ r ∈ topRecs, RecordOf (callerPloidyAt env pos) (groupLocusPloidyAt env pos)
          (topVariantAlleleGroupAt env pos).alleles r) ∧
        (isReportableLocusAt env pos = false → topRecs = []) ∧
        List.Forall₂ (fun a r => RecordOf (callerPloidyAt env pos) (groupLocusPloidyAt env pos) [a] r)
          ((forcedOutputAlleleGroupAt env pos).alleles.filter fun a =>
            decide (setCount a.1 (forcedAllelesAfterUpdate env pos st) = 0)) forcedRecs ∧
        out.scored = st.scored ++
          (if isReportableLocusAt env pos then
            [ScoringCall.topGroup (callerPloidyAt env pos) 0 (topVariantAlleleGroupAt env pos)]
            else []) ++
          (List.range ((forcedOutputAlleleGroupAt env pos).alleles.filter fun a =>
            decide (setCount a.1 (forcedAllelesAfterUpdate env pos st) = 0)).length).map
            (ScoringCall.forcedAllele (callerPloidyAt env pos) 0 (topVariantAlleleGroupAt env pos)
              ⟨(forcedOutputAlleleGroupAt env pos).alleles.filter fun a =>
                decide (setCount a.1 (forcedAllelesAfterUpdate env pos st) = 0)⟩)) := by
  unfold process_pos_indel_digt at h
  simp only at h
  split at h
  · rename_i he
    left
    simp only [Except.ok.injEq] at h
    exact ⟨by simpa [OrthogonalVariantAlleleCandidateGroup.empty, orthogonalVariantAllelesAt]
      using he, h.symm⟩
  · rename_i he
    right
    split at h
    · simp at h
    · rename_i hs
      have hs1 : env.sampleCount = 1 := by simpa using hs
      refine ⟨by simpa [OrthogonalVariantAlleleCandidateGroup.empty, orthogonalVariantAllelesAt]
        using he, hs1, ?_⟩
      have hg := computeGroupLocusPloidy_one hs1 (orthogonalVariantAllelesAt env pos)
      have hg2 : computeGroupLocusPloidy env (orthogonalVariantAllelesAt env pos)
          = [groupLocusPloidyAt env pos] := hg
      have hc2 : computeCallerPloidy (computeGroupLocusPloidy env (orthogonalVariantAllelesAt env pos))
          = [callerPloidyAt env pos] := by
        rw [hg2]
        rfl
      change (match (computeCallerPloidy (computeGroupLocusPloidy env
            (orthogonalVariantAllelesAt env pos)))[0]?,
          (computeGroupLocusPloidy env (orthogonalVariantAllelesAt env pos))[0]? with
        | some callerPloidy0, some groupLocusPloidy0 =>
          genotypeAndReport env pos callerPloidy0 groupLocusPloidy0
            (topVariantAlleleGroupAt env pos) (forcedOutputAlleleGroupAt env pos) st
        | _, _ => Except.error Fatal.outOfRange) = Except.ok out at h
      rw [hc2, hg2] at h
      simp only [List.getElem?_cons_zero] at h
      exact genotypeAndReport_ok h


/-! ## Calls that do not fail -/

theorem addAltIndelAlleles_succeeds {isForcedOutput : Bool} :
    ∀ (alleles added : List Allele),
      (∀ a ∈ alleles, (!isForcedOutput || a.2.isForcedOutput) = true) →
      addAltIndelAlleles isForcedOutput alleles added = .ok (added ++ alleles) := by
  intro alleles
  induction alleles with
  | nil => intro added _; simp [addAltIndelAlleles]
  | cons a rest ih =>
    intro added h
    unfold addAltIndelAlleles
    rw [if_pos (h a (by simp)), ih _ (fun b hb => h b (by simp [hb]))]
    simp

theorem decrementSitePloidy_succeeds :
    ∀ (count : Nat) (locusOffset : Int) (sitePloidy : List Int),
      0 ≤ locusOffset → locusOffset.toNat + count ≤ sitePloidy.length →
      ∃ result, decrementSitePloidy count locusOffset sitePloidy = .ok result ∧
        result.length = sitePloidy.length := by
  intro count
  induction count with
  | zero => intro off sp _ _; exact ⟨sp, rfl, rfl⟩
  | succ n ih =>
    intro off sp h0 hlen
    unfold decrementSitePloidy
    rw [if_pos ⟨h0, by omega⟩]
    obtain ⟨res, hres, hl⟩ := ih (off + 1) (sp.modify (fun p => p - 1) off.toNat) (by omega)
      (by rw [List.length_modify]; omega)
    exact ⟨res, hres, by rw [hl, List.length_modify]⟩

theorem updateSitePloidyForAlleleIndex_succeeds (sitePloidy : List Int)
    {altAlleles : List Allele} {range : known_pos_range2} {alleleIndex : Nat}
    (hidx : alleleIndex ≤ altAlleles.length)
    (hcover : ∀ a ∈ altAlleles, range.begin_pos ≤ a.1.pos ∧ a.1.right_pos ≤ range.end_pos)
    (hlen : sitePloidy.length = range.size) :
    ∃ result, updateSitePloidyForAlleleIndex altAlleles range alleleIndex sitePloidy
        = .ok result ∧ result.length = sitePloidy.length := by
  unfold updateSitePloidyForAlleleIndex
  split
  · exact ⟨sitePloidy, rfl, rfl⟩
  · rename_i hne
    have hlt : alleleIndex - 1 < altAlleles.length := by omega
    rw [List.getElem?_eq_getElem hlt]
    simp only
    have hc := hcover altAlleles[alleleIndex - 1] (List.getElem_mem _)
    have hr : altAlleles[alleleIndex - 1].1.pos ≤ altAlleles[alleleIndex - 1].1.right_pos := by
      simp [IndelKey.right_pos]
    apply decrementSitePloidy_succeeds
    · omega
    · rw [hlen]
      unfold known_pos_range2.size
      omega

theorem setSitePloidy_succeeds (altAlleles : List Allele) (range : known_pos_range2)
    (callerPloidy genotypeIndex : Nat)
    (hcover : ∀ a ∈ altAlleles, range.begin_pos ≤ a.1.pos ∧ a.1.right_pos ≤ range.end_pos)
    (hfit : (callerPloidy = 2 ∧
        (VcfGenotypeUtil.getAlleleIndices2 genotypeIndex).1 ≤ altAlleles.length ∧
        (VcfGenotypeUtil.getAlleleIndices2 genotypeIndex).2 ≤ altAlleles.length) ∨
      (callerPloidy = 1 ∧ VcfGenotypeUtil.getAlleleIndices1 genotypeIndex ≤ altAlleles.length)) :
    ∃ result, setSitePloidy altAlleles range callerPloidy genotypeIndex = .ok result := by
  unfold setSitePloidy
  simp only
  rcases hfit with ⟨hp, h1, h2⟩ | ⟨hp, h1⟩
  · rw [if_pos hp]
    obtain ⟨r1, hr1, hl1⟩ := updateSitePloidyForAlleleIndex_succeeds
      (List.replicate range.size (callerPloidy : Int)) h1 hcover (by simp)
    obtain ⟨r2, hr2, _⟩ := updateSitePloidyForAlleleIndex_succeeds
      r1 h2 hcover (by rw [hl1]; simp)
    exact ⟨r2, by rw [hr1]; exact hr2⟩
  · rw [if_neg (by omega), if_pos hp]
    obtain ⟨r1, hr1, _⟩ := updateSitePloidyForAlleleIndex_succeeds
      (List.replicate range.size (callerPloidy : Int)) h1 hcover (by simp)
    exact ⟨r1, hr1⟩

theorem genotypeFits_inv {callerPloidy groupSize : Nat} {g : AG_GENOTYPE}
    (h : genotypeFits callerPloidy groupSize g = true) :
    ∃ genotypeIndex, translateOldToNewGenotypeIndex (callerPloidy : Int) g = .ok genotypeIndex ∧
      ((callerPloidy = 2 ∧
        (VcfGenotypeUtil.getAlleleIndices2 genotypeIndex).1 ≤ groupSize ∧
        (VcfGenotypeUtil.getAlleleIndices2 genotypeIndex).2 ≤ groupSize) ∨
      (callerPloidy = 1 ∧ VcfGenotypeUtil.getAlleleIndices1 genotypeIndex ≤ groupSize)) := by
  unfold genotypeFits at h
  split at h
  · simp at h
  · rename_i idx hidx
    refine ⟨idx, hidx, ?_⟩
    split at h
    · rename_i hp
      left
      exact ⟨hp, by simpa using h⟩
    · rename_i hp
      right
      refine ⟨?_, by simpa using h⟩
      unfold translateOldToNewGenotypeIndex at hidx
      split at hidx
      · rename_i h1
        exact_mod_cast h1
      · split at hidx
        · rename_i h2
          exact absurd (by exact_mod_cast h2) hp
        · simp at hidx

/-- A call of `hackDiplotypeCallToCopyNumberCalls` returns when the record range covers the
alleles, the group is not empty, the polymorphic genotype fits the calling ploidy and the group,
and a locus-level forced flag comes with forced alleles only. -/
theorem hack_succeeds (env : Env) (group : OrthogonalVariantAlleleCandidateGroup)
    (g : AlleleGroupGenotype) (stats : LocusSupportingReadStats) (cp gp : Nat)
    (isForcedOutput : Bool) (gvcfer : List GermlineIndelLocusInfo)
    (hcover : RangeCoversAlleles env)
    (hne : group.alleles ≠ [])
    (hfit : genotypeFits cp group.size g.maxGenotypeIndexPolymorphic = true)
    (hforced : ∀ a ∈ group.alleles, (!isForcedOutput || a.2.isForcedOutput) = true) :
    ∃ res, hackDiplotypeCallToCopyNumberCalls env group g [stats] cp gp isForcedOutput gvcfer
      = .ok res := by
  by_cases hc : (isForcedOutput || g.maxGenotypeIndex != AG_GENOTYPE.HOMREF) = true
  · obtain ⟨idx, hidx, hcase⟩ := genotypeFits_inv hfit
    have h1 := addAltIndelAlleles_succeeds group.alleles [] hforced
    simp only [List.nil_append] at h1
    have hpl : ∃ pls, setGenotypePhredLoghood env g cp (group.size + 1) = .ok pls := by
      unfold setGenotypePhredLoghood
      rcases hcase with ⟨hp, _⟩ | ⟨hp, _⟩
      · rw [if_neg (by omega), if_pos hp]
        exact ⟨_, rfl⟩
      · rw [if_pos hp]
        exact ⟨_, rfl⟩
    obtain ⟨pls, hpls⟩ := hpl
    obtain ⟨sp, hsp⟩ := setSitePloidy_succeeds group.alleles
      (env.locusRange group.alleles) cp idx (hcover group.alleles) hcase
    obtain ⟨a0, rest, hgr⟩ := List.exists_cons_of_ne_nil hne
    have h0 : group.alleles[0]? = some a0 := by rw [hgr]; simp
    have hst : [stats][0]? = some stats := by simp
    exact ⟨_, hack_ok_of hc h1 hst hidx hpls hsp h0⟩
  · refine ⟨(false, gvcfer), ?_⟩
    unfold hackDiplotypeCallToCopyNumberCalls
    rw [if_pos (by simpa using hc)]


theorem scoreForcedOutputAlleles_succeeds (env : Env) (cp gp : Nat)
    (top fg : OrthogonalVariantAlleleCandidateGroup)
    (hcover : RangeCoversAlleles env)
    (hforced : ∀ i stats,
      env.isAllelePresent
        (env.getGenotypeLhoodsForForcedOutputAllele cp 0 top fg i stats).1.maxGenotypeIndex 1
        = false ∧
      genotypeFits cp 1 (env.getGenotypeLhoodsForForcedOutputAllele cp 0 top fg i
        stats).1.maxGenotypeIndexPolymorphic = true)
    (hall : ∀ a ∈ fg.alleles, a.2.isForcedOutput = true) :
    ∀ (k i : Nat)
      (acc : LocusSupportingReadStats × List GermlineIndelLocusInfo × List ScoringCall),
      i + k ≤ fg.alleles.length →
      ∃ out, scoreForcedOutputAlleles env cp gp top fg k i acc = .ok out := by
  intro k
  induction k with
  | zero => intro i acc _; exact ⟨acc, rfl⟩
  | succ k ih =>
    intro i acc hik
    have hlt : i < fg.alleles.length := by omega
    have hstep : ∃ acc1, scoreForcedOutputAllele env cp gp top fg i acc = .ok acc1 := by
      unfold scoreForcedOutputAllele
      simp only
      rw [if_neg (by simp [(hforced i acc.1).1]), List.getElem?_eq_getElem hlt]
      simp only
      obtain ⟨res, hres⟩ := hack_succeeds env ⟨[fg.alleles[i]]⟩
        (env.getGenotypeLhoodsForForcedOutputAllele cp 0 top fg i acc.1).1
        (env.getGenotypeLhoodsForForcedOutputAllele cp 0 top fg i acc.1).2
        cp gp true acc.2.1
        hcover (by simp) (hforced i acc.1).2
        (by
          intro a ha
          simp only [List.mem_singleton] at ha
          subst ha
          simp [hall _ (List.getElem_mem hlt)])
      rw [hres]
      exact ⟨_, rfl⟩
    obtain ⟨acc1, h1⟩ := hstep
    obtain ⟨out, hout⟩ := ih (i + 1) acc1 (by omega)
    refine ⟨out, ?_⟩
    unfold scoreForcedOutputAlleles
    rw [h1]
    exact hout

theorem reportTopVariantAlleleGroup_succeeds (env : Env) (rep : Bool) (cp gp : Nat)
    (top : OrthogonalVariantAlleleCandidateGroup) (st : ProcState)
    (hcover : RangeCoversAlleles env)
    (htop : (env.getVariantAlleleGroupGenotypeLhoods cp 0 top 0).1.maxGenotypeIndex
        = AG_GENOTYPE.HOMREF ∨
      (top.alleles ≠ [] ∧ genotypeFits cp top.size
        (env.getVariantAlleleGroupGenotypeLhoods cp 0 top 0).1.maxGenotypeIndexPolymorphic
          = true)) :
    ∃ acc, reportTopVariantAlleleGroup env rep cp gp top st = .ok acc := by
  unfold reportTopVariantAlleleGroup
  split
  · simp only
    have hh : ∃ res, hackDiplotypeCallToCopyNumberCalls env top
        (env.getVariantAlleleGroupGenotypeLhoods cp 0 top 0).1
        [(env.getVariantAlleleGroupGenotypeLhoods cp 0 top 0).2] cp gp false st.gvcfer
        = .ok res := by
      rcases htop with hhom | ⟨hne, hfit⟩
      · refine ⟨(false, st.gvcfer), ?_⟩
        unfold hackDiplotypeCallToCopyNumberCalls
        rw [if_pos (by simp [hhom])]
      · exact hack_succeeds _ _ _ _ _ _ _ _ hcover hne hfit (by simp)
    obtain ⟨res, hres⟩ := hh
    rw [hres]
    exact ⟨_, rfl⟩
  · exact ⟨_, rfl⟩

/-- The call `process_pos_indel_digt(pos)` returns when there is one sample, record ranges
cover their alleles, the genotype of the top group is homozygous reference or fits the group,
and the genotype of every scored forced allele passes the assertion of line 918 and fits a
group of one allele. -/
theorem process_pos_indel_digt_succeeds {env : Env} {pos : Int} (st : ProcState)
    (hs : env.sampleCount = 1)
    (hcover : RangeCoversAlleles env)
    (htop : (env.getVariantAlleleGroupGenotypeLhoods (callerPloidyAt env pos) 0
          (topVariantAlleleGroupAt env pos) 0).1.maxGenotypeIndex = AG_GENOTYPE.HOMREF ∨
      ((topVariantAlleleGroupAt env pos).alleles ≠ [] ∧
        genotypeFits (callerPloidyAt env pos) (topVariantAlleleGroupAt env pos).size
          (env.getVariantAlleleGroupGenotypeLhoods (callerPloidyAt env pos) 0
            (topVariantAlleleGroupAt env pos) 0).1.maxGenotypeIndexPolymorphic = true))
    (hforced : ∀ fg i stats,
      env.isAllelePresent
        (env.getGenotypeLhoodsForForcedOutputAllele (callerPloidyAt env pos) 0
          (topVariantAlleleGroupAt env pos) fg i stats).1.maxGenotypeIndex 1 = false ∧
      genotypeFits (callerPloidyAt env pos) 1
        (env.getGenotypeLhoodsForForcedOutputAllele (callerPloidyAt env pos) 0
          (topVariantAlleleGroupAt env pos) fg i stats).1.maxGenotypeIndexPolymorphic = true) :
    ∃ out, process_pos_indel_digt env pos st = .ok out := by
  unfold process_pos_indel_digt
  simp only
  split
  · exact ⟨st, rfl⟩
  · rw [if_neg (by simp [hs])]
    have hg2 : computeGroupLocusPloidy env (orthogonalVariantAllelesAt env pos)
        = [groupLocusPloidyAt env pos] :=
      computeGroupLocusPloidy_one hs (orthogonalVariantAllelesAt env pos)
    have hc2 : computeCallerPloidy (computeGroupLocusPloidy env (orthogonalVariantAllelesAt env pos))
        = [callerPloidyAt env pos] := by
      rw [hg2]
      rfl
    change ∃ out, (match (computeCallerPloidy (computeGroupLocusPloidy env
          (orthogonalVariantAllelesAt env pos)))[0]?,
        (computeGroupLocusPloidy env (orthogonalVariantAllelesAt env pos))[0]? with
      | some callerPloidy0, some groupLocusPloidy0 =>
        genotypeAndReport env pos callerPloidy0 groupLocusPloidy0
          (topVariantAlleleGroupAt env pos) (forcedOutputAlleleGroupAt env pos) st
      | _, _ => Except.error Fatal.outOfRange) = Except.ok out
    rw [hc2, hg2]
    simp only [List.getElem?_cons_zero]
    unfold genotypeAndReport
    simp only
    obtain ⟨acc, hacc⟩ := reportTopVariantAlleleGroup_succeeds env
      (isReportableLocus pos (topVariantAlleleGroupAt env pos).alleles)
      (callerPloidyAt env pos) (groupLocusPloidyAt env pos)
      (topVariantAlleleGroupAt env pos) st hcover htop
    rw [hacc]
    simp only [Except.bind]
    have htrim : (if (forcedOutputAlleleGroupAt env pos).empty = true
        then Except.ok (forcedOutputAlleleGroupAt env pos)
        else trimForcedOutputAlleles (updateForcedAllelesAlreadyOutput pos
          (isReportableLocus pos (topVariantAlleleGroupAt env pos).alleles)
          (topVariantAlleleGroupAt env pos) st.forcedAllelesAlreadyOutput)
          (forcedOutputAlleleGroupAt env pos).size
          (forcedOutputAlleleGroupAt env pos).size (forcedOutputAlleleGroupAt env pos)) =
        (Except.ok ⟨(forcedOutputAlleleGroupAt env pos).alleles.filter fun a =>
          decide (setCount a.1 (updateForcedAllelesAlreadyOutput pos
            (isReportableLocus pos (topVariantAlleleGroupAt env pos).alleles)
            (topVariantAlleleGroupAt env pos) st.forcedAllelesAlreadyOutput) = 0)⟩ :
          Except Fatal OrthogonalVariantAlleleCandidateGroup) := by
      split
      · rename_i hemp
        have : (forcedOutputAlleleGroupAt env pos).alleles = [] := by
          simpa [OrthogonalVariantAlleleCandidateGroup.empty] using hemp
        generalize forcedOutputAlleleGroupAt env pos = fg at *
        cases fg
        simp_all
      · have := trimForcedOutputAlleles_eq (updateForcedAllelesAlreadyOutput pos
          (isReportableLocus pos (topVariantAlleleGroupAt env pos).alleles)
          (topVariantAlleleGroupAt env pos) st.forcedAllelesAlreadyOutput)
          (forcedOutputAlleleGroupAt env pos).size
          (forcedOutputAlleleGroupAt env pos).size (forcedOutputAlleleGroupAt env pos).alleles []
          rfl (le_refl _)
        simpa using this
    rw [htrim]
    simp only
    obtain ⟨out, hout⟩ := scoreForcedOutputAlleles_succeeds env
      (callerPloidyAt env pos) (groupLocusPloidyAt env pos)
      (topVariantAlleleGroupAt env pos)
      ⟨(forcedOutputAlleleGroupAt env pos).alleles.filter fun a =>
          decide (setCount a.1 (updateForcedAllelesAlreadyOutput pos
            (isReportableLocus pos (topVariantAlleleGroupAt env pos).alleles)
            (topVariantAlleleGroupAt env pos) st.forcedAllelesAlreadyOutput) = 0)⟩
      hcover (hforced _)
      (by
        intro a ha
        have h1 := (List.mem_filter.mp ha).1
        unfold forcedOutputAlleleGroupAt at h1
        rw [collectForcedOutputAlleles_eq] at h1
        simp only [List.nil_append, List.mem_filter] at h1
        exact h1.2)
      (OrthogonalVariantAlleleCandidateGroup.size
        ⟨(forcedOutputAlleleGroupAt env pos).alleles.filter fun a =>
          decide (setCount a.1 (updateForcedAllelesAlreadyOutput pos
            (isReportableLocus pos (topVariantAlleleGroupAt env pos).alleles)
            (topVariantAlleleGroupAt env pos) st.forcedAllelesAlreadyOutput) = 0)⟩) 0 acc
      (by simp [OrthogonalVariantAlleleCandidateGroup.size])
    rw [hout]
    exact ⟨_, rfl⟩


/-! ## Reportable loci -/

theorem remaining_forced_of_empty {env : Env} {pos : Int}
    (he : (orthogonalVariantAllelesAt env pos).alleles = []) (p : Allele → Bool) :
    (forcedOutputAlleleGroupAt env pos).alleles.filter p = [] := by
  unfold forcedOutputAlleleGroupAt
  rw [collectForcedOutputAlleles_eq, he]
  rfl

/-- C3: the locus is reportable exactly when every allele of the final top group starts at or
after `pos`; when some allele of the top group starts before `pos`, a call that returns has made
no likelihood call for the top group and has handed the aggregator only the records of the
separately scored forced alleles, one allele each. -/
theorem not_reportable_skips_top_group (env : Env) (pos : Int) (st out : ProcState)
    (h : process_pos_indel_digt env pos st = .ok out) :
    (isReportableLocusAt env pos = true ↔
      ∀ a ∈ (topVariantAlleleGroupAt env pos).alleles, pos ≤ a.1.pos) ∧
    ((∃ a ∈ (topVariantAlleleGroupAt env pos).alleles, a.1.pos < pos) →
      isReportableLocusAt env pos = false ∧
      ∃ forcedRecs forcedCalls,
        out.gvcfer = st.gvcfer ++ forcedRecs ∧ out.scored = st.scored ++ forcedCalls ∧
        (∀ cp s g, ScoringCall.topGroup cp s g ∉ forcedCalls) ∧
        List.Forall₂ (fun a r => r.altAlleles = [a])
          ((forcedOutputAlleleGroupAt env pos).alleles.filter fun a =>
            decide (setCount a.1 (forcedAllelesAfterUpdate env pos st) = 0)) forcedRecs) := by
  have hiff : isReportableLocusAt env pos = true ↔
      ∀ a ∈ (topVariantAlleleGroupAt env pos).alleles, pos ≤ a.1.pos :=
    isReportableLocus_iff pos _
  refine ⟨hiff, ?_⟩
  rintro ⟨a, ha, hlt⟩
  have hrep : isReportableLocusAt env pos = false := by
    cases hr : isReportableLocusAt env pos with
    | false => rfl
    | true =>
      have := hiff.mp hr a ha
      omega
  refine ⟨hrep, ?_⟩
  rcases process_pos_indel_digt_ok h with ⟨he, hout⟩ |
    ⟨_, _, topRecs, forcedRecs, _, hg, _, _, hnone, hf, hsc⟩
  · subst hout
    refine ⟨[], [], by simp, by simp, by simp, ?_⟩
    rw [remaining_forced_of_empty he]
    exact List.Forall₂.nil
  · have ht : topRecs = [] := hnone hrep
    subst ht
    rw [hrep] at hsc
    simp only [Bool.false_eq_true, if_false, List.append_nil] at hsc
    refine ⟨forcedRecs, _, by simpa using hg, hsc, ?_, ?_⟩
    · intro cp s g hmem
      simp at hmem
    · exact hf.imp fun _ _ hr => hr.1

/-- The statement of C3 at position 50 when the top group holds the deletion that starts at 48:
the call returns, the locus is not reportable, and the only record is the one of the forced
insertion. -/
theorem not_reportable_skips_top_group_witness :
    ∃ out, process_pos_indel_digt overlapEnv 50 ⟨[], [], []⟩ = .ok out ∧
      (∃ a ∈ (topVariantAlleleGroupAt overlapEnv 50).alleles, a.1.pos < 50) ∧
      isReportableLocusAt overlapEnv 50 = false ∧
      out.gvcfer.map (fun r => r.altAlleles) = [[forcedIns50]] ∧
      ∃ forcedRecs forcedCalls,
        out.gvcfer = [] ++ forcedRecs ∧ out.scored = [] ++ forcedCalls ∧
        (∀ cp s g, ScoringCall.topGroup cp s g ∉ forcedCalls) ∧
        List.Forall₂ (fun a r => r.altAlleles = [a])
          ((forcedOutputAlleleGroupAt overlapEnv 50).alleles.filter fun a =>
            decide (setCount a.1 (forcedAllelesAfterUpdate overlapEnv 50 ⟨[], [], []⟩) = 0))
          forcedRecs :=
  ⟨_, rfl, ⟨del48, by decide, by decide⟩, rfl, rfl,
    ((not_reportable_skips_top_group overlapEnv 50 ⟨[], [], []⟩ _ rfl).2
      ⟨del48, by decide, by decide⟩).2⟩

/-! ## Ploidy of the records -/

theorem callerPloidyAt_ne_iff (env : Env) (pos : Int) :
    callerPloidyAt env pos ≠ groupLocusPloidyAt env pos ↔ groupLocusPloidyAt env pos = 0 := by
  unfold callerPloidyAt
  split <;> omega

/-- The records of a call that returns, with the ploidy and the conflict flag of each. -/
theorem process_records {env : Env} {pos : Int} {st out : ProcState}
    (h : process_pos_indel_digt env pos st = .ok out) :
    ∃ recs calls, out.gvcfer = st.gvcfer ++ recs ∧ out.scored = st.scored ++ calls ∧
      (∀ c ∈ calls, c.callerPloidy = callerPloidyAt env pos) ∧
      ∀ r ∈ recs, r.sample0.ploidy = callerPloidyAt env pos ∧
        r.sample0.isPloidyConflict = (callerPloidyAt env pos != groupLocusPloidyAt env pos) := by
  rcases process_pos_indel_digt_ok h with ⟨he, hout⟩ |
    ⟨_, _, topRecs, forcedRecs, _, hg, _, ht, _, hf, hsc⟩
  · subst hout
    exact ⟨[], [], by simp, by simp, by simp, by simp⟩
  · refine ⟨topRecs ++ forcedRecs, _, by simpa using hg, by rw [hsc, List.append_assoc], ?_, ?_⟩
    · intro c hc
      rcases List.mem_append.mp hc with hc | hc
      · split at hc
        · simp only [List.mem_singleton] at hc
          subst hc
          rfl
        · simp at hc
      · simp only [List.mem_map] at hc
        obtain ⟨i, _, rfl⟩ := hc
        rfl
    · intro r hr
      rcases List.mem_append.mp hr with hr | hr
      · exact (ht r hr).2
      · obtain ⟨hlen, hget⟩ := List.forall₂_iff_get.mp hf
        obtain ⟨i, hi⟩ := List.mem_iff_get.mp hr
        rw [← hi]
        exact (hget i.1 (by rw [hlen]; exact i.2) i.2).2

/-- C8: for every record emitted by a call of `process_pos_indel_digt`, the ploidy-conflict flag
is set exactly when the calling ploidy differs from the locus ploidy, that is exactly when the
locus ploidy, before the substitution of 2 for 0, is 0. -/
theorem ploidy_conflict_flag (env : Env) (pos : Int) (st out : ProcState)
    (h : process_pos_indel_digt env pos st = .ok out) :
    ∃ recs, out.gvcfer = st.gvcfer ++ recs ∧
      ∀ r ∈ recs,
        (r.sample0.isPloidyConflict = true ↔
          callerPloidyAt env pos ≠ groupLocusPloidyAt env pos) ∧
        (r.sample0.isPloidyConflict = true ↔ groupLocusPloidyAt env pos = 0) := by
  obtain ⟨recs, calls, hg, _, _, hr⟩ := process_records h
  refine ⟨recs, hg, ?_⟩
  intro r hmem
  have hflag : r.sample0.isPloidyConflict = true ↔
      callerPloidyAt env pos ≠ groupLocusPloidyAt env pos := by
    rw [(hr r hmem).2]
    simp
  exact ⟨hflag, hflag.trans (callerPloidyAt_ne_iff env pos)⟩

/-- The statement of C8 at position 250, where the ploidy is unknown: the call returns with one
record, the locus ploidy is 0 and the flag of the record is set. -/
theorem ploidy_conflict_flag_witness :
    ∃ out, process_pos_indel_digt exampleEnv 250 ⟨[], [], []⟩ = .ok out ∧
      groupLocusPloidyAt exampleEnv 250 = 0 ∧
      out.gvcfer.map (fun r => r.sample0.isPloidyConflict) = [true] ∧
      ∃ recs, out.gvcfer = [] ++ recs ∧
        ∀ r ∈ recs,
          (r.sample0.isPloidyConflict = true ↔
            callerPloidyAt exampleEnv 250 ≠ groupLocusPloidyAt exampleEnv 250) ∧
          (r.sample0.isPloidyConflict = true ↔ groupLocusPloidyAt exampleEnv 250 = 0) :=
  ⟨_, rfl, rfl, rfl, ploidy_conflict_flag exampleEnv 250 ⟨[], [], []⟩ _ rfl⟩

/-- C9, as stated, fails: at position 250 the locus ploidy is 0 and the likelihood routine is
called with ploidy 2, but the ploidy recorded in the sample information of the emitted record is
2, not 0; the locus ploidy survives only as the set ploidy-conflict flag. -/
theorem recorded_ploidy_counterexample :
    groupLocusPloidyAt exampleEnv 250 = 0 ∧
    (process_pos_indel_digt exampleEnv 250 ⟨[], [], []⟩).map
        (fun out => (out.scored.map ScoringCall.callerPloidy,
          out.gvcfer.map fun r => (r.sample0.ploidy, r.sample0.isPloidyConflict)))
      = .ok ([2], [(2, true)]) :=
  ⟨rfl, rfl⟩

/-- C9, amended: when the locus ploidy of sample 0 is 0, every likelihood call of the position
uses ploidy 2, and every emitted record carries that calling ploidy 2 as the ploidy of its
sample information together with a set ploidy-conflict flag. -/
theorem recorded_ploidy_is_caller_ploidy (env : Env) (pos : Int) (st out : ProcState)
    (h : process_pos_indel_digt env pos st = .ok out)
    (h0 : groupLocusPloidyAt env pos = 0) :
    ∃ recs calls, out.gvcfer = st.gvcfer ++ recs ∧ out.scored = st.scored ++ calls ∧
      (∀ c ∈ calls, c.callerPloidy = 2) ∧
      ∀ r ∈ recs, r.sample0.ploidy = 2 ∧ r.sample0.isPloidyConflict = true := by
  obtain ⟨recs, calls, hg, hs, hc, hr⟩ := process_records h
  have hcp : callerPloidyAt env pos = 2 := by
    unfold callerPloidyAt
    rw [if_pos h0]
  refine ⟨recs, calls, hg, hs, ?_, ?_⟩
  · intro c hmem
    rw [hc c hmem, hcp]
  · intro r hmem
    obtain ⟨h1, h2⟩ := hr r hmem
    rw [hcp] at h1 h2
    rw [h0] at h2
    exact ⟨h1, by rw [h2]; rfl⟩

/-- The amended C9 at position 250: the locus ploidy is 0, the call returns, and its one record
carries ploidy 2 and the conflict flag. -/
theorem recorded_ploidy_is_caller_ploidy_witness :
    ∃ out, process_pos_indel_digt exampleEnv 250 ⟨[], [], []⟩ = .ok out ∧
      groupLocusPloidyAt exampleEnv 250 = 0 ∧ out.gvcfer.length = 1 ∧
      ∃ recs calls, out.gvcfer = [] ++ recs ∧ out.scored = [] ++ calls ∧
        (∀ c ∈ calls, c.callerPloidy = 2) ∧
        ∀ r ∈ recs, r.sample0.ploidy = 2 ∧ r.sample0.isPloidyConflict = true :=
  ⟨_, rfl, rfl, rfl, recorded_ploidy_is_caller_ploidy exampleEnv 250 ⟨[], [], []⟩ _ rfl rfl⟩


/-! ## Forced alleles -/

theorem mem_forcedOutputAlleleGroupAt {env : Env} {pos : Int} {a : Allele} :
    a ∈ (forcedOutputAlleleGroupAt env pos).alleles ↔
      a ∈ (orthogonalVariantAllelesAt env pos).alleles ∧ a.2.isForcedOutput = true := by
  unfold forcedOutputAlleleGroupAt
  rw [collectForcedOutputAlleles_eq]
  simp

theorem mem_orthogonalVariantAllelesAt_of_forced {env : Env} {pos : Int} {a : Allele}
    (ha : a ∈ positionRange env.indelBuffer pos) (hb : a.1.is_breakpoint = false)
    (hf : a.2.isForcedOutput = true) : a ∈ (orthogonalVariantAllelesAt env pos).alleles := by
  unfold orthogonalVariantAllelesAt
  rw [collectOrthogonalVariantAlleles_eq]
  simp only [List.nil_append, List.mem_filter]
  exact ⟨ha, by simp [hb, hf]⟩

theorem forcedOutputAlleleGroupAt_nodup {env : Env} {pos : Int}
    (hnodup : (env.indelBuffer.map Prod.fst).Nodup) :
    (forcedOutputAlleleGroupAt env pos).alleles.Nodup := by
  have hb : env.indelBuffer.Nodup := List.Nodup.of_map _ hnodup
  have h1 : (positionRange env.indelBuffer pos).Nodup :=
    List.Nodup.sublist ((List.takeWhile_sublist _).trans (List.dropWhile_sublist _)) hb
  unfold forcedOutputAlleleGroupAt orthogonalVariantAllelesAt
  rw [collectForcedOutputAlleles_eq, collectOrthogonalVariantAlleles_eq]
  simp only [List.nil_append]
  exact (h1.filter _).filter _

theorem countP_eq_one_of_mem {α : Type} [DecidableEq α] {a : α} {l : List α}
    (d : l.Nodup) (h : a ∈ l) : l.countP (fun b => decide (b = a)) = 1 := by
  induction l with
  | nil => simp at h
  | cons b rest ih =>
    rw [List.nodup_cons] at d
    rw [List.countP_cons]
    by_cases hba : b = a
    · subst hba
      have : rest.countP (fun c => decide (c = b)) = 0 := by
        rw [List.countP_eq_zero]
        intro c hc
        simp only [decide_eq_true_eq]
        rintro rfl
        exact d.1 hc
      simp [this]
    · have hr : a ∈ rest := by
        rcases List.mem_cons.mp h with rfl | hr
        · exact absurd rfl hba
        · exact hr
      simp [hba, ih d.2 hr]

theorem countP_of_forall₂ {cp gp : Nat} {a : Allele} {alleles : List Allele}
    {recs : List GermlineIndelLocusInfo}
    (h : List.Forall₂ (fun b r => RecordOf cp gp [b] r) alleles recs) :
    recs.countP (fun r => decide (r.altAlleles = [a])) =
      alleles.countP (fun b => decide (b = a)) := by
  induction h with
  | nil => rfl
  | @cons b r l l2 hr _ ih =>
    rw [List.countP_cons, List.countP_cons, ih, hr.1]
    by_cases hba : b = a
    · simp [hba]
    · simp [hba]

theorem forcedCalls_forall₂ (top : OrthogonalVariantAlleleCandidateGroup) {cp gp : Nat}
    {alleles : List Allele} {recs : List GermlineIndelLocusInfo}
    (h : List.Forall₂ (fun b r => RecordOf cp gp [b] r) alleles recs) :
    List.Forall₂ (fun c r => ∃ i b, c = ScoringCall.forcedAllele cp 0 top ⟨alleles⟩ i ∧
        alleles[i]? = some b ∧ r.altAlleles = [b])
      ((List.range alleles.length).map (ScoringCall.forcedAllele cp 0 top ⟨alleles⟩)) recs := by
  obtain ⟨hlen, hget⟩ := List.forall₂_iff_get.mp h
  rw [List.forall₂_iff_get]
  refine ⟨by simp [hlen], ?_⟩
  intro i h1 h2
  have hi : i < alleles.length := by simpa using h1
  refine ⟨i, alleles[i], by simp, by simp [hi], ?_⟩
  exact (hget i hi h2).1

/-- C5: in a call that reaches the genotyping step and finds the locus reportable, the key of
every forced-output allele of the top group is in the forced-output set after the call, and the
forced-allele scoring calls and their records (one record per call, after the record of the top
group) are all for alleles with other keys. -/
theorem forced_in_top_group_marked (env : Env) (pos : Int) (st out : ProcState)
    (h : process_pos_indel_digt env pos st = .ok out)
    (hne : (orthogonalVariantAllelesAt env pos).alleles ≠ [])
    (hrep : isReportableLocusAt env pos = true)
    (a : Allele) (ha : a ∈ (topVariantAlleleGroupAt env pos).alleles)
    (hf : a.2.isForcedOutput = true) :
    a.1 ∈ forcedAllelesAfterUpdate env pos st ∧
    out.forcedAllelesAlreadyOutput = forcedAllelesAfterUpdate env pos st ∧
    ∃ topRecs forcedRecs forcedCalls,
      out.gvcfer = st.gvcfer ++ topRecs ++ forcedRecs ∧
      topRecs.length ≤ 1 ∧
      (∀ r ∈ topRecs, r.altAlleles = (topVariantAlleleGroupAt env pos).alleles) ∧
      out.scored = st.scored ++
        [ScoringCall.topGroup (callerPloidyAt env pos) 0 (topVariantAlleleGroupAt env pos)] ++
        forcedCalls ∧
      List.Forall₂ (fun c r => ∃ fg i b,
          c = ScoringCall.forcedAllele (callerPloidyAt env pos) 0
            (topVariantAlleleGroupAt env pos) fg i ∧
          fg.alleles[i]? = some b ∧ r.altAlleles = [b] ∧ b.1 ≠ a.1) forcedCalls forcedRecs := by
  have hmem : a.1 ∈ forcedAllelesAfterUpdate env pos st := by
    unfold forcedAllelesAfterUpdate updateForcedAllelesAlreadyOutput
    simp only [hrep, if_true]
    rw [mem_noteForcedAlleles]
    exact Or.inr ⟨a, ha, hf, rfl⟩
  rcases process_pos_indel_digt_ok h with ⟨he, _⟩ |
    ⟨_, _, topRecs, forcedRecs, hset, hg, hlen, ht, _, hfr, hsc⟩
  · exact absurd he hne
  · rw [hrep] at hsc
    simp only [if_true] at hsc
    refine ⟨hmem, hset, topRecs, forcedRecs, _, hg, hlen, fun r hr => (ht r hr).1, hsc, ?_⟩
    have h2 := forcedCalls_forall₂ (topVariantAlleleGroupAt env pos) hfr
    refine h2.imp ?_
    rintro c r ⟨i, b, hc, hb, hr⟩
    refine ⟨_, i, b, hc, hb, hr, ?_⟩
    intro hba
    have hbm : b ∈ (forcedOutputAlleleGroupAt env pos).alleles.filter fun a =>
        decide (setCount a.1 (forcedAllelesAfterUpdate env pos st) = 0) :=
      List.getElem?_mem hb
    have hz := (List.mem_filter.mp hbm).2
    simp only [decide_eq_true_eq] at hz
    rw [setCount_eq_zero_iff, hba] at hz
    exact hz hmem


/-- The statement of C5 at position 60, where the forced insertion is the top group: the call
returns, the key of the insertion is in the set, and no forced allele is scored separately. -/
theorem forced_in_top_group_marked_witness :
    ∃ out, process_pos_indel_digt exampleEnv 60 ⟨[], [], []⟩ = .ok out ∧
      (orthogonalVariantAllelesAt exampleEnv 60).alleles ≠ [] ∧
      isReportableLocusAt exampleEnv 60 = true ∧
      forcedIns60 ∈ (topVariantAlleleGroupAt exampleEnv 60).alleles ∧
      forcedIns60.2.isForcedOutput = true ∧
      out.forcedAllelesAlreadyOutput = [forcedIns60.1] ∧ out.gvcfer.length = 1 ∧
      out.scored = [ScoringCall.topGroup 2 0 ⟨[forcedIns60]⟩] ∧
      forcedIns60.1 ∈ forcedAllelesAfterUpdate exampleEnv 60 ⟨[], [], []⟩ :=
  ⟨_, rfl, by decide, rfl, by decide, rfl, rfl, rfl, rfl,
    (forced_in_top_group_marked exampleEnv 60 ⟨[], [], []⟩ _ rfl (by decide) rfl forcedIns60
      (by decide) rfl).1⟩

theorem spanRange_covers :
    ∀ (alleles : List Allele) (a : Allele), a ∈ alleles →
      (spanRange alleles).begin_pos ≤ a.1.pos ∧ a.1.right_pos ≤ (spanRange alleles).end_pos := by
  intro alleles
  induction alleles with
  | nil => intro a ha; simp at ha
  | cons b rest ih =>
    intro a ha
    cases rest with
    | nil =>
      simp only [List.mem_singleton] at ha
      subst ha
      simp [spanRange]
    | cons c rest2 =>
      simp only [spanRange]
      rcases List.mem_cons.mp ha with rfl | hmem
      · exact ⟨min_le_left _ _, le_max_left _ _⟩
      · have := ih a hmem
        exact ⟨le_trans (min_le_right _ _) this.1, le_trans this.2 (le_max_right _ _)⟩

/-- C6: when there is one sample, record ranges cover their alleles and the likelihood routines
return genotypes within their contract (the top group's genotype is homozygous reference or fits
the group; a forced allele's genotype passes the assertion of line 918 and fits a group of one
allele, homozygous reference included), the call returns, and every forced-output non-breakpoint
candidate of the buffer at `pos` whose key is not in the forced-output set after the update
yields exactly one record with that allele as its only alternate allele; it is scored by one
forced-allele call, and every forced-allele call receives the top group of the position. -/
theorem forced_allele_emitted_once (env : Env) (pos : Int) (st : ProcState)
    (hs : env.sampleCount = 1)
    (hcover : RangeCoversAlleles env)
    (hnodup : (env.indelBuffer.map Prod.fst).Nodup)
    (htop : (env.getVariantAlleleGroupGenotypeLhoods (callerPloidyAt env pos) 0
          (topVariantAlleleGroupAt env pos) 0).1.maxGenotypeIndex = AG_GENOTYPE.HOMREF ∨
      ((topVariantAlleleGroupAt env pos).alleles ≠ [] ∧
        genotypeFits (callerPloidyAt env pos) (topVariantAlleleGroupAt env pos).size
          (env.getVariantAlleleGroupGenotypeLhoods (callerPloidyAt env pos) 0
            (topVariantAlleleGroupAt env pos) 0).1.maxGenotypeIndexPolymorphic = true))
    (hforced : ∀ fg i stats,
      env.isAllelePresent
        (env.getGenotypeLhoodsForForcedOutputAllele (callerPloidyAt env pos) 0
          (topVariantAlleleGroupAt env pos) fg i stats).1.maxGenotypeIndex 1 = false ∧
      genotypeFits (callerPloidyAt env pos) 1
        (env.getGenotypeLhoodsForForcedOutputAllele (callerPloidyAt env pos) 0
          (topVariantAlleleGroupAt env pos) fg i stats).1.maxGenotypeIndexPolymorphic = true) :
    ∃ out, process_pos_indel_digt env pos st = .ok out ∧
      ∃ recs calls, out.gvcfer = st.gvcfer ++ recs ∧ out.scored = st.scored ++ calls ∧
        (∀ cp s tg fg i, ScoringCall.forcedAllele cp s tg fg i ∈ calls →
          tg = topVariantAlleleGroupAt env pos) ∧
        ∀ a ∈ positionRange env.indelBuffer pos,
          a.1.is_breakpoint = false → a.2.isForcedOutput = true →
          a.1 ∉ forcedAllelesAfterUpdate env pos st →
            out.forcedAllelesAlreadyOutput = forcedAllelesAfterUpdate env pos st ∧
            recs.countP (fun r => decide (r.altAlleles = [a])) = 1 ∧
            ∃ fg i, fg.alleles[i]? = some a ∧
              calls.countP (fun c => decide (c = ScoringCall.forcedAllele (callerPloidyAt env pos)
                0 (topVariantAlleleGroupAt env pos) fg i)) = 1 := by
  obtain ⟨out, hout⟩ := process_pos_indel_digt_succeeds st hs hcover htop hforced
  refine ⟨out, hout, ?_⟩
  rcases process_pos_indel_digt_ok hout with ⟨he, hst⟩ |
    ⟨_, _, topRecs, forcedRecs, hset, hg, hlen, ht, hnone, hfr, hsc⟩
  · subst hst
    refine ⟨[], [], by simp, by simp, by simp, ?_⟩
    intro a ha hb hf _
    have horth := mem_orthogonalVariantAllelesAt_of_forced ha hb hf
    rw [he] at horth
    simp at horth
  · refine ⟨topRecs ++ forcedRecs, _, by rw [hg, List.append_assoc],
      by rw [hsc, List.append_assoc], ?_, ?_⟩
    · intro cp s tg fg i hmem
      rcases List.mem_append.mp hmem with hm | hm
      · split at hm
        · simp at hm
        · simp at hm
      · simp only [List.mem_map] at hm
        obtain ⟨j, _, hj⟩ := hm
        injection hj with _ _ h3 _ _
        exact h3.symm
    · intro a ha hb hf hnot
      have horth := mem_orthogonalVariantAllelesAt_of_forced ha hb hf
      have hfa : a ∈ (forcedOutputAlleleGroupAt env pos).alleles :=
        mem_forcedOutputAlleleGroupAt.mpr ⟨horth, hf⟩
      have hrem : a ∈ (forcedOutputAlleleGroupAt env pos).alleles.filter fun a =>
          decide (setCount a.1 (forcedAllelesAfterUpdate env pos st) = 0) := by
        rw [List.mem_filter]
        exact ⟨hfa, by simpa using setCount_eq_zero_iff.mpr hnot⟩
      have hnd : ((forcedOutputAlleleGroupAt env pos).alleles.filter fun a =>
          decide (setCount a.1 (forcedAllelesAfterUpdate env pos st) = 0)).Nodup :=
        (forcedOutputAlleleGroupAt_nodup hnodup).filter _
      have htopz : topRecs.countP (fun r => decide (r.altAlleles = [a])) = 0 := by
        rw [List.countP_eq_zero]
        intro r hr
        simp only [decide_eq_true_eq]
        intro heq
        have hrep : isReportableLocusAt env pos = true := by
          cases hrp : isReportableLocusAt env pos with
          | true => rfl
          | false =>
            have := hnone hrp
            subst this
            simp at hr
        have hta : a ∈ (topVariantAlleleGroupAt env pos).alleles := by
          rw [← (ht r hr).1, heq]
          simp
        apply hnot
        unfold forcedAllelesAfterUpdate updateForcedAllelesAlreadyOutput
        simp only [hrep, if_true]
        rw [mem_noteForcedAlleles]
        exact Or.inr ⟨a, hta, hf, rfl⟩
      refine ⟨hset, ?_, ?_⟩
      · rw [List.countP_append, htopz, countP_of_forall₂ hfr, countP_eq_one_of_mem hnd hrem]
      · obtain ⟨i, hi, hia⟩ := List.mem_iff_getElem.mp hrem
        refine ⟨⟨(forcedOutputAlleleGroupAt env pos).alleles.filter fun a =>
          decide (setCount a.1 (forcedAllelesAfterUpdate env pos st) = 0)⟩, i, ?_, ?_⟩
        · rw [List.getElem?_eq_getElem hi, hia]
        rw [List.countP_append]
        have h1 : List.countP (fun c => decide (c =
            ScoringCall.forcedAllele (callerPloidyAt env pos) 0
            (topVariantAlleleGroupAt env pos)
            ⟨(forcedOutputAlleleGroupAt env pos).alleles.filter fun a =>
              decide (setCount a.1 (forcedAllelesAfterUpdate env pos st) = 0)⟩ i))
            (if isReportableLocusAt env pos = true then
              [ScoringCall.topGroup (callerPloidyAt env pos) 0 (topVariantAlleleGroupAt env pos)]
              else []) = 0 := by
          split <;> simp
        rw [h1, Nat.zero_add]
        apply countP_eq_one_of_mem
        · apply List.Nodup.map
          · intro x y hxy
            injection hxy
          · exact List.nodup_range _
        · exact List.mem_map.mpr ⟨i, List.mem_range.mpr hi, rfl⟩


/-- The statement of C6 at position 50: the forced insertion is not in the top group, its
genotype is homozygous reference, and it still yields exactly one record of its own. -/
theorem forced_allele_emitted_once_witness :
    forcedIns50 ∈ positionRange exampleEnv.indelBuffer 50 ∧
    forcedIns50.1 ∉ forcedAllelesAfterUpdate exampleEnv 50 ⟨[], [], []⟩ ∧
    (exampleEnv.getGenotypeLhoodsForForcedOutputAllele 2 0 ⟨[del50]⟩ ⟨[forcedIns50]⟩ 0
      8).1.maxGenotypeIndex = AG_GENOTYPE.HOMREF ∧
    (process_pos_indel_digt exampleEnv 50 ⟨[], [], []⟩).map
        (fun out => out.gvcfer.map fun r => r.altAlleles)
      = .ok [[del50], [forcedIns50]] ∧
    ∃ out, process_pos_indel_digt exampleEnv 50 ⟨[], [], []⟩ = .ok out ∧
      ∃ recs calls, out.gvcfer = [] ++ recs ∧ out.scored = [] ++ calls ∧
        (∀ cp s tg fg i, ScoringCall.forcedAllele cp s tg fg i ∈ calls →
          tg = topVariantAlleleGroupAt exampleEnv 50) ∧
        ∀ a ∈ positionRange exampleEnv.indelBuffer 50,
          a.1.is_breakpoint = false → a.2.isForcedOutput = true →
          a.1 ∉ forcedAllelesAfterUpdate exampleEnv 50 ⟨[], [], []⟩ →
            out.forcedAllelesAlreadyOutput = forcedAllelesAfterUpdate exampleEnv 50 ⟨[], [], []⟩ ∧
            recs.countP (fun r => decide (r.altAlleles = [a])) = 1 ∧
            ∃ fg i, fg.alleles[i]? = some a ∧
              calls.countP (fun c => decide (c = ScoringCall.forcedAllele
                (callerPloidyAt exampleEnv 50) 0 (topVariantAlleleGroupAt exampleEnv 50) fg i))
                = 1 :=
  ⟨by decide, by decide, rfl, rfl,
    forced_allele_emitted_once exampleEnv 50 ⟨[], [], []⟩ rfl spanRange_covers (by decide)
      (Or.inr ⟨by decide, rfl⟩) (fun _ _ _ => ⟨rfl, rfl⟩)⟩

/-! ## The forced-output set across calls -/

/-- C4 fails on the code: the call for position 60 genotypes the forced insertion at 60 and
notes its key; the call for position 61 collects no candidate, returns at line 761 before the
pruning of lines 865-866, and leaves that key, whose position 60 is below 61, in the set. -/
theorem forced_set_keeps_key_below_pos :
    ((process_pos_indel_digt exampleEnv 60 ⟨[], [], []⟩).bind
        (process_pos_indel_digt exampleEnv 61)).map
        (fun out => out.forcedAllelesAlreadyOutput.map fun k => (k.pos, decide (k.pos < 61)))
      = .ok [(60, true)] ∧
    (orthogonalVariantAllelesAt exampleEnv 61).alleles = [] :=
  ⟨rfl, rfl⟩


theorem IndelKey.pos_le_of_lt {a b : IndelKey} (h : a.lt b = true) : a.pos ≤ b.pos := by
  unfold IndelKey.lt at h
  by_contra hn
  have hlt : b.pos < a.pos := by omega
  have hna : ¬ a.pos < b.pos := by omega
  simp [hna, hlt] at h

/-- The pruning of lines 865-866 leaves no key below `pos` in an ordered set. -/
theorem eraseBelow_pos {pos : Int} :
    ∀ (set : List IndelKey), set.Pairwise (fun a b => a.lt b = true) →
      ∀ k ∈ eraseBelow (IndelKey.ofPos pos) set, pos ≤ k.pos := by
  intro set
  induction set with
  | nil => intro _ k hk; simp [eraseBelow] at hk
  | cons h t ih =>
    intro hs k hk
    rw [List.pairwise_cons] at hs
    unfold eraseBelow at hk
    rw [List.dropWhile_cons] at hk
    split at hk
    · exact ih hs.2 k hk
    · rename_i hnot
      have hh : pos ≤ h.pos := by
        by_contra hn
        exact hnot (IndelKey.lt_ofPos.mpr (by omega))
      rcases List.mem_cons.mp hk with rfl | hkt
      · exact hh
      · exact le_trans hh (IndelKey.pos_le_of_lt (hs.1 k hkt))

/-- When the call for `pos` collects a candidate and the forced-output set it starts from is
ordered, the set holds no key below `pos` after the call. -/
theorem forced_set_pruned_when_candidates {env : Env} {pos : Int} {st out : ProcState}
    (h : process_pos_indel_digt env pos st = .ok out)
    (hne : (orthogonalVariantAllelesAt env pos).alleles ≠ [])
    (hsorted : st.forcedAllelesAlreadyOutput.Pairwise (fun a b => a.lt b = true)) :
    ∀ k ∈ out.forcedAllelesAlreadyOutput, pos ≤ k.pos := by
  rcases process_pos_indel_digt_ok h with ⟨he, _⟩ | ⟨_, _, _, _, hset, _⟩
  · exact absurd he hne
  · intro k hk
    rw [hset] at hk
    unfold forcedAllelesAfterUpdate updateForcedAllelesAlreadyOutput at hk
    simp only at hk
    split at hk
    · rename_i hrep
      rw [mem_noteForcedAlleles] at hk
      rcases hk with hk | ⟨a, ha, _, rfl⟩
      · exact eraseBelow_pos _ hsorted k hk
      · exact (isReportableLocus_iff pos _).mp hrep a ha
    · exact eraseBelow_pos _ hsorted k hk

/-! ## Translation of genotype indices -/

/-- C16: `translateOldToNewGenotypeIndex(ploidy, g)` returns a value exactly when `ploidy` is 1
and `g` is `HOMREF`, `HOM0` or `HOM1`, or `ploidy` is 2 and `g` is one of the six named
genotypes; the value is the VCF genotype index of the same alleles (0, 1, 2 at ploidy 1; 0/0,
1/1, 2/2, 0/1, 0/2, 1/2, that is 0, 2, 5, 1, 3, 4, at ploidy 2); every other pair of arguments
fails the assertion. -/
theorem translateOldToNewGenotypeIndex_cases (ploidy : Int) (g : AG_GENOTYPE) :
    ((∃ v, translateOldToNewGenotypeIndex ploidy g = .ok v) ↔
      (ploidy = 1 ∧ (g = .HOMREF ∨ g = .HOM0 ∨ g = .HOM1)) ∨
      (ploidy = 2 ∧ (g = .HOMREF ∨ g = .HOM0 ∨ g = .HOM1 ∨ g = .HET0 ∨ g = .HET1 ∨
        g = .HET01))) ∧
    ((¬ ∃ v, translateOldToNewGenotypeIndex ploidy g = .ok v) →
      translateOldToNewGenotypeIndex ploidy g = .error .assertion) ∧
    (translateOldToNewGenotypeIndex 1 .HOMREF = .ok (VcfGenotypeUtil.getGenotypeIndex1 0) ∧
      translateOldToNewGenotypeIndex 1 .HOM0 = .ok (VcfGenotypeUtil.getGenotypeIndex1 1) ∧
      translateOldToNewGenotypeIndex 1 .HOM1 = .ok (VcfGenotypeUtil.getGenotypeIndex1 2) ∧
      translateOldToNewGenotypeIndex 2 .HOMREF = .ok (VcfGenotypeUtil.getGenotypeIndex2 0 0) ∧
      translateOldToNewGenotypeIndex 2 .HOM0 = .ok (VcfGenotypeUtil.getGenotypeIndex2 1 1) ∧
      translateOldToNewGenotypeIndex 2 .HOM1 = .ok (VcfGenotypeUtil.getGenotypeIndex2 2 2) ∧
      translateOldToNewGenotypeIndex 2 .HET0 = .ok (VcfGenotypeUtil.getGenotypeIndex2 0 1) ∧
      translateOldToNewGenotypeIndex 2 .HET1 = .ok (VcfGenotypeUtil.getGenotypeIndex2 0 2) ∧
      translateOldToNewGenotypeIndex 2 .HET01 = .ok (VcfGenotypeUtil.getGenotypeIndex2 1 2)) ∧
    (translateOldToNewGenotypeIndex 1 .HOMREF = .ok 0 ∧
      translateOldToNewGenotypeIndex 1 .HOM0 = .ok 1 ∧
      translateOldToNewGenotypeIndex 1 .HOM1 = .ok 2 ∧
      translateOldToNewGenotypeIndex 2 .HOMREF = .ok 0 ∧
      translateOldToNewGenotypeIndex 2 .HOM0 = .ok 2 ∧
      translateOldToNewGenotypeIndex 2 .HOM1 = .ok 5 ∧
      translateOldToNewGenotypeIndex 2 .HET0 = .ok 1 ∧
      translateOldToNewGenotypeIndex 2 .HET1 = .ok 3 ∧
      translateOldToNewGenotypeIndex 2 .HET01 = .ok 4) := by
  refine ⟨?_, ?_, ⟨rfl, rfl, rfl, rfl, rfl, rfl, rfl, rfl, rfl⟩,
    ⟨rfl, rfl, rfl, rfl, rfl, rfl, rfl, rfl, rfl⟩⟩
  · by_cases h1 : ploidy = 1
    · subst h1
      cases g <;> (unfold translateOldToNewGenotypeIndex; simp)
    · by_cases h2 : ploidy = 2
      · subst h2
        cases g <;> (unfold translateOldToNewGenotypeIndex; simp)
      · unfold translateOldToNewGenotypeIndex
        simp [h1, h2]
  · intro hno
    by_cases h1 : ploidy = 1
    · subst h1
      cases g <;> (unfold translateOldToNewGenotypeIndex at hno ⊢; simp at hno ⊢)
    · by_cases h2 : ploidy = 2
      · subst h2
        cases g <;> (unfold translateOldToNewGenotypeIndex at hno ⊢; simp at hno ⊢)
      · unfold translateOldToNewGenotypeIndex
        simp [h1, h2]

/-! ## Result of `hackDiplotypeCallToCopyNumberCalls` -/

theorem hack_succeeds_of_stats (env : Env) (group : OrthogonalVariantAlleleCandidateGroup)
    (g : AlleleGroupGenotype) (locusReadStats : List LocusSupportingReadStats) (cp gp : Nat)
    (isForcedOutput : Bool) (gvcfer : List GermlineIndelLocusInfo)
    (hc : (isForcedOutput || g.maxGenotypeIndex != AG_GENOTYPE.HOMREF) = true)
    (hcover : RangeCoversAlleles env)
    (hstats : locusReadStats ≠ [])
    (hne : group.alleles ≠ [])
    (hfit : genotypeFits cp group.size g.maxGenotypeIndexPolymorphic = true)
    (hforced : ∀ a ∈ group.alleles, (!isForcedOutput || a.2.isForcedOutput) = true) :
    ∃ ii, hackDiplotypeCallToCopyNumberCalls env group g locusReadStats cp gp isForcedOutput
      gvcfer = .ok (true, gvcfer ++ [ii]) := by
  obtain ⟨idx, hidx, hcase⟩ := genotypeFits_inv hfit
  have h1 := addAltIndelAlleles_succeeds group.alleles [] hforced
  simp only [List.nil_append] at h1
  have hpl : ∃ pls, setGenotypePhredLoghood env g cp (group.size + 1) = .ok pls := by
    unfold setGenotypePhredLoghood
    rcases hcase with ⟨hp, _⟩ | ⟨hp, _⟩
    · rw [if_neg (by omega), if_pos hp]
      exact ⟨_, rfl⟩
    · rw [if_pos hp]
      exact ⟨_, rfl⟩
  obtain ⟨pls, hpls⟩ := hpl
  obtain ⟨sp, hsp⟩ := setSitePloidy_succeeds group.alleles
    (env.locusRange group.alleles) cp idx (hcover group.alleles) hcase
  obtain ⟨a0, rest, hgr⟩ := List.exists_cons_of_ne_nil hne
  have h0 : group.alleles[0]? = some a0 := by rw [hgr]; simp
  obtain ⟨s0, srest, hst⟩ := List.exists_cons_of_ne_nil hstats
  have hs0 : locusReadStats[0]? = some s0 := by rw [hst]; simp
  exact ⟨_, hack_ok_of hc h1 hs0 hidx hpls hsp h0⟩

/-- C20: when `isForcedOutput` is false and the maximum-likelihood genotype is `HOMREF`, the
call returns `false` and hands nothing to the aggregator; a call that returns returns `true`
exactly when `isForcedOutput` holds or the genotype is not `HOMREF`, and then it has handed
exactly one record to the aggregator; and in that case the call does return when its asserted
contract holds (record range covers the alleles, read statistics and group not empty, the
polymorphic genotype fits, a forced locus has forced alleles only). -/
theorem hack_returns_true_iff (env : Env) (group : OrthogonalVariantAlleleCandidateGroup)
    (g : AlleleGroupGenotype) (locusReadStats : List LocusSupportingReadStats) (cp gp : Nat)
    (isForcedOutput : Bool) (gvcfer : List GermlineIndelLocusInfo) :
    (¬ (isForcedOutput = true ∨ g.maxGenotypeIndex ≠ AG_GENOTYPE.HOMREF) →
      hackDiplotypeCallToCopyNumberCalls env group g locusReadStats cp gp isForcedOutput gvcfer
        = .ok (false, gvcfer)) ∧
    (∀ res, hackDiplotypeCallToCopyNumberCalls env group g locusReadStats cp gp isForcedOutput
        gvcfer = .ok res →
      (res.1 = true ↔ (isForcedOutput = true ∨ g.maxGenotypeIndex ≠ AG_GENOTYPE.HOMREF)) ∧
      (res.1 = true → ∃ ii, res.2 = gvcfer ++ [ii]) ∧
      (res.1 = false → res.2 = gvcfer)) ∧
    ((isForcedOutput = true ∨ g.maxGenotypeIndex ≠ AG_GENOTYPE.HOMREF) →
      RangeCoversAlleles env → locusReadStats ≠ [] → group.alleles ≠ [] →
      genotypeFits cp group.size g.maxGenotypeIndexPolymorphic = true →
      (∀ a ∈ group.alleles, (!isForcedOutput || a.2.isForcedOutput) = true) →
      ∃ ii, hackDiplotypeCallToCopyNumberCalls env group g locusReadStats cp gp isForcedOutput
        gvcfer = .ok (true, gvcfer ++ [ii])) := by
  have hcond : (isForcedOutput || g.maxGenotypeIndex != AG_GENOTYPE.HOMREF) = true ↔
      (isForcedOutput = true ∨ g.maxGenotypeIndex ≠ AG_GENOTYPE.HOMREF) := by
    simp
  refine ⟨?_, ?_, ?_⟩
  · intro hn
    unfold hackDiplotypeCallToCopyNumberCalls
    rw [if_pos]
    rw [← hcond] at hn
    simpa using hn
  · intro res h
    rcases hack_ok_inv h with ⟨hr, hc⟩ | ⟨hc, a, b, c, d, e, f, -, -, -, -, -, -, hr⟩
    · subst hr
      refine ⟨?_, ?_, ?_⟩
      · rw [← hcond, hc]
      · intro h1
        simp at h1
      · intro _
        rfl
    · subst hr
      refine ⟨?_, ?_, ?_⟩
      · rw [← hcond, hc]
      · intro _
        exact ⟨_, rfl⟩
      · intro h1
        simp at h1
  · intro hc hcover hstats hne hfit hforced
    exact hack_succeeds_of_stats env group g locusReadStats cp gp isForcedOutput gvcfer
      (hcond.mpr hc) hcover hstats hne hfit hforced

/-- The statement of C20 at the heterozygous call of the deletion at 50 (a record is handed
over and `true` returned) and at the homozygous-reference call (nothing is handed over). -/
theorem hack_returns_true_iff_witness :
    (hackDiplotypeCallToCopyNumberCalls exampleEnv ⟨[del50]⟩ homrefCall [8] 2 2 false []
      = .ok (false, [])) ∧
    ∃ ii, hackDiplotypeCallToCopyNumberCalls exampleEnv ⟨[del50]⟩ hetCall [8] 2 2 false []
      = .ok (true, [] ++ [ii]) :=
  ⟨(hack_returns_true_iff exampleEnv ⟨[del50]⟩ homrefCall [8] 2 2 false []).1 (by decide),
    (hack_returns_true_iff exampleEnv ⟨[del50]⟩ hetCall [8] 2 2 false []).2.2 (by decide)
      spanRange_covers (by decide) (by decide) rfl (by decide)⟩

/-! ## The trimming loop as a filter -/

theorem trimForcedOutputAllelesLogged_eq (set : List IndelKey) (forcedCount : Nat) :
    ∀ (remaining : Nat) (front back : List Allele) (erases : List (Nat × Nat)),
      front.length = remaining → remaining ≤ forcedCount →
      ∃ more, trimForcedOutputAllelesLogged set forcedCount remaining (⟨front ++ back⟩, erases) =
          .ok (⟨(front.filter fun a => decide (setCount a.1 set = 0)) ++ back⟩, erases ++ more) ∧
        ∀ e ∈ more, e.1 < e.2 := by
  intro remaining
  induction remaining with
  | zero =>
    intro front back erases hl _
    have : front = [] := List.length_eq_zero.mp hl
    subst this
    exact ⟨[], by simp [trimForcedOutputAllelesLogged], by simp⟩
  | succ n ih =>
    intro front back erases hl hle
    obtain ⟨init, a, rfl⟩ : ∃ init a, front = init ++ [a] := by
      rcases List.eq_nil_or_concat front with h | ⟨init, a, h⟩
      · subst h
        simp at hl
      · exact ⟨init, a, by simpa using h⟩
    have hinit : init.length = n := by simpa using hl
    unfold trimForcedOutputAllelesLogged
    have hidx : forcedCount - (forcedCount - (n + 1) + 1) = n := by omega
    simp only [hidx]
    have hget : (init ++ [a] ++ back)[n]? = some a := by
      rw [List.append_assoc, List.getElem?_append_right (by omega)]
      simp [hinit]
    simp only [hget]
    split
    · rename_i hc
      have herase : (init ++ [a] ++ back).eraseIdx n = init ++ back := by
        rw [List.append_assoc, List.eraseIdx_append_of_length_le (by omega)]
        simp [hinit]
      rw [herase]
      obtain ⟨more, hmore, hvalid⟩ := ih init back
        (erases ++ [(n, (init ++ [a] ++ back).length)]) hinit (by omega)
      refine ⟨(n, (init ++ [a] ++ back).length) :: more, ?_, ?_⟩
      · rw [hmore]
        have : ¬ setCount a.1 set = 0 := by omega
        simp [List.filter_append, this]
      · intro e he
        rcases List.mem_cons.mp he with rfl | he
        · simp only [List.length_append, List.length_singleton]
          omega
        · exact hvalid e he
    · rename_i hc
      have hz : setCount a.1 set = 0 := by omega
      rw [List.append_assoc]
      obtain ⟨more, hmore, hvalid⟩ := ih init ([a] ++ back) erases hinit (by omega)
      refine ⟨more, ?_, hvalid⟩
      rw [hmore]
      simp [List.filter_append, hz]

theorem trimForcedOutputAllelesLogged_fst (set : List IndelKey) (forcedCount : Nat) :
    ∀ (remaining : Nat) (group : OrthogonalVariantAlleleCandidateGroup)
      (erases : List (Nat × Nat)),
      (trimForcedOutputAllelesLogged set forcedCount remaining (group, erases)).map Prod.fst =
        trimForcedOutputAlleles set forcedCount remaining group := by
  intro remaining
  induction remaining with
  | zero => intro group erases; rfl
  | succ n ih =>
    intro group erases
    unfold trimForcedOutputAllelesLogged trimForcedOutputAlleles
    simp only
    split
    · rfl
    · split
      · exact ih _ _
      · exact ih _ _

/-- C18: for every group and every forced-output set, the reverse-index trimming loop returns
the order-preserving filter of the group by "key not in the set", and every index it erases at
is below the size the group has at that time. -/
theorem trim_loop_is_filter (set : List IndelKey)
    (group : OrthogonalVariantAlleleCandidateGroup) :
    trimForcedOutputAlleles set group.size group.size group =
      .ok (trimForcedOutputAllelesFilter set group) ∧
    ∃ erases, trimForcedOutputAllelesLogged set group.size group.size (group, []) =
        .ok (trimForcedOutputAllelesFilter set group, erases) ∧
      ∀ e ∈ erases, e.1 < e.2 := by
  have hfilter : (group.alleles.filter fun a => decide (setCount a.1 set = 0)) =
      group.alleles.filter fun a => decide (a.1 ∉ set) := by
    apply List.filter_congr
    intro a _
    simp only [decide_eq_decide]
    exact setCount_eq_zero_iff
  obtain ⟨more, hmore, hvalid⟩ := trimForcedOutputAllelesLogged_eq set group.size group.size
    group.alleles [] [] rfl (le_refl _)
  simp only [List.append_nil, List.nil_append, hfilter] at hmore
  have hlog : trimForcedOutputAllelesLogged set group.size group.size (group, []) =
      .ok (trimForcedOutputAllelesFilter set group, more) := hmore
  refine ⟨?_, more, hlog, hvalid⟩
  rw [← trimForcedOutputAllelesLogged_fst set group.size group.size group [], hlog]
  rfl

/-! ## Site ploidy -/

theorem decrementSitePloidy_ok :
    ∀ (count : Nat) (locusOffset : Int) (sitePloidy result : List Int),
      decrementSitePloidy count locusOffset sitePloidy = .ok result →
      result.length = sitePloidy.length ∧
      (∀ o ∈ decrementOffsets count locusOffset, 0 ≤ o ∧ o.toNat < sitePloidy.length) ∧
      ∀ (i : Nat) (v : Int), sitePloidy[i]? = some v →
        result[i]? = some (v - if locusOffset ≤ (i : Int) ∧ (i : Int) < locusOffset + count
          then 1 else 0) := by
  intro count
  induction count with
  | zero =>
    intro off sp res h
    simp only [decrementSitePloidy, Except.ok.injEq] at h
    subst h
    refine ⟨rfl, by simp [decrementOffsets], ?_⟩
    intro i v hv
    have : ¬ (off ≤ (i : Int) ∧ (i : Int) < off + ((0 : Nat) : Int)) := by
      push_cast
      omega
    rw [hv, if_neg this, sub_zero]
  | succ n ih =>
    intro off sp res h
    unfold decrementSitePloidy at h
    split at h
    · rename_i hc
      obtain ⟨hlen, hoff, hval⟩ := ih _ _ _ h
      rw [List.length_modify] at hlen hoff
      refine ⟨hlen, ?_, ?_⟩
      · intro o ho
        simp only [decrementOffsets, List.mem_cons] at ho
        rcases ho with rfl | ho
        · exact hc
        · exact hoff o ho
      · intro i v hv
        have hm : (List.modify (fun p => p - 1) off.toNat sp)[i]? =
            some (if off.toNat = i then v - 1 else v) := by
          rw [List.getElem?_modify, hv]
          simp only [Option.map_eq_map, Option.map_some']
        rw [hval i _ hm]
        congr 1
        push_cast
        split_ifs <;> omega
    · simp at h

theorem decrementOffsets_mem :
    ∀ (count : Nat) (locusOffset o : Int),
      o ∈ decrementOffsets count locusOffset ↔ locusOffset ≤ o ∧ o < locusOffset + count := by
  intro count
  induction count with
  | zero => intro off o; simp [decrementOffsets]
  | succ n ih =>
    intro off o
    simp only [decrementOffsets, List.mem_cons, ih]
    push_cast
    omega

theorem updateSitePloidyForAlleleIndex_ok {altAlleles : List Allele} {range : known_pos_range2}
    {alleleIndex : Nat} {sitePloidy result : List Int}
    (h : updateSitePloidyForAlleleIndex altAlleles range alleleIndex sitePloidy = .ok result) :
    result.length = sitePloidy.length ∧
    ∀ (i : Nat) (v : Int), sitePloidy[i]? = some v →
      result[i]? = some (v -
        if slotCoversSite altAlleles alleleIndex (range.begin_pos + i) = true then 1 else 0) := by
  unfold updateSitePloidyForAlleleIndex at h
  unfold slotCoversSite
  split at h
  · rename_i h0
    simp only [Except.ok.injEq] at h
    subst h
    refine ⟨rfl, ?_⟩
    intro i v hv
    simp [h0, hv]
  · rename_i h0
    split at h
    · simp at h
    · rename_i a ha
      simp only at h
      obtain ⟨hlen, _, hval⟩ := decrementSitePloidy_ok _ _ _ _ h
      refine ⟨hlen, ?_⟩
      intro i v hv
      rw [hval i v hv]
      simp only [h0, if_false, ha, decide_eq_true_eq]
      congr 1
      have hr : a.1.right_pos = a.1.pos + (a.1.deleteLength : Int) := rfl
      have hcount : ((a.1.right_pos - range.begin_pos - (a.1.pos - range.begin_pos)).toNat : Int)
          = (a.1.deleteLength : Int) := by
        rw [hr]
        omega
      rw [hcount, hr]
      split_ifs <;> omega

theorem setSitePloidy_ok {altAlleles : List Allele} {range : known_pos_range2}
    {callerPloidy genotypeIndex : Nat} {result : List Int}
    (h : setSitePloidy altAlleles range callerPloidy genotypeIndex = .ok result) :
    (callerPloidy = 1 ∨ callerPloidy = 2) ∧
    result.length = range.size ∧
    ∀ (i : Nat), i < range.size →
      result[i]? = some ((callerPloidy : Int) -
        ((genotypeAlleleSlots callerPloidy genotypeIndex).filter fun k =>
          slotCoversSite altAlleles k (range.begin_pos + i)).length) := by
  unfold setSitePloidy at h
  simp only at h
  unfold genotypeAlleleSlots
  split at h
  · rename_i h2
    cases h1 : updateSitePloidyForAlleleIndex altAlleles range
        (VcfGenotypeUtil.getAlleleIndices2 genotypeIndex).1
        (List.replicate range.size (callerPloidy : Int)) with
    | error e => simp [h1, Except.bind] at h
    | ok sp1 =>
      simp only [h1, Except.bind] at h
      obtain ⟨hl1, hv1⟩ := updateSitePloidyForAlleleIndex_ok h1
      obtain ⟨hl2, hv2⟩ := updateSitePloidyForAlleleIndex_ok h
      rw [List.length_replicate] at hl1
      refine ⟨Or.inr h2, by rw [hl2, hl1], ?_⟩
      intro i hi
      have hrep : (List.replicate range.size (callerPloidy : Int))[i]? = some (callerPloidy : Int) :=
        List.getElem?_replicate_of_lt hi
      rw [hv2 i _ (hv1 i _ hrep)]
      simp only [h2, if_true, List.filter_cons, List.filter_nil]
      congr 1
      split_ifs <;> simp
  · rename_i h2
    split at h
    · rename_i h1
      obtain ⟨hl1, hv1⟩ := updateSitePloidyForAlleleIndex_ok h
      rw [List.length_replicate] at hl1
      refine ⟨Or.inl h1, hl1, ?_⟩
      intro i hi
      have hrep : (List.replicate range.size (callerPloidy : Int))[i]? = some (callerPloidy : Int) :=
        List.getElem?_replicate_of_lt hi
      rw [hv1 i _ hrep]
      simp only [h2, if_false, List.filter_cons, List.filter_nil]
      congr 1
      split_ifs <;> simp
    · simp at h

theorem sitePloidyOffsets_checked {altAlleles : List Allele} {range : known_pos_range2}
    {alleleIndex : Nat} {sitePloidy result : List Int}
    (h : updateSitePloidyForAlleleIndex altAlleles range alleleIndex sitePloidy = .ok result) :
    ∀ o ∈ sitePloidyOffsets altAlleles range alleleIndex, 0 ≤ o ∧ o.toNat < sitePloidy.length := by
  unfold updateSitePloidyForAlleleIndex at h
  unfold sitePloidyOffsets
  split at h
  · rename_i h0
    simp [h0]
  · rename_i h0
    split at h
    · simp at h
    · rename_i a ha
      simp only [h0, if_false, ha]
      exact (decrementSitePloidy_ok _ _ _ _ h).2.1

theorem genotypeAlleleSlots_length_le (callerPloidy genotypeIndex : Nat)
    (hp : callerPloidy = 1 ∨ callerPloidy = 2) :
    (genotypeAlleleSlots callerPloidy genotypeIndex).length ≤ callerPloidy := by
  unfold genotypeAlleleSlots
  rcases hp with hp | hp <;> simp [hp]

/-- C11: for every emitted record and every offset `o` of the locus range, the final
`sitePloidy[o]` is the calling ploidy minus the number of allele slots of the chosen
(polymorphic maximum-likelihood) genotype that hold a non-reference allele whose reference span
contains `range.begin + o`; a reference slot never counts, and a genotype with the same covering
allele in both slots gives the calling ploidy minus 2. -/
theorem site_ploidy_of_emitted_record (env : Env)
    (group : OrthogonalVariantAlleleCandidateGroup) (g : AlleleGroupGenotype)
    (locusReadStats : List LocusSupportingReadStats) (cp gp : Nat) (isForcedOutput : Bool)
    (gvcfer : List GermlineIndelLocusInfo) (ii : GermlineIndelLocusInfo)
    (h : hackDiplotypeCallToCopyNumberCalls env group g locusReadStats cp gp isForcedOutput
      gvcfer = .ok (true, gvcfer ++ [ii])) :
    ii.sample0.ploidy = cp ∧
    translateOldToNewGenotypeIndex (cp : Int) g.maxGenotypeIndexPolymorphic
      = .ok ii.sample0.maxGenotypeIndexPolymorphic ∧
    ii.indelSampleInfo0.sitePloidy.length = (env.locusRange ii.altAlleles).size ∧
    (∀ o : Nat, o < (env.locusRange ii.altAlleles).size →
      ii.indelSampleInfo0.sitePloidy[o]? = some ((cp : Int) -
        ((genotypeAlleleSlots cp ii.sample0.maxGenotypeIndexPolymorphic).filter fun k =>
          slotCoversSite ii.altAlleles k ((env.locusRange ii.altAlleles).begin_pos + o)).length)) ∧
    (∀ p, slotCoversSite ii.altAlleles 0 p = false) ∧
    (∀ (k o : Nat), o < (env.locusRange ii.altAlleles).size →
      genotypeAlleleSlots cp ii.sample0.maxGenotypeIndexPolymorphic = [k, k] →
      slotCoversSite ii.altAlleles k ((env.locusRange ii.altAlleles).begin_pos + o) = true →
      ii.indelSampleInfo0.sitePloidy[o]? = some ((cp : Int) - 2)) := by
  obtain ⟨a, b, c, d, e, f, -, -, h3, -, h5, -, h7⟩ := hack_ok_true h
  have hii : ii = hackRecord env g cp gp a b c d e f := by simpa using h7
  subst hii
  obtain ⟨_, hlen, hval⟩ := setSitePloidy_ok h5
  refine ⟨rfl, h3, hlen, hval, ?_, ?_⟩
  · intro p
    simp [slotCoversSite]
  · intro k o ho hslots hcov
    have := hval o ho
    simp only [hackRecord] at this hslots hcov ⊢
    rw [this, hslots]
    simp [List.filter_cons, hcov]

/-- The statement of C11 at a homozygous call of the two-base deletion at 50 with ploidy 2: both
covered bases end at site ploidy 0. -/
theorem site_ploidy_of_emitted_record_witness :
    ∃ ii, hackDiplotypeCallToCopyNumberCalls exampleEnv ⟨[del50]⟩ homAltCall [8] 2 2 false []
        = .ok (true, [] ++ [ii]) ∧
      ii.indelSampleInfo0.sitePloidy = [0, 0] ∧
      genotypeAlleleSlots 2 ii.sample0.maxGenotypeIndexPolymorphic = [1, 1] ∧
      ii.indelSampleInfo0.sitePloidy[1]? = some ((2 : Int) - 2) :=
  ⟨_, rfl, rfl, rfl,
    (site_ploidy_of_emitted_record exampleEnv ⟨[del50]⟩ homAltCall [8] 2 2 false [] _ rfl).2.2.2.2.2
      1 1 (by decide) rfl rfl⟩

/-- C19: when the locus range contains the reference span of every allele of the group and the
calling ploidy is 1 or 2, every index that the per-allele decrement writes is at least 0 and
below `range.size()`, the decrement runs to its end whenever the slots of the genotype name
alleles of the group, and every final `sitePloidy` value of an emitted record lies between 0
and the calling ploidy. -/
theorem site_ploidy_indices_and_values (env : Env)
    (group : OrthogonalVariantAlleleCandidateGroup) (g : AlleleGroupGenotype)
    (locusReadStats : List LocusSupportingReadStats) (cp gp : Nat) (isForcedOutput : Bool)
    (gvcfer : List GermlineIndelLocusInfo)
    (hcover : ∀ a ∈ group.alleles,
      (env.locusRange group.alleles).begin_pos ≤ a.1.pos ∧
        a.1.right_pos ≤ (env.locusRange group.alleles).end_pos)
    (hp : cp = 1 ∨ cp = 2) :
    (∀ alleleIndex, ∀ o ∈ sitePloidyOffsets group.alleles (env.locusRange group.alleles)
        alleleIndex, 0 ≤ o ∧ o < ((env.locusRange group.alleles).size : Int)) ∧
    (∀ genotypeIndex, (∀ k ∈ genotypeAlleleSlots cp genotypeIndex, k ≤ group.size) →
      ∃ sitePloidy, setSitePloidy group.alleles (env.locusRange group.alleles) cp genotypeIndex
        = .ok sitePloidy) ∧
    (∀ ii, hackDiplotypeCallToCopyNumberCalls env group g locusReadStats cp gp isForcedOutput
        gvcfer = .ok (true, gvcfer ++ [ii]) →
      ii.indelSampleInfo0.sitePloidy.length = (env.locusRange group.alleles).size ∧
      ∀ v ∈ ii.indelSampleInfo0.sitePloidy, 0 ≤ v ∧ v ≤ (cp : Int)) := by
  refine ⟨?_, ?_, ?_⟩
  · intro k o ho
    unfold sitePloidyOffsets at ho
    split at ho
    · simp at ho
    · split at ho
      · simp at ho
      · rename_i a ha
        simp only at ho
        rw [decrementOffsets_mem] at ho
        have hc := hcover a (List.getElem?_mem ha)
        have hr : a.1.right_pos = a.1.pos + (a.1.deleteLength : Int) := rfl
        have hcount : ((a.1.right_pos - (env.locusRange group.alleles).begin_pos -
            (a.1.pos - (env.locusRange group.alleles).begin_pos)).toNat : Int)
            = (a.1.deleteLength : Int) := by
          rw [hr]
          omega
        rw [hcount] at ho
        unfold known_pos_range2.size
        omega
  · intro idx hslots
    apply setSitePloidy_succeeds group.alleles (env.locusRange group.alleles) cp idx hcover
    unfold genotypeAlleleSlots at hslots
    rcases hp with hp | hp
    · right
      have h2 : ¬ cp = 2 := by omega
      simp only [h2, if_false, List.mem_singleton, forall_eq] at hslots
      exact ⟨hp, hslots⟩
    · left
      simp only [hp, if_true, List.mem_cons, List.mem_singleton, forall_eq_or_imp, forall_eq,
        List.not_mem_nil, false_implies, implies_true, and_true] at hslots
      exact ⟨hp, hslots.1, hslots.2⟩
  · intro ii h
    obtain ⟨a, b, c, d, e, f, h1, -, -, -, h5, -, h7⟩ := hack_ok_true h
    have hii : ii = hackRecord env g cp gp a b c d e f := by simpa using h7
    have ha : a = group.alleles := by simpa using addAltIndelAlleles_ok _ _ _ h1
    subst hii
    subst ha
    obtain ⟨_, hlen, hval⟩ := setSitePloidy_ok h5
    refine ⟨hlen, ?_⟩
    intro v hv
    simp only [hackRecord] at hv
    obtain ⟨i, hi, hiv⟩ := List.mem_iff_getElem.mp hv
    have hget := hval i (by rw [← hlen]; exact hi)
    rw [List.getElem?_eq_getElem hi, hiv] at hget
    simp only [Option.some.injEq] at hget
    have hle := List.length_filter_le (fun k =>
      slotCoversSite group.alleles k ((env.locusRange group.alleles).begin_pos + i))
      (genotypeAlleleSlots cp c)
    have hsl := genotypeAlleleSlots_length_le cp c hp
    omega

/-- The statement of C19 for the deletion at 50 at ploidy 2: the range covers the deletion, the
indices written for allele 1 are 0 and 1, and the values of the emitted record are within
bounds. -/
theorem site_ploidy_indices_and_values_witness :
    sitePloidyOffsets [del50] (exampleEnv.locusRange [del50]) 1 = [0, 1] ∧
    (exampleEnv.locusRange [del50]).size = 2 ∧
    (∀ alleleIndex, ∀ o ∈ sitePloidyOffsets [del50] (exampleEnv.locusRange [del50]) alleleIndex,
      0 ≤ o ∧ o < ((exampleEnv.locusRange [del50]).size : Int)) ∧
    ∃ ii, hackDiplotypeCallToCopyNumberCalls exampleEnv ⟨[del50]⟩ homAltCall [8] 2 2 false []
        = .ok (true, [] ++ [ii]) ∧
      ∀ v ∈ ii.indelSampleInfo0.sitePloidy, 0 ≤ v ∧ v ≤ ((2 : Nat) : Int) :=
  ⟨rfl, rfl,
    (site_ploidy_indices_and_values exampleEnv ⟨[del50]⟩ homAltCall [8] 2 2 false []
      (spanRange_covers [del50]) (Or.inr rfl)).1,
    _, rfl,
    ((site_ploidy_indices_and_values exampleEnv ⟨[del50]⟩ homAltCall [8] 2 2 false []
      (spanRange_covers [del50]) (Or.inr rfl)).2.2 _ rfl).2⟩

/-! ## The inclusion test of the two indel paths -/

theorem continuousCandidateLoop_called (env : Env) (cenv : ContinuousIndelEnv) :
    ∀ (candidates : List Allele) (st : ContinuousIndelState),
      (continuousCandidateLoop env cenv candidates st).called =
        st.called ++ candidates.filter fun a =>
          !a.1.is_breakpoint && (a.2.isForcedOutput ||
            (!isZeroCoverage env.sampleCount a.2 && env.isCandidateIndel a.1 a.2)) := by
  intro candidates
  induction candidates with
  | nil => intro st; simp [continuousCandidateLoop]
  | cons a rest ih =>
    intro st
    unfold continuousCandidateLoop
    split
    · rename_i h
      rw [ih]
      simp [List.filter_cons, h]
    · rename_i h
      split
      · rename_i h2
        rw [ih]
        simp only [Bool.and_eq_true, Bool.not_eq_true'] at h2
        simp [List.filter_cons, h, h2.1, h2.2]
      · rename_i h2
        split
        · rename_i h3
          rw [ih]
          simp only [Bool.and_eq_true, Bool.not_eq_true'] at h3
          simp [List.filter_cons, h, h3.1, h3.2]
        · rename_i h3
          have hc : (!a.1.is_breakpoint && (a.2.isForcedOutput ||
              (!isZeroCoverage env.sampleCount a.2 && env.isCandidateIndel a.1 a.2))) = true := by
            cases hf : a.2.isForcedOutput <;> cases hz : isZeroCoverage env.sampleCount a.2 <;>
              cases hi : env.isCandidateIndel a.1 a.2 <;> simp_all
          simp only
          split
          · rw [ih]
            simp [List.filter_cons, hc]
          · rw [ih]
            simp [List.filter_cons, hc]

theorem isZeroCoverage_eq_false_iff (sampleCount : Nat) (indelData : IndelData) :
    isZeroCoverage sampleCount indelData = false ↔
      ∃ sampleIndex, sampleIndex < sampleCount ∧
        (indelData.getSampleData sampleIndex).read_path_lnp ≠ [] := by
  unfold isZeroCoverage
  rw [← Bool.not_eq_true, List.all_eq_true]
  simp only [List.mem_range, List.isEmpty_iff, not_forall, exists_prop]

/-- C12: in `process_pos_indel_digt(pos)` a candidate of the buffer at `pos` is in the orthogonal
candidate group exactly when it is not a breakpoint and is forced output, or has read support in
some sample and is accepted by `isCandidateIndel`; the candidates that
`process_pos_indel_continuous(pos)` lets through to `add_indel_call` are the same candidates in
the same order. -/
theorem inclusion_test (env : Env) (cenv : ContinuousIndelEnv) (pos : Int)
    (st : ContinuousIndelState) :
    (∀ a, a ∈ (orthogonalVariantAllelesAt env pos).alleles ↔
      a ∈ positionRange env.indelBuffer pos ∧ a.1.is_breakpoint = false ∧
        (a.2.isForcedOutput = true ∨
          ((∃ sampleIndex, sampleIndex < env.sampleCount ∧
              (a.2.getSampleData sampleIndex).read_path_lnp ≠ []) ∧
            env.isCandidateIndel a.1 a.2 = true))) ∧
    (∀ a, a ∈ (process_pos_indel_continuous env cenv pos ⟨st.gvcfer, []⟩).called ↔
      a ∈ positionRange env.indelBuffer pos ∧ a.1.is_breakpoint = false ∧
        (a.2.isForcedOutput = true ∨
          ((∃ sampleIndex, sampleIndex < env.sampleCount ∧
              (a.2.getSampleData sampleIndex).read_path_lnp ≠ []) ∧
            env.isCandidateIndel a.1 a.2 = true))) ∧
    (process_pos_indel_continuous env cenv pos st).called =
      st.called ++ (orthogonalVariantAllelesAt env pos).alleles := by
  have horth : (orthogonalVariantAllelesAt env pos).alleles =
      (positionRange env.indelBuffer pos).filter fun a =>
        !a.1.is_breakpoint && (a.2.isForcedOutput ||
          (!isZeroCoverage env.sampleCount a.2 && env.isCandidateIndel a.1 a.2)) := by
    unfold orthogonalVariantAllelesAt
    rw [collectOrthogonalVariantAlleles_eq]
    rfl
  have hmem : ∀ a, a ∈ ((positionRange env.indelBuffer pos).filter fun a =>
        !a.1.is_breakpoint && (a.2.isForcedOutput ||
          (!isZeroCoverage env.sampleCount a.2 && env.isCandidateIndel a.1 a.2))) ↔
      a ∈ positionRange env.indelBuffer pos ∧ a.1.is_breakpoint = false ∧
        (a.2.isForcedOutput = true ∨
          ((∃ sampleIndex, sampleIndex < env.sampleCount ∧
              (a.2.getSampleData sampleIndex).read_path_lnp ≠ []) ∧
            env.isCandidateIndel a.1 a.2 = true)) := by
    intro a
    rw [List.mem_filter, ← isZeroCoverage_eq_false_iff]
    simp only [Bool.and_eq_true, Bool.not_eq_true', Bool.or_eq_true]
  refine ⟨?_, ?_, ?_⟩
  · intro a
    rw [horth]
    exact hmem a
  · intro a
    unfold process_pos_indel_continuous
    rw [continuousCandidateLoop_called]
    simp only [List.nil_append]
    exact hmem a
  · unfold process_pos_indel_continuous
    rw [continuousCandidateLoop_called, horth]

/-! ## Base counts -/

theorem countBases_ok :
    ∀ (calls : List base_call) (base_count : List Nat),
      (∀ bc ∈ calls, bc.base_id < base_count.length) → base_count.length ≤ BASE_ID.ANY →
      ∃ result, countBases calls base_count = .ok result ∧
        result.length = base_count.length ∧
        ∀ b, result.getD b 0 =
          base_count.getD b 0 + calls.countP (fun bc => decide (bc.base_id = b)) := by
  intro calls
  induction calls with
  | nil =>
    intro base_count _ _
    exact ⟨base_count, rfl, rfl, by simp⟩
  | cons bc rest ih =>
    intro base_count hall hlen
    have hlt : bc.base_id < base_count.length := hall bc (by simp)
    unfold countBases
    rw [if_neg (by omega), if_pos hlt]
    obtain ⟨res, hres, hl, hval⟩ := ih (base_count.modify (fun c => c + 1) bc.base_id)
      (by
        intro c hc
        rw [List.length_modify]
        exact hall c (by simp [hc]))
      (by rw [List.length_modify]; exact hlen)
    refine ⟨res, hres, by rw [hl, List.length_modify], ?_⟩
    intro b
    rw [hval b, List.countP_cons]
    simp only [List.getD_eq_getElem?_getD, List.getElem?_modify]
    by_cases hb : bc.base_id = b
    · subst hb
      rw [List.getElem?_eq_getElem hlt]
      simp
      omega
    · cases hget : base_count[b]? <;> simp [hb]

theorem countP_base_sum (calls : List base_call) (h : ∀ bc ∈ calls, bc.base_id < N_BASE) :
    calls.countP (fun bc => decide (bc.base_id = 0)) +
      calls.countP (fun bc => decide (bc.base_id = 1)) +
      calls.countP (fun bc => decide (bc.base_id = 2)) +
      calls.countP (fun bc => decide (bc.base_id = 3)) = calls.length := by
  induction calls with
  | nil => rfl
  | cons bc rest ih =>
    have hrest := ih (fun c hc => h c (by simp [hc]))
    have hbc : bc.base_id < 4 := h bc (by simp)
    simp only [List.countP_cons, List.length_cons]
    have h4 : bc.base_id = 0 ∨ bc.base_id = 1 ∨ bc.base_id = 2 ∨ bc.base_id = 3 := by omega
    rcases h4 with h0 | h0 | h0 | h0 <;> simp [h0] <;> omega

/-- C17: for every pileup whose calls all have one of the four concrete base ids,
`report_counts` returns and appends to the stream exactly the output position, a tab, the four
base counts in base-id order each followed by a tab, the unused-call count and one newline;
the count of base `b` is the number of calls with base id `b`, and the four counts add up to the
number of calls. -/
theorem report_counts_line (pi : snp_pos_info) (n_unused_calls : Nat) (output_pos : Int)
    (os : List StreamItem) (h : ∀ bc ∈ pi.calls, bc.base_id < N_BASE) :
    report_counts pi n_unused_calls output_pos os =
      .ok (os ++ [StreamItem.int output_pos, StreamItem.tab,
        StreamItem.nat (pi.calls.countP fun bc => decide (bc.base_id = 0)), StreamItem.tab,
        StreamItem.nat (pi.calls.countP fun bc => decide (bc.base_id = 1)), StreamItem.tab,
        StreamItem.nat (pi.calls.countP fun bc => decide (bc.base_id = 2)), StreamItem.tab,
        StreamItem.nat (pi.calls.countP fun bc => decide (bc.base_id = 3)), StreamItem.tab,
        StreamItem.nat n_unused_calls, StreamItem.newline]) ∧
    (pi.calls.countP fun bc => decide (bc.base_id = 0)) +
      (pi.calls.countP fun bc => decide (bc.base_id = 1)) +
      (pi.calls.countP fun bc => decide (bc.base_id = 2)) +
      (pi.calls.countP fun bc => decide (bc.base_id = 3)) = pi.calls.length := by
  refine ⟨?_, countP_base_sum pi.calls h⟩
  obtain ⟨res, hres, _, hval⟩ := countBases_ok pi.calls (List.replicate N_BASE 0)
    (by simpa using h) (by simp [N_BASE, BASE_ID.ANY])
  unfold report_counts
  rw [hres]
  have hz : ∀ b, (List.replicate N_BASE 0).getD b 0 = 0 := by
    intro b
    simp only [List.getD_eq_getElem?_getD, List.getElem?_replicate]
    split <;> rfl
  simp only [Except.bind, hval, hz, Nat.zero_add]
  have hr : List.range N_BASE = [0, 1, 2, 3] := rfl
  rw [hr]
  simp

/-- The statement of C17 at a pileup of six calls: the line is `101 3 0 1 2 7`. -/
theorem report_counts_line_witness :
    (∀ bc ∈ examplePileup.calls, bc.base_id < N_BASE) ∧
    report_counts examplePileup 7 101 [] =
      .ok [StreamItem.int 101, StreamItem.tab, StreamItem.nat 3, StreamItem.tab,
        StreamItem.nat 0, StreamItem.tab, StreamItem.nat 1, StreamItem.tab,
        StreamItem.nat 2, StreamItem.tab, StreamItem.nat 7, StreamItem.newline] :=
  ⟨by decide, (report_counts_line examplePileup 7 101 [] (by decide)).1⟩

/-! ## The SNP path -/

theorem report_counts_succeeds (pi : snp_pos_info) (n_unused_calls : Nat) (output_pos : Int)
    (os : List StreamItem) (h : ∀ bc ∈ pi.calls, bc.base_id < N_BASE) :
    ∃ os1, report_counts pi n_unused_calls output_pos os = .ok os1 := by
  obtain ⟨res, hres, _, _⟩ := countBases_ok pi.calls (List.replicate N_BASE 0)
    (by simpa using h) (by simp [N_BASE, BASE_ID.ANY])
  exact ⟨_, by unfold report_counts; rw [hres]; rfl⟩

theorem counts_step_succeeds (is_counts : Bool) (pi : snp_pos_info) (n_unused_calls : Nat)
    (output_pos : Int) (os : List StreamItem)
    (h : is_counts = true → ∀ bc ∈ pi.calls, bc.base_id < N_BASE) :
    ∃ os1, (if is_counts = true then report_counts pi n_unused_calls output_pos os
      else .ok os) = .ok os1 := by
  cases is_counts with
  | false => exact ⟨os, rfl⟩
  | true =>
    obtain ⟨os1, h1⟩ := report_counts_succeeds pi n_unused_calls output_pos os (h rfl)
    exact ⟨os1, by simpa using h1⟩

/-- The diploid routine returns at the skip test exactly on an empty raw pileup at a position
that is neither forced nor held. -/
theorem impl_skipped (env : SnpEnv) (pos : Int) (st : SnpState)
    (h : (st.cpi.rawPileup.calls.isEmpty &&
      !(env.is_forced_output_pos pos || env.is_save_pileup_buffer)) = true) :
    process_pos_snp_single_sample_impl env pos 0 st = .ok (.skipped, st) := by
  unfold process_pos_snp_single_sample_impl
  simp only [ne_eq, not_true_eq_false, if_false, h, if_true]

/-- Past the skip test the diploid routine runs to its end and hands one record to the
aggregator. -/
theorem impl_processed (env : SnpEnv) (pos : Int) (st : SnpState)
    (h : (st.cpi.rawPileup.calls.isEmpty &&
      !(env.is_forced_output_pos pos || env.is_save_pileup_buffer)) = false)
    (hcounts : env.opt.is_counts = true →
      ∀ bc ∈ (env.CleanPileupErrorProb st.cpi).cleanedPileup.calls, bc.base_id < N_BASE) :
    ∃ out si, process_pos_snp_single_sample_impl env pos 0 st = .ok (.processed, out) ∧
      out.sites = st.sites ++ [SiteRecord.diploid si] ∧ si.pos = pos ∧
      si.isForcedOutput = env.is_forced_output_pos pos := by
  obtain ⟨os1, h1⟩ := counts_step_succeeds env.opt.is_counts
    (env.CleanPileupErrorProb st.cpi).cleanedPileup
    (env.CleanPileupErrorProb st.cpi).n_unused_calls (pos + 1) st.counts_os hcounts
  unfold process_pos_snp_single_sample_impl
  simp only [ne_eq, not_true_eq_false, if_false, h, Bool.false_eq_true]
  rw [h1]
  exact ⟨_, _, rfl, rfl, rfl, rfl⟩

theorem addBase_eq (env : SnpEnv) (locusInfo : GermlineContinuousSiteLocusInfo)
    (good_pi : snp_pos_info) (baseId : Nat) (isForcedOutput : Bool)
    (acc : Bool × List SiteRecord × List (Nat × Bool)) :
    addBase env locusInfo good_pi baseId isForcedOutput acc =
      (acc.1 || (siteOfBase env locusInfo good_pi isForcedOutput baseId).isSome,
        acc.2.1 ++ (siteOfBase env locusInfo good_pi isForcedOutput baseId).toList,
        acc.2.2 ++ [(baseId, isForcedOutput)]) := by
  unfold addBase siteOfBase
  by_cases hc : (!(env.position_snp_call_continuous good_pi baseId isForcedOutput
      locusInfo).altAlleles.isEmpty) = true
  · simp [hc]
  · simp [hc]

theorem addBases_eq (env : SnpEnv) (locusInfo : GermlineContinuousSiteLocusInfo)
    (good_pi : snp_pos_info) (is_forced : Bool) :
    ∀ (remaining baseId : Nat) (acc : Bool × List SiteRecord × List (Nat × Bool)),
      addBases env locusInfo good_pi is_forced remaining baseId acc =
        (acc.1 || !((List.range' baseId remaining).filterMap
            (siteOfBase env locusInfo good_pi is_forced)).isEmpty,
          acc.2.1 ++ (List.range' baseId remaining).filterMap
            (siteOfBase env locusInfo good_pi is_forced),
          acc.2.2 ++ (List.range' baseId remaining).map fun b => (b, is_forced)) := by
  intro remaining
  induction remaining with
  | zero =>
    intro baseId acc
    simp [addBases]
  | succ n ih =>
    intro baseId acc
    rw [addBases, ih, addBase_eq, List.range'_succ]
    cases hs : siteOfBase env locusInfo good_pi is_forced baseId with
    | none => simp [List.filterMap_cons, hs]
    | some r => simp [List.filterMap_cons, hs]

/-- The continuous routine returns at the skip test exactly on an empty raw pileup at a position
that is not forced; the pileup object has been cleaned by then. -/
theorem continuous_skipped (env : SnpEnv) (pos : Int) (st : SnpState)
    (h : ((env.CleanPileupErrorProb st.cpi).rawPileup.calls.isEmpty &&
      !env.is_forced_output_pos pos) = true) :
    process_pos_snp_single_sample_continuous env pos 0 st =
      .ok (.skipped, { st with cpi := env.CleanPileupErrorProb st.cpi }) := by
  unfold process_pos_snp_single_sample_continuous
  simp only [ne_eq, not_true_eq_false, if_false, h, if_true]

/-- Past the skip test the continuous routine runs to its end: the records of the per-base
calls are handed to the aggregator, and the call for the reference base is made, and its
record handed over, exactly when there is no per-base record. -/
theorem continuous_processed (env : SnpEnv) (pos : Int) (st : SnpState)
    (h : ((env.CleanPileupErrorProb st.cpi).rawPileup.calls.isEmpty &&
      !env.is_forced_output_pos pos) = false)
    (hcounts : env.opt.is_counts = true →
      ∀ bc ∈ (env.CleanPileupErrorProb st.cpi).cleanedPileup.calls, bc.base_id < N_BASE) :
    ∃ counts_os, process_pos_snp_single_sample_continuous env pos 0 st =
      .ok (.processed,
        ⟨env.CleanPileupErrorProb st.cpi,
          st.sites ++
            perBaseSites env (continuousLocusInfo env pos (env.CleanPileupErrorProb st.cpi))
              (env.CleanPileupErrorProb st.cpi).cleanedPileup (env.is_forced_output_pos pos) ++
            (if perBaseSites env (continuousLocusInfo env pos (env.CleanPileupErrorProb st.cpi))
                (env.CleanPileupErrorProb st.cpi).cleanedPileup (env.is_forced_output_pos pos)
                = [] then
              (siteOfBase env (continuousLocusInfo env pos (env.CleanPileupErrorProb st.cpi))
                (env.CleanPileupErrorProb st.cpi).cleanedPileup true
                (env.base_to_id
                  (continuousLocusInfo env pos (env.CleanPileupErrorProb st.cpi)).ref)).toList
            else []),
          st.continuousCalls ++
            ((List.range' 0 N_BASE).map fun b => (b, env.is_forced_output_pos pos)) ++
            (if perBaseSites env (continuousLocusInfo env pos (env.CleanPileupErrorProb st.cpi))
                (env.CleanPileupErrorProb st.cpi).cleanedPileup (env.is_forced_output_pos pos)
                = [] then
              [(env.base_to_id
                (continuousLocusInfo env pos (env.CleanPileupErrorProb st.cpi)).ref, true)]
            else []),
          counts_os, st.nonref_sites_os, st.nonref_test_os, st.report_os⟩) := by
  obtain ⟨os1, h1⟩ := counts_step_succeeds env.opt.is_counts
    (env.CleanPileupErrorProb st.cpi).cleanedPileup
    (env.CleanPileupErrorProb st.cpi).n_unused_calls (pos + 1) st.counts_os hcounts
  refine ⟨os1, ?_⟩
  unfold process_pos_snp_single_sample_continuous
  simp only [ne_eq, not_true_eq_false, if_false, h, Bool.false_eq_true]
  rw [h1]
  simp only [Except.bind, addBases_eq, addBase_eq, Bool.false_or]
  by_cases hp : perBaseSites env (continuousLocusInfo env pos (env.CleanPileupErrorProb st.cpi))
      (env.CleanPileupErrorProb st.cpi).cleanedPileup (env.is_forced_output_pos pos) = []
  · have hp2 := hp
    unfold perBaseSites continuousLocusInfo at hp2
    simp only [hp, hp2, if_true, perBaseSites, continuousLocusInfo, List.isEmpty_nil,
      Bool.not_true, Bool.not_false, List.append_nil, List.append_assoc]
  · have hp2 := hp
    unfold perBaseSites continuousLocusInfo at hp2
    have hne : ((List.range' 0 N_BASE).filterMap (siteOfBase env
        ⟨pos, (env.CleanPileupErrorProb st.cpi).rawPileup.get_ref_base,
          (env.CleanPileupErrorProb st.cpi).cleanedPileup, env.is_forced_output_pos pos,
          (env.CleanPileupErrorProb st.cpi).n_used_calls,
          (env.CleanPileupErrorProb st.cpi).n_unused_calls, env.get_snp_hpol_size pos, []⟩
        (env.CleanPileupErrorProb st.cpi).cleanedPileup (env.is_forced_output_pos pos))).isEmpty
        = false := by
      simpa [List.isEmpty_iff] using hp2
    simp only [hne, perBaseSites, continuousLocusInfo, Bool.not_false,
      Bool.not_true, List.append_nil, Bool.false_eq_true, Bool.true_eq_false, hp2, if_false]

/-- C13 at a failing input: continuous mode, sample 0, position 100 is not a forced-output
position, the raw pileup is empty, and a hold on the pileup buffer is active. The continuous
routine returns at its skip test and no record is emitted, so the method
`process_pos_snp_single_sample` leaves the state as it was; the diploid routine, at the same
position, pileup and hold, processes the position and emits one record. -/
theorem continuous_skips_under_hold :
    (exampleSnpEnv continuousOptions true).opt.is_bsnp_diploid = false ∧
    (exampleSnpEnv continuousOptions true).is_save_pileup_buffer = true ∧
    (exampleSnpEnv continuousOptions true).is_forced_output_pos 100 = false ∧
    (snpStateOf emptyPileup).cpi.rawPileup.calls = [] ∧
    process_pos_snp_single_sample_continuous (exampleSnpEnv continuousOptions true) 100 0
      (snpStateOf emptyPileup) = .ok (.skipped, snpStateOf emptyPileup) ∧
    process_pos_snp_single_sample_model (exampleSnpEnv continuousOptions true) 100 0
      (snpStateOf emptyPileup) = .ok (snpStateOf emptyPileup) ∧
    (process_pos_snp_single_sample_impl (exampleSnpEnv diploidOptions true) 100 0
      (snpStateOf emptyPileup)).map (fun o => (o.1, o.2.sites.length)) = .ok (.processed, 1) :=
  ⟨rfl, rfl, rfl, rfl, rfl, rfl, rfl⟩

/-- The skip tests of the two routines, for sample 0, when the counts line can be written: both
routines return. The diploid routine skips the position, leaving the state as it was, if and
only if the raw pileup is empty, the position is not forced and no hold on the pileup buffer is
active; otherwise it processes the position and emits one record. The continuous routine skips
the position, emitting no record and calling no caller, if and only if the raw pileup is empty
and the position is not forced; otherwise it makes the per-base calls. -/
theorem snp_skip_tests (env : SnpEnv) (pos : Int) (st : SnpState)
    (hcounts : env.opt.is_counts = true →
      ∀ bc ∈ (env.CleanPileupErrorProb st.cpi).cleanedPileup.calls, bc.base_id < N_BASE) :
    (∃ outcome out, process_pos_snp_single_sample_impl env pos 0 st = .ok (outcome, out) ∧
      (outcome = .skipped ↔ st.cpi.rawPileup.calls = [] ∧
        env.is_forced_output_pos pos = false ∧ env.is_save_pileup_buffer = false) ∧
      (outcome = .skipped → out = st) ∧
      (outcome ≠ .skipped → outcome = .processed ∧
        ∃ si, out.sites = st.sites ++ [SiteRecord.diploid si] ∧ si.pos = pos)) ∧
    (∃ outcome out, process_pos_snp_single_sample_continuous env pos 0 st = .ok (outcome, out) ∧
      (outcome = .skipped ↔ (env.CleanPileupErrorProb st.cpi).rawPileup.calls = [] ∧
        env.is_forced_output_pos pos = false) ∧
      (outcome = .skipped → out.sites = st.sites ∧ out.continuousCalls = st.continuousCalls) ∧
      (outcome ≠ .skipped → outcome = .processed ∧
        ∃ calls, out.continuousCalls = st.continuousCalls ++
          ((List.range' 0 N_BASE).map fun b => (b, env.is_forced_output_pos pos)) ++ calls)) := by
  constructor
  · cases h : (st.cpi.rawPileup.calls.isEmpty &&
        !(env.is_forced_output_pos pos || env.is_save_pileup_buffer)) with
    | true =>
      refine ⟨.skipped, st, impl_skipped env pos st h, ?_, fun _ => rfl, fun hne => absurd rfl hne⟩
      simp only [Bool.and_eq_true, Bool.not_eq_true', Bool.or_eq_false_iff,
        List.isEmpty_iff] at h
      simp [h]
    | false =>
      obtain ⟨out, si, hrun, hsites, hpos, _⟩ := impl_processed env pos st h hcounts
      refine ⟨.processed, out, hrun, ?_, (fun hs => by cases hs), fun _ => ⟨rfl, si, hsites, hpos⟩⟩
      constructor
      · intro hs
        cases hs
      · rintro ⟨h1, h2, h3⟩
        simp [h1, h2, h3] at h
  · cases h : ((env.CleanPileupErrorProb st.cpi).rawPileup.calls.isEmpty &&
        !env.is_forced_output_pos pos) with
    | true =>
      refine ⟨.skipped, _, continuous_skipped env pos st h, ?_, fun _ => ⟨rfl, rfl⟩,
        fun hne => absurd rfl hne⟩
      simp only [Bool.and_eq_true, Bool.not_eq_true', List.isEmpty_iff] at h
      simp [h]
    | false =>
      obtain ⟨counts_os, hrun⟩ := continuous_processed env pos st h hcounts
      refine ⟨.processed, _, hrun, ?_, (fun hs => by cases hs), fun _ => ⟨rfl, _, rfl⟩⟩
      constructor
      · intro hs
        cases hs
      · rintro ⟨h1, h2⟩
        simp [h1, h2] at h

/-- The skip tests at an empty pileup of a position that is not forced, under a hold, with the
counts stream on: the diploid routine emits a record, the continuous routine skips. -/
theorem snp_skip_tests_example :
    ((exampleSnpEnv diploidOptions true).opt.is_counts = true →
      ∀ bc ∈ ((exampleSnpEnv diploidOptions true).CleanPileupErrorProb
        (snpStateOf emptyPileup).cpi).cleanedPileup.calls, bc.base_id < N_BASE) ∧
    (∃ outcome out, process_pos_snp_single_sample_impl (exampleSnpEnv diploidOptions true) 100 0
        (snpStateOf emptyPileup) = .ok (outcome, out) ∧
      (outcome = .skipped ↔ (snpStateOf emptyPileup).cpi.rawPileup.calls = [] ∧
        (exampleSnpEnv diploidOptions true).is_forced_output_pos 100 = false ∧
        (exampleSnpEnv diploidOptions true).is_save_pileup_buffer = false) ∧
      (outcome = .skipped → out = snpStateOf emptyPileup) ∧
      (outcome ≠ .skipped → outcome = .processed ∧
        ∃ si, out.sites = (snpStateOf emptyPileup).sites ++ [SiteRecord.diploid si] ∧
          si.pos = 100)) ∧
    (process_pos_snp_single_sample_impl (exampleSnpEnv diploidOptions true) 100 0
        (snpStateOf emptyPileup)).map (fun o => (o.1, o.2.sites.length)) = .ok (.processed, 1) ∧
    (process_pos_snp_single_sample_continuous (exampleSnpEnv diploidOptions true) 100 0
        (snpStateOf emptyPileup)).map (fun o => (o.1, o.2.sites.length)) = .ok (.skipped, 0) :=
  ⟨by decide,
    (snp_skip_tests (exampleSnpEnv diploidOptions true) 100 (snpStateOf emptyPileup)
      (by decide)).1, rfl, rfl⟩

/-- The caller modelled from the spec adds an allele on the forced call for the reference
base. -/
theorem forced_reference_call_adds_allele (good_pi : snp_pos_info)
    (si : GermlineContinuousSiteLocusInfo) :
    (position_snp_call_continuous good_pi (base_to_id si.ref) true si).altAlleles ≠ [] := by
  unfold position_snp_call_continuous
  simp

/-- Past the skip test, when the counts line can be written and the forced call of the caller
for the reference base adds an allele, the continuous routine emits at least one record: the
records of the per-base calls, or, when there is none, the record of the one further call, for
the reference base with forced output. -/
theorem continuous_emits_site (env : SnpEnv) (pos : Int) (st : SnpState)
    (hns : ((env.CleanPileupErrorProb st.cpi).rawPileup.calls.isEmpty &&
      !env.is_forced_output_pos pos) = false)
    (hcounts : env.opt.is_counts = true →
      ∀ bc ∈ (env.CleanPileupErrorProb st.cpi).cleanedPileup.calls, bc.base_id < N_BASE)
    (hcaller : (env.position_snp_call_continuous (env.CleanPileupErrorProb st.cpi).cleanedPileup
        (env.base_to_id (continuousLocusInfo env pos (env.CleanPileupErrorProb st.cpi)).ref) true
        (continuousLocusInfo env pos (env.CleanPileupErrorProb st.cpi))).altAlleles ≠ []) :
    ∃ out recs, process_pos_snp_single_sample_continuous env pos 0 st = .ok (.processed, out) ∧
      out.sites = st.sites ++ recs ∧ 1 ≤ recs.length ∧
      (perBaseSites env (continuousLocusInfo env pos (env.CleanPileupErrorProb st.cpi))
          (env.CleanPileupErrorProb st.cpi).cleanedPileup (env.is_forced_output_pos pos) = [] →
        recs = [SiteRecord.continuous (env.position_snp_call_continuous
          (env.CleanPileupErrorProb st.cpi).cleanedPileup
          (env.base_to_id (continuousLocusInfo env pos (env.CleanPileupErrorProb st.cpi)).ref)
          true (continuousLocusInfo env pos (env.CleanPileupErrorProb st.cpi)))] ∧
        out.continuousCalls = st.continuousCalls ++
          [(0, env.is_forced_output_pos pos), (1, env.is_forced_output_pos pos),
            (2, env.is_forced_output_pos pos), (3, env.is_forced_output_pos pos),
            (env.base_to_id (continuousLocusInfo env pos (env.CleanPileupErrorProb st.cpi)).ref,
              true)]) ∧
      (perBaseSites env (continuousLocusInfo env pos (env.CleanPileupErrorProb st.cpi))
          (env.CleanPileupErrorProb st.cpi).cleanedPileup (env.is_forced_output_pos pos) ≠ [] →
        recs = perBaseSites env (continuousLocusInfo env pos (env.CleanPileupErrorProb st.cpi))
          (env.CleanPileupErrorProb st.cpi).cleanedPileup (env.is_forced_output_pos pos) ∧
        out.continuousCalls = st.continuousCalls ++
          [(0, env.is_forced_output_pos pos), (1, env.is_forced_output_pos pos),
            (2, env.is_forced_output_pos pos), (3, env.is_forced_output_pos pos)]) := by
  obtain ⟨counts_os, hrun⟩ := continuous_processed env pos st hns hcounts
  have hfall : siteOfBase env (continuousLocusInfo env pos (env.CleanPileupErrorProb st.cpi))
      (env.CleanPileupErrorProb st.cpi).cleanedPileup true
      (env.base_to_id (continuousLocusInfo env pos (env.CleanPileupErrorProb st.cpi)).ref) =
      some (SiteRecord.continuous (env.position_snp_call_continuous
        (env.CleanPileupErrorProb st.cpi).cleanedPileup
        (env.base_to_id (continuousLocusInfo env pos (env.CleanPileupErrorProb st.cpi)).ref)
        true (continuousLocusInfo env pos (env.CleanPileupErrorProb st.cpi)))) := by
    unfold siteOfBase
    simp [List.isEmpty_iff, hcaller]
  have hrange : ((List.range' 0 N_BASE).map fun b => (b, env.is_forced_output_pos pos)) =
      [(0, env.is_forced_output_pos pos), (1, env.is_forced_output_pos pos),
        (2, env.is_forced_output_pos pos), (3, env.is_forced_output_pos pos)] := rfl
  by_cases hp : perBaseSites env (continuousLocusInfo env pos (env.CleanPileupErrorProb st.cpi))
      (env.CleanPileupErrorProb st.cpi).cleanedPileup (env.is_forced_output_pos pos) = []
  · refine ⟨_, _, hrun, ?_, ?_, fun _ => ⟨rfl, ?_⟩, fun hne => absurd hp hne⟩
    · simp [hp, hfall, List.append_assoc]
    · simp
    · simp [hp, hrange]
  · refine ⟨_, _, hrun, ?_, ?_, fun he => absurd he hp, fun _ => ⟨rfl, ?_⟩⟩
    · simp [hp]
    · exact List.length_pos.mpr hp
    · simp [hp, hrange]

/-- With the caller modelled from the spec, a call on a record without alleles produces no
record exactly when the base is neither an alternate base with support in the cleaned pileup
nor the reference base under forced output. -/
theorem siteOfBase_modelled_eq_none_iff (env : SnpEnv)
    (locusInfo : GermlineContinuousSiteLocusInfo) (good_pi : snp_pos_info)
    (isForcedOutput : Bool) (baseId : Nat) (hli : locusInfo.altAlleles = []) :
    siteOfBase (withModelledCaller env) locusInfo good_pi isForcedOutput baseId = none ↔
      ¬ ((baseId ≠ base_to_id locusInfo.ref ∧
          0 < good_pi.calls.countP fun bc => decide (bc.base_id = baseId)) ∨
        (isForcedOutput = true ∧ baseId = base_to_id locusInfo.ref)) := by
  unfold siteOfBase withModelledCaller position_snp_call_continuous
  by_cases hc : (baseId ≠ base_to_id locusInfo.ref ∧
      0 < good_pi.calls.countP fun bc => decide (bc.base_id = baseId)) ∨
      (isForcedOutput = true ∧ baseId = base_to_id locusInfo.ref)
  · simp only [hc, if_true, not_true_eq_false, iff_false]
    simp
  · simp only [hc, if_false, not_false_eq_true, iff_true]
    simp [hli]

/-- With the caller modelled from the spec, no per-base call produces a record exactly when no
alternate base among the four has support in the cleaned pileup and either output is not
forced or the reference letter is none of the four bases. -/
theorem perBaseSites_modelled_eq_nil_iff (env : SnpEnv)
    (locusInfo : GermlineContinuousSiteLocusInfo) (good_pi : snp_pos_info) (is_forced : Bool)
    (hli : locusInfo.altAlleles = []) :
    perBaseSites (withModelledCaller env) locusInfo good_pi is_forced = [] ↔
      (∀ b, b < N_BASE → b ≠ base_to_id locusInfo.ref →
        (good_pi.calls.countP fun bc => decide (bc.base_id = b)) = 0) ∧
      (is_forced = false ∨ N_BASE ≤ base_to_id locusInfo.ref) := by
  unfold perBaseSites
  rw [List.filterMap_eq_nil_iff]
  have hmem : ∀ b, b ∈ List.range' 0 N_BASE ↔ b < N_BASE := by
    intro b
    simp [List.mem_range']
  constructor
  · intro h
    constructor
    · intro b hb hne
      have hnone := (siteOfBase_modelled_eq_none_iff env locusInfo good_pi is_forced b hli).mp
        (h b ((hmem b).mpr hb))
      by_contra hpos
      exact hnone (Or.inl ⟨hne, Nat.pos_of_ne_zero hpos⟩)
    · by_cases hf : is_forced = true
      · right
        by_contra hlt
        have hr : base_to_id locusInfo.ref < N_BASE := Nat.lt_of_not_le hlt
        have hnone := (siteOfBase_modelled_eq_none_iff env locusInfo good_pi is_forced
          (base_to_id locusInfo.ref) hli).mp (h _ ((hmem _).mpr hr))
        exact hnone (Or.inr ⟨hf, rfl⟩)
      · left
        simpa using hf
  · rintro ⟨hsupport, hforced⟩ b hb
    rw [siteOfBase_modelled_eq_none_iff env locusInfo good_pi is_forced b hli]
    have hlt := (hmem b).mp hb
    rintro (⟨hne, hpos⟩ | ⟨hf, hbr⟩)
    · have := hsupport b hlt hne
      omega
    · rcases hforced with hff | hge
      · rw [hff] at hf
        cases hf
      · omega

/-- C14: in continuous mode, with the caller modelled from the spec, for sample 0 and at every
position that is processed (every forced-output position, and every other position whose raw
pileup is not empty), when the counts line can be written, the routine returns and emits at
least one record. The caller is called once for each of the four bases; when none of these
calls produces a record, it is called once more, for the reference base with forced output,
and the reference-base record of that call is the one emitted; when some per-base call
produces a record, the records emitted are those of the per-base calls and no further call is
made. None of the per-base calls produces a record exactly when no alternate base has support
in the cleaned pileup and either the position is not forced or the reference letter is none
of the four bases. -/
theorem continuous_position_emits_site (env : SnpEnv) (pos : Int) (st : SnpState)
    (hproc : env.is_forced_output_pos pos = true ∨
      (env.CleanPileupErrorProb st.cpi).rawPileup.calls ≠ [])
    (hcounts : env.opt.is_counts = true →
      ∀ bc ∈ (env.CleanPileupErrorProb st.cpi).cleanedPileup.calls, bc.base_id < N_BASE) :
    ∃ out recs,
      process_pos_snp_single_sample_continuous (withModelledCaller env) pos 0 st =
        .ok (.processed, out) ∧
      out.sites = st.sites ++ recs ∧ 1 ≤ recs.length ∧
      (perBaseSites (withModelledCaller env)
          (continuousLocusInfo env pos (env.CleanPileupErrorProb st.cpi))
          (env.CleanPileupErrorProb st.cpi).cleanedPileup (env.is_forced_output_pos pos) = [] →
        recs = [SiteRecord.continuous
          { continuousLocusInfo env pos (env.CleanPileupErrorProb st.cpi) with
            altAlleles := [base_to_id (env.CleanPileupErrorProb st.cpi).rawPileup.ref_base] }] ∧
        out.continuousCalls = st.continuousCalls ++
          [(0, env.is_forced_output_pos pos), (1, env.is_forced_output_pos pos),
            (2, env.is_forced_output_pos pos), (3, env.is_forced_output_pos pos),
            (base_to_id (env.CleanPileupErrorProb st.cpi).rawPileup.ref_base, true)]) ∧
      (perBaseSites (withModelledCaller env)
          (continuousLocusInfo env pos (env.CleanPileupErrorProb st.cpi))
          (env.CleanPileupErrorProb st.cpi).cleanedPileup (env.is_forced_output_pos pos) ≠ [] →
        recs = perBaseSites (withModelledCaller env)
          (continuousLocusInfo env pos (env.CleanPileupErrorProb st.cpi))
          (env.CleanPileupErrorProb st.cpi).cleanedPileup (env.is_forced_output_pos pos) ∧
        out.continuousCalls = st.continuousCalls ++
          [(0, env.is_forced_output_pos pos), (1, env.is_forced_output_pos pos),
            (2, env.is_forced_output_pos pos), (3, env.is_forced_output_pos pos)]) ∧
      (perBaseSites (withModelledCaller env)
          (continuousLocusInfo env pos (env.CleanPileupErrorProb st.cpi))
          (env.CleanPileupErrorProb st.cpi).cleanedPileup (env.is_forced_output_pos pos) = [] ↔
        (∀ b, b < N_BASE →
          b ≠ base_to_id (env.CleanPileupErrorProb st.cpi).rawPileup.ref_base →
          ((env.CleanPileupErrorProb st.cpi).cleanedPileup.calls.countP
            fun bc => decide (bc.base_id = b)) = 0) ∧
        (env.is_forced_output_pos pos = false ∨
          N_BASE ≤ base_to_id (env.CleanPileupErrorProb st.cpi).rawPileup.ref_base)) := by
  have hns : ((env.CleanPileupErrorProb st.cpi).rawPileup.calls.isEmpty &&
      !env.is_forced_output_pos pos) = false := by
    rcases hproc with hf | hne
    · simp [hf]
    · simp [List.isEmpty_iff, hne]
  obtain ⟨out, recs, hrun, hsites, hlen, hfb, hloop⟩ :=
    continuous_emits_site (withModelledCaller env) pos st hns hcounts
      (forced_reference_call_adds_allele (env.CleanPileupErrorProb st.cpi).cleanedPileup
        (continuousLocusInfo env pos (env.CleanPileupErrorProb st.cpi)))
  have hrec : position_snp_call_continuous (env.CleanPileupErrorProb st.cpi).cleanedPileup
      (base_to_id (env.CleanPileupErrorProb st.cpi).rawPileup.ref_base) true
      (continuousLocusInfo env pos (env.CleanPileupErrorProb st.cpi)) =
      { continuousLocusInfo env pos (env.CleanPileupErrorProb st.cpi) with
        altAlleles := [base_to_id (env.CleanPileupErrorProb st.cpi).rawPileup.ref_base] } := by
    unfold position_snp_call_continuous
    simp [continuousLocusInfo, snp_pos_info.get_ref_base]
  refine ⟨out, recs, hrun, hsites, hlen, ?_, hloop,
    perBaseSites_modelled_eq_nil_iff env _ _ _ rfl⟩
  intro hp
  obtain ⟨h1, h2⟩ := hfb hp
  refine ⟨?_, h2⟩
  rw [h1, ← hrec]
  rfl

/-- The statement of C14 at two positions. At the forced position 200 over the reference base
A, with calls of the bases 0, 2 and 3 in the cleaned pileup, the four per-base calls produce
three records and no further call is made. At position 100, which is not forced, with a pileup
of reference calls only, none of the four per-base calls produces a record, and the record of
the fifth call, for the reference base with forced output, is emitted. -/
theorem continuous_position_emits_site_witness :
    (exampleSnpEnv continuousOptions false).is_forced_output_pos 200 = true ∧
    (∃ out recs,
      process_pos_snp_single_sample_continuous
        (withModelledCaller (exampleSnpEnv continuousOptions false)) 200 0
        (snpStateOf examplePileup) = .ok (.processed, out) ∧
      out.sites = (snpStateOf examplePileup).sites ++ recs ∧ recs.length = 3 ∧
      out.continuousCalls = (snpStateOf examplePileup).continuousCalls ++
        [(0, true), (1, true), (2, true), (3, true)]) ∧
    ((exampleSnpEnv continuousOptions false).is_forced_output_pos 100 = false ∧
      ((exampleSnpEnv continuousOptions false).CleanPileupErrorProb
        (snpStateOf referencePileup).cpi).rawPileup.calls ≠ []) ∧
    (∃ out recs,
      process_pos_snp_single_sample_continuous
        (withModelledCaller (exampleSnpEnv continuousOptions false)) 100 0
        (snpStateOf referencePileup) = .ok (.processed, out) ∧
      out.sites = (snpStateOf referencePileup).sites ++ recs ∧
      recs.length = 1 ∧
      out.continuousCalls = (snpStateOf referencePileup).continuousCalls ++
        [(0, false), (1, false), (2, false), (3, false), (0, true)]) := by
  obtain ⟨out, recs, hrun, hsites, _, _, hloop, _⟩ :=
    continuous_position_emits_site (exampleSnpEnv continuousOptions false) 200
      (snpStateOf examplePileup) (Or.inl rfl) (by decide)
  obtain ⟨hrecs, hcalls⟩ := hloop (by decide)
  obtain ⟨out2, recs2, hrun2, hsites2, _, hfallback, _, _⟩ :=
    continuous_position_emits_site (exampleSnpEnv continuousOptions false) 100
      (snpStateOf referencePileup) (Or.inr (by decide)) (by decide)
  obtain ⟨hrecs2, hcalls2⟩ := hfallback rfl
  exact ⟨rfl, ⟨out, recs, hrun, hsites, by rw [hrecs]; rfl, hcalls⟩, ⟨rfl, by decide⟩,
    ⟨out2, recs2, hrun2, hsites2, by rw [hrecs2]; rfl, hcalls2⟩⟩

/-- C15: with the gVCF output option set (the assertion of line 184),
`process_pos_snp_single_sample(pos, sample_no)` fails if and only if the mode-specific routine
it dispatches to fails. When that routine throws, the same exception leaves the method, after
the message with the 1-based position `pos + 1` and the pileup of the position have been
written to the log; a failed assertion of the routine aborts unchanged; and when the routine
returns, the method returns with the routine's state. -/
theorem snp_exception_logged_and_rethrown (env : SnpEnv)
    (impl continuous : Int → Nat → SnpState → Except Failure SnpState)
    (pos : Int) (sample_no : Nat) (st : SnpState)
    (hgvcf : env.opt.is_gvcf_output = true) :
    ((∃ f, process_pos_snp_single_sample env impl continuous pos sample_no st = .error f) ↔
      ∃ f, (if env.opt.is_bsnp_diploid = true then impl pos sample_no st
        else continuous pos sample_no st) = .error f) ∧
    (∀ e log_os, (if env.opt.is_bsnp_diploid = true then impl pos sample_no st
        else continuous pos sample_no st) = .error (.exception e log_os) →
      process_pos_snp_single_sample env impl continuous pos sample_no st =
        .error (.exception e (log_os ++
          [StreamItem.text ("Exception caught in starling_pos_processor_base." ++
              "process_pos_snp_single_sample_impl() while processing chromosome position: "),
            StreamItem.int (pos + 1), StreamItem.newline,
            StreamItem.text "snp_pos_info:", StreamItem.newline,
            StreamItem.pileup (env.bc_buff_get_pos sample_no pos), StreamItem.newline]))) ∧
    (∀ f, (if env.opt.is_bsnp_diploid = true then impl pos sample_no st
        else continuous pos sample_no st) = .error (.abort f) →
      process_pos_snp_single_sample env impl continuous pos sample_no st = .error (.abort f)) ∧
    (∀ st1, (if env.opt.is_bsnp_diploid = true then impl pos sample_no st
        else continuous pos sample_no st) = .ok st1 →
      process_pos_snp_single_sample env impl continuous pos sample_no st = .ok st1) := by
  unfold process_pos_snp_single_sample
  simp only [hgvcf, Bool.not_true, Bool.false_eq_true, if_false]
  cases hd : (if env.opt.is_bsnp_diploid = true then impl pos sample_no st
      else continuous pos sample_no st) with
  | ok st1 => simp
  | error f =>
    cases f with
    | abort f => simp
    | exception e log_os => simp

/-- The statement of C15 at a diploid routine that throws exception 7 at position 100: the
method fails with exception 7, and the log ends with the message for position 101 and the
pileup. -/
theorem snp_exception_logged_and_rethrown_witness :
    (exampleSnpEnv diploidOptions false).opt.is_gvcf_output = true ∧
    process_pos_snp_single_sample (exampleSnpEnv diploidOptions false)
        (fun _ _ _ => .error (.exception 7 [StreamItem.text "caller"]))
        (asDispatched (process_pos_snp_single_sample_continuous
          (exampleSnpEnv diploidOptions false))) 100 0 (snpStateOf examplePileup) =
      .error (.exception 7
        [StreamItem.text "caller",
          StreamItem.text ("Exception caught in starling_pos_processor_base." ++
            "process_pos_snp_single_sample_impl() while processing chromosome position: "),
          StreamItem.int 101, StreamItem.newline,
          StreamItem.text "snp_pos_info:", StreamItem.newline,
          StreamItem.pileup examplePileup, StreamItem.newline]) :=
  ⟨rfl, (snp_exception_logged_and_rethrown (exampleSnpEnv diploidOptions false)
    (fun _ _ _ => .error (.exception 7 [StreamItem.text "caller"]))
    (asDispatched (process_pos_snp_single_sample_continuous
      (exampleSnpEnv diploidOptions false))) 100 0 (snpStateOf examplePileup) rfl).2.1 7
    [StreamItem.text "caller"] rfl⟩

end Strelka
